import Mathlib

/-!
# Verification of the TimescaleDB SkipScan node

Shallow embedding of the SkipScan planner (`tsl/src/nodes/skip_scan/planner.c`),
the SkipScan executor (`skip_scan_exec` and its helpers) and the scan-key
bookkeeping (`skip_scan_state_remove_skip_qual`,
`skip_scan_state_readd_skip_qual_if_needed`,
`skip_scan_state_fixup_qual_order`), together with proofs of the testable
properties stated in the module specification.

The embedding is organised in three largely independent models:

* `SkipScanKeys`   — the ScanKey array manipulation done with `memmove` in C,
  modelled positionally on lists;
* `SkipScanPlanner` — path creation (`create_index_skip_scan_path`,
  `ts_add_skip_scan_paths`), plan creation (`skip_scan_plan_create`) and the
  defensive checks of `skip_scan_begin`;
* `SkipScanExec`   — the execution-time state machine (`skip_scan_exec`,
  `update_skip_key`, `skip_scan_state_populate_skip_qual`,
  `skip_scan_search_for_null`, `skip_scan_search_for_nonnull`,
  `skip_scan_rescan`).
-/

namespace SkipScanKeys

/-- One `ScanKeyData` entry of the inner Index(Only)Scan: the index attribute
number the qual applies to (`sk_attno`), its flag word (`sk_flags`) and its
argument (`sk_argument`).  Other ScanKey fields do not influence the code
under verification and are folded into `sk_argument`-like payload. -/
structure ScanKeyData where
  sk_attno : Nat
  sk_flags : Nat
  sk_argument : Int
deriving Repr, DecidableEq, Inhabited

/-- `memmove(start, start + 1, sizeof(*start) * n)` on a window beginning at
the head of the list: positions `0 .. n-1` receive the old positions
`1 .. n`, later positions are unchanged.  (The C call has well-defined
behaviour only when `n + 1` entries exist; usage below stays in bounds.) -/
def shiftLeftWin {α : Type} : List α → Nat → List α
  | l, 0 => l
  | [], _ + 1 => []
  | [x], _ + 1 => [x]
  | x :: y :: xs, n + 1 =>
    have : (y :: xs).length < (x :: y :: xs).length := by simp
    y :: shiftLeftWin (y :: xs) n

/-- Helper for `shiftRightWin`: result position `j` holds `(prev :: ys).get j`
for `j < n` and `ys.get j` for `j ≥ n`. -/
def shiftRightCarry {α : Type} : α → List α → Nat → List α
  | _, ys, 0 => ys
  | _, [], _ + 1 => []
  | prev, y :: ys, n + 1 => prev :: shiftRightCarry y ys n

/-- `memmove(start + 1, start, sizeof(*start) * n)` on a window beginning at
the head of the list: positions `1 .. n` receive the old positions
`0 .. n-1`, position `0` and positions past `n` are unchanged. -/
def shiftRightWin {α : Type} : List α → Nat → List α
  | l, 0 => l
  | [], _ + 1 => []
  | x :: xs, n + 1 => x :: shiftRightCarry x xs (n + 1)

/-- Apply `shiftLeftWin · n` to the suffix of `l` starting at `off`. -/
def shiftLeftAt {α : Type} : List α → Nat → Nat → List α
  | l, 0, n => shiftLeftWin l n
  | [], _ + 1, _ => []
  | x :: xs, off + 1, n => x :: shiftLeftAt xs off n

/-- Apply `shiftRightWin · n` to the suffix of `l` starting at `off`. -/
def shiftRightAt {α : Type} : List α → Nat → Nat → List α
  | l, 0, n => shiftRightWin l n
  | [], _ + 1, _ => []
  | x :: xs, off + 1, n => x :: shiftRightAt xs off n

/-- The part of `SkipScanState` that the scan-key manipulation functions
touch: the inner scan's physical ScanKey array (`*state->scan_keys`), the
live key count (`*state->num_scan_keys`), the saved copy of the skip qual
(`state->skip_qual`), its recorded position (`state->skip_qual_offset`) and
the removal flag (`state->skip_qual_removed`). -/
structure KeyState where
  scan_keys : List ScanKeyData
  num_scan_keys : Nat
  skip_qual : ScanKeyData
  skip_qual_offset : Nat
  skip_qual_removed : Bool
deriving Repr, DecidableEq

/-- `skip_scan_state_remove_skip_qual`: save the key found at
`skip_qual_offset` into `skip_qual`, move the `num_scan_keys -
skip_qual_offset - 1` following keys one slot to the left, decrement the key
count and mark the qual removed.  (The C code asserts `num_scan_keys >= 1`
and `!skip_qual_removed` on entry.) -/
def skip_scan_state_remove_skip_qual (s : KeyState) : KeyState :=
  let start := s.scan_keys.getD s.skip_qual_offset default
  { s with
    skip_qual := start
    scan_keys := shiftLeftAt s.scan_keys s.skip_qual_offset
      (s.num_scan_keys - s.skip_qual_offset - 1)
    num_scan_keys := s.num_scan_keys - 1
    skip_qual_removed := true }

/-- `skip_scan_state_readd_skip_qual_if_needed`: when the qual is removed,
move the `num_scan_keys - skip_qual_offset` keys starting at the recorded
offset one slot to the right, write the saved qual back at the offset,
increment the key count and report `true`; otherwise leave the state alone
and report `false`. -/
def skip_scan_state_readd_skip_qual_if_needed (s : KeyState) : KeyState × Bool :=
  if s.skip_qual_removed then
    ({ s with
        skip_qual_removed := false
        num_scan_keys := s.num_scan_keys + 1
        scan_keys :=
          (shiftRightAt s.scan_keys s.skip_qual_offset
            (s.num_scan_keys - s.skip_qual_offset)).set s.skip_qual_offset s.skip_qual },
      true)
  else (s, false)

/-- The scan of `skip_scan_state_fixup_qual_order`'s `while` loop: starting
from offset `0`, it advances past the user keys (the entries after the skip
qual, which sits at the head of the array) whose attribute number is below
the skip qual's, stopping at the first key with `sk_attno >=` the skip
qual's attribute (or at the end of the live keys). -/
def fixupAdvance (a : Nat) : List ScanKeyData → Nat
  | [] => 0
  | k :: ks => if a ≤ k.sk_attno then 0 else fixupAdvance a ks + 1

/-- `skip_scan_state_fixup_qual_order`: the skip qual was placed at the front
of the ScanKey array by plan creation; find its correct offset (first
position of its index column) and, when that offset is positive, `memmove`
the preceding user keys one slot towards the front and store the skip qual
at the offset.  Returns the rearranged array and the recorded
`skip_qual_offset`. -/
def skip_scan_state_fixup_qual_order (keys : List ScanKeyData) : List ScanKeyData × Nat :=
  match keys with
  | [] => ([], 0)
  | skip :: user =>
    let off := fixupAdvance skip.sk_attno user
    if 0 < off then ((shiftLeftWin (skip :: user) off).set off skip, off)
    else (skip :: user, 0)

end SkipScanKeys

namespace SkipScanPlanner

/-- Postgres btree strategy numbers used by `create_index_skip_scan_path`. -/
def BTLessStrategyNumber : Nat := 1

def BTGreaterStrategyNumber : Nat := 5

/-- A plan-time `Var` node: range-table index (`varno`) and attribute number
(`varattno`).  `INDEX_VAR` is the special negative `varno` marking a
reference into the index tuple at execution time. -/
structure PVar where
  varno : Int
  varattno : Int
deriving Repr, DecidableEq

def INDEX_VAR : Int := -3

/-- The data of one candidate `IndexPath` that `create_index_skip_scan_path`
consults, with every external lookup (relcache, syscache, operator family)
represented by its outcome for this path:

* `sortopfamily_isnull` — `indexinfo->sortopfamily == NULL`;
* `indexorderbys`       — the path's `indexorderbys` list;
* `tlist_col`           — result of `find_column_from_tlist` on the index
  tlist and the path's first pathkey (`none` means not found, an `elog`);
* `table_col`           — `indexinfo->indexkeys[col]` (0 = expression or
  system column);
* `column_tuple_valid`, `column_type_valid` — syscache lookup outcomes;
* `att_byval`, `att_typlen` — the attribute's pg_attribute data;
* `reverse_sort`, `scandir_backward` — sort direction data deciding the
  skip operator's btree strategy;
* `comparator_lt`, `comparator_gt` — `get_opfamily_member` outcome for the
  less-than / greater-than strategy;
* `rel_index` — the table's range-table index (`varno` of the built Var). -/
structure IndexPathInfo where
  sortopfamily_isnull : Bool
  indexorderbys : List Unit
  tlist_col : Option Nat
  table_col : Int
  column_tuple_valid : Bool
  column_type_valid : Bool
  att_byval : Bool
  att_typlen : Int
  reverse_sort : Bool
  scandir_backward : Bool
  comparator_lt : Option Nat
  comparator_gt : Option Nat
  rel_index : Int
deriving Repr, DecidableEq

/-- The `SkipScanPath` fields set by `create_index_skip_scan_path`: the
synthesized `column <op> NULL` clause (operator oid plus its left `Var`
operand), the index column offset of the distinct column, and the
attribute's by-value flag and storage length. -/
structure SkipScanPathData where
  skip_clause_opno : Nat
  skip_clause_left : PVar
  distinct_column : Nat
  distinct_by_val : Bool
  distinct_typ_len : Int
deriving Repr, DecidableEq

/-- The btree strategy chosen by `create_index_skip_scan_path`: greater-than
for a forward scan of a forward-sorted column, flipped once for a
reverse-sorted column and once more for a backward scan. -/
def skipStrategy (ip : IndexPathInfo) : Nat :=
  let s := if ip.reverse_sort then BTLessStrategyNumber else BTGreaterStrategyNumber
  if ip.scandir_backward then
    (if s = BTLessStrategyNumber then BTGreaterStrategyNumber else BTLessStrategyNumber)
  else s

/-- `create_index_skip_scan_path`.  `Except.error` models `elog(ERROR, ...)`
(query abort); `Except.ok none` models the silent `return NULL` declines;
`Except.ok (some _)` is a successfully built `SkipScanPath`. -/
def create_index_skip_scan_path (ip : IndexPathInfo) : Except String (Option SkipScanPathData) :=
  if ip.sortopfamily_isnull then .ok none
  else if ip.indexorderbys ≠ [] then .ok none
  else
    match ip.tlist_col with
    | none => .error "could not find col for SkipScan"
    | some col =>
      if ip.table_col = 0 then .ok none
      else if ¬ ip.column_tuple_valid then .ok none
      else if ¬ ip.column_type_valid then .ok none
      else
        match (if skipStrategy ip = BTLessStrategyNumber then ip.comparator_lt
               else ip.comparator_gt) with
        | none => .ok none
        | some opno =>
          .ok (some
            { skip_clause_opno := opno
              skip_clause_left := { varno := ip.rel_index, varattno := ip.table_col }
              distinct_column := col
              distinct_by_val := ip.att_byval
              distinct_typ_len := ip.att_typlen })

/-- The candidate paths `ts_add_skip_scan_paths` walks over and the paths it
builds. -/
inductive PPath where
  | indexPath (ip : IndexPathInfo)
  | mergeAppendPath (subpaths : List PPath)
  | upperUniquePath (numkeys : Nat) (subpath : PPath)
  | skipScanPath (sp : SkipScanPathData) (wrapped : PPath)
  | otherPath (tag : Nat)

/-- The `foreach` over `merge_path->subpaths`: each `IndexPath` branch for
which `create_index_skip_scan_path` succeeds is replaced by the resulting
skip-scan path, every other branch is appended unchanged, and the returned
flag is `can_skip_scan` (true as soon as one branch was converted). -/
def transformBranches : List PPath → Except String (List PPath × Bool)
  | [] => .ok ([], false)
  | p :: rest =>
    match p with
    | .indexPath ip =>
      match create_index_skip_scan_path ip with
      | .error e => .error e
      | .ok r =>
        match transformBranches rest with
        | .error e => .error e
        | .ok (ns, c) =>
          match r with
          | some sp => .ok (.skipScanPath sp (.indexPath ip) :: ns, true)
          | none => .ok (.indexPath ip :: ns, c)
    | _ =>
      match transformBranches rest with
      | .error e => .error e
      | .ok (ns, c) => .ok (p :: ns, c)

/-- The body of `ts_add_skip_scan_paths`' loop over `output_rel->pathlist`,
returning the list of paths passed to `add_path`, in order.  Entries that
are not `UpperUniquePath`, have more than one distinct key, or have an
unhandled subpath shape are skipped.  For an `IndexPath` subpath a
successful `create_index_skip_scan_path` contributes one skip-scan path.
For a `MergeAppendPath` subpath the branches are transformed; if no branch
could be converted (`!can_skip_scan`) the C code executes `return`,
abandoning the remaining pathlist entries as well, which is modelled by
producing no further additions. -/
def addSkipScanAux : List PPath → Except String (List PPath)
  | [] => .ok []
  | .upperUniquePath numkeys sub :: rest =>
    if 1 < numkeys then addSkipScanAux rest
    else
      match sub with
      | .indexPath ip =>
        match create_index_skip_scan_path ip with
        | .error e => .error e
        | .ok none => addSkipScanAux rest
        | .ok (some sp) =>
          match addSkipScanAux rest with
          | .error e => .error e
          | .ok es => .ok (.skipScanPath sp (.indexPath ip) :: es)
      | .mergeAppendPath subs =>
        match transformBranches subs with
        | .error e => .error e
        | .ok (ns, can) =>
          if can then
            match addSkipScanAux rest with
            | .error e => .error e
            | .ok es => .ok (.upperUniquePath numkeys (.mergeAppendPath ns) :: es)
          else .ok []
      | _ => addSkipScanAux rest
  | _ :: rest => addSkipScanAux rest

/-- `ts_add_skip_scan_paths`: gated on the `ts_guc_enable_skip_scan` session
switch; when enabled it walks the existing pathlist and hands the built
alternatives to `add_path`, leaving every existing path in place (modelled
as list append). -/
def ts_add_skip_scan_paths (enable_skip_scan : Bool) (pathlist : List PPath) :
    Except String (List PPath) :=
  if ¬ enable_skip_scan then .ok pathlist
  else
    match addSkipScanAux pathlist with
    | .error e => .error e
    | .ok extra => .ok (pathlist ++ extra)

/-- Recognizes a skip-scan custom path. -/
def isSkipBranch : PPath → Bool
  | .skipScanPath _ _ => true
  | _ => false

/-- A path the hook may add: either a bare skip-scan path or a
unique-over-merge-append wrapper that contains at least one skip-scan
branch. -/
def isSkipScanAlternative : PPath → Bool
  | .skipScanPath _ _ => true
  | .upperUniquePath _ (.mergeAppendPath subs) => subs.any isSkipBranch
  | _ => false

/-- An `IndexPath` branch qualifies when `create_index_skip_scan_path`
returns a path for it. -/
def Qualifies (p : PPath) : Prop :=
  ∃ ip sp, p = .indexPath ip ∧ create_index_skip_scan_path ip = .ok (some sp)

/-- Pointwise relation between an original merge branch and the branch the
hook puts in the rebuilt merge path. -/
def branchTransformed (orig new : PPath) : Prop :=
  (∃ ip sp, orig = .indexPath ip ∧ create_index_skip_scan_path ip = .ok (some sp) ∧
    new = .skipScanPath sp orig) ∨
  (new = orig ∧ ¬ Qualifies orig)

/-- An index qual clause of the wrapped Index(Only)Scan plan as
`skip_scan_plan_create` manipulates it: the operator and its left operand
`Var`.  The right operand of the synthesized clause is the placeholder
`NULL` constant and stays untouched, so it is not represented. -/
structure OpClause where
  opno : Nat
  left : PVar
deriving Repr, DecidableEq

/-- The plan `create_plan` returns for the wrapped index path. -/
inductive InnerPlan where
  | indexScanPlan (indexqual indexqualorig : List OpClause)
  | indexOnlyScanPlan (indexqual : List OpClause)
  | otherPlan (tag : Nat)
deriving Repr, DecidableEq

/-- The parts of the produced `CustomScan` plan the claims are about. -/
structure SkipPlanResult where
  inner : InnerPlan
  custom_private : List Int
deriving Repr, DecidableEq

/-- The clause `skip_scan_plan_create` splices in front of the index quals:
a copy of the path's skip clause with the left operand's `varno` replaced by
`INDEX_VAR` and its `varattno` by the index column number (offset + 1), the
execution-time index-tuple reference form (`fix_indexqual_references`). -/
def fixedSkipClause (sp : SkipScanPathData) : OpClause :=
  { opno := sp.skip_clause_opno
    left := { varno := INDEX_VAR, varattno := (sp.distinct_column : Int) + 1 } }

/-- The `get_actual_clauses` copy of the skip clause, spliced in front of
`indexqualorig`: operands unchanged. -/
def strippedSkipClause (sp : SkipScanPathData) : OpClause :=
  { opno := sp.skip_clause_opno, left := sp.skip_clause_left }

/-- `skip_scan_plan_create`: build the wrapped index scan plan, splice the
synthesized inequality ahead of the user's index conditions (both the
execution qual list and, for a plain index scan, the original-form list),
and attach the distinct column's output position, by-value flag and storage
length as `custom_private`.  `tlist_attnum` is the result of
`find_column_from_tlist` on the produced plan's targetlist; `none` is the
`elog(ERROR, "Invalid skip column ...")` case, and an unhandled plan shape
is the `elog(ERROR, "bad subplan type ...")` case. -/
def skip_scan_plan_create (sp : SkipScanPathData) (plan : InnerPlan)
    (tlist_attnum : Option Int) : Except String SkipPlanResult :=
  let inner : Except String InnerPlan :=
    match plan with
    | .indexScanPlan iq iqo =>
      .ok (.indexScanPlan (fixedSkipClause sp :: iq) (strippedSkipClause sp :: iqo))
    | .indexOnlyScanPlan iq => .ok (.indexOnlyScanPlan (fixedSkipClause sp :: iq))
    | .otherPlan _ => .error "bad subplan type for SkipScan"
  match inner with
  | .error e => .error e
  | .ok p =>
    match tlist_attnum with
    | none => .error "Invalid skip column in SkipScanPath; could not find in tlist"
    | some att =>
      .ok { inner := p
            custom_private := [att, if sp.distinct_by_val then 1 else 0, sp.distinct_typ_len] }

/-- The inner scan node handed to `skip_scan_begin`, reduced to what the
defensive checks inspect: its node type and its number of order-by keys. -/
inductive InnerScanState where
  | indexScanState (numOrderByKeys : Nat)
  | indexOnlyScanState (numOrderByKeys : Nat)
  | unknownScanState (tag : Nat)
deriving Repr, DecidableEq

/-- `skip_scan_begin`'s checks on the inner scan: an inner scan requesting
order-by keys or of an unrecognized node type draws `elog(ERROR, ...)`
(fatal for the query, modelled as `Except.error`); otherwise begin succeeds
and records whether the scan is index-only. -/
def skip_scan_begin_check : InnerScanState → Except String Bool
  | .indexScanState n =>
    if 0 < n then .error "cannot SkipScan with OrderByKeys" else .ok false
  | .indexOnlyScanState n =>
    if 0 < n then .error "cannot SkipScan with OrderByKeys" else .ok true
  | .unknownScanState _ => .error "unknown subscan type in SkipScan"

end SkipScanPlanner

namespace SkipScanExec

/-- A row of the scanned relation, as seen through the index: the value of
the distinct column (`none` is SQL NULL) and an identifier standing for the
rest of the row. -/
structure Row where
  key : Option Int
  payload : Nat
deriving Repr, DecidableEq

/-- The `SkipScanStage` bit set (`skip_scan.h`): `SkipScanFoundNull = 0x1`,
`SkipScanFoundVal = 0x2`, `SkipScanSearchingForAdditional = 0x4`;
`SkipScanSearchingForFirst` is the empty set,
`SkipScanSearchingForNull = Additional|FoundVal` and
`SkipScanSearchingForVal = Additional|FoundNull`. -/
structure Stage where
  foundNull : Bool
  foundVal : Bool
  additional : Bool
deriving Repr, DecidableEq

def SkipScanSearchingForFirst : Stage :=
  { foundNull := false, foundVal := false, additional := false }

/-- The flag bits of the skip qual's ScanKey that the executor reads and
writes: `SK_ISNULL`, `SK_SEARCHNULL`, `SK_SEARCHNOTNULL`. -/
structure SkipFlags where
  isNull : Bool
  searchNull : Bool
  searchNotNull : Bool
deriving Repr, DecidableEq

/-- The execution state of the operator.  `sk_argument` and `sk_flags` are
the argument and flag word of the skip qual's ScanKey (mutated in place by
`skip_scan_state_populate_skip_qual`); `skip_qual_removed` abstracts the
ScanKey-array surgery verified separately in `SkipScanKeys` (when true the
inner scan runs without the skip qual).  `nBegin`, `nNullProbe` and
`nValProbe` are ghost instrumentation counting `skip_scan_state_beginscan`
calls and the two boundary probes (`skip_scan_search_for_null`,
`skip_scan_search_for_nonnull`); they influence nothing. -/
structure ExecState where
  stage : Stage
  prev_distinct_val : Int
  prev_is_null : Bool
  sk_flags : SkipFlags
  sk_argument : Int
  skip_qual_removed : Bool
  nBegin : Nat
  nNullProbe : Nat
  nValProbe : Nat
deriving Repr, DecidableEq

def skip_scan_is_searching_for_first_val (s : ExecState) : Bool :=
  s.stage = SkipScanSearchingForFirst

def skip_scan_state_found_null (s : ExecState) : Bool := s.stage.foundNull

def skip_scan_state_found_val (s : ExecState) : Bool := s.stage.foundVal

def skip_scan_state_found_everything (s : ExecState) : Bool :=
  s.stage.foundNull && s.stage.foundVal

def skip_scan_state_is_searching_for_null (s : ExecState) : Bool :=
  s.stage.additional && s.stage.foundVal

def skip_scan_state_is_searching_for_val (s : ExecState) : Bool :=
  s.stage.additional && s.stage.foundNull

def skip_scan_is_finished (s : ExecState) : Bool :=
  (!s.stage.foundNull && !s.stage.foundVal) ||
  (skip_scan_state_is_searching_for_val s && !skip_scan_state_found_val s) ||
  (skip_scan_state_is_searching_for_null s && !skip_scan_state_found_null s)

/-- Direction-aware strict comparison of the skip qual: on a forward scan
the planner chose `column > prev` (the next value is larger), on a backward
scan `column < prev`.  `sgtb desc w v` says `w` lies strictly after `v` in
scan order. -/
def sgtb (desc : Bool) (w v : Int) : Bool :=
  if desc then w < v else v < w

/-- Whether the skip qual's ScanKey accepts a key value, following the btree
code's dispatch (`_bt_checkkeys` and `_bt_preprocess_keys` branch on
`SK_ISNULL` first): with `SK_ISNULL` set, `SK_SEARCHNULL` accepts exactly
the NULLs, `SK_SEARCHNOTNULL` exactly the non-NULLs, and a plain NULL
argument matches nothing; without `SK_ISNULL` the key is an ordinary
comparison, which NULLs never satisfy. -/
def scanKeyMatches (desc : Bool) (f : SkipFlags) (arg : Int) (k : Option Int) : Bool :=
  if f.isNull then
    if f.searchNull then k.isNone
    else if f.searchNotNull then k.isSome
    else false
  else
    match k with
    | none => false
    | some w => sgtb desc w arg

/-- The filter the inner Index(Only)Scan applies to a row: the user's other
index conditions `q` always, and the skip qual when it is in the ScanKey
array. -/
def innerRowPasses (desc : Bool) (q : Row → Bool) (s : ExecState) (r : Row) : Bool :=
  q r && (s.skip_qual_removed || scanKeyMatches desc s.sk_flags s.sk_argument r.key)

/-- One `index_rescan` + `ExecProcNode` round of the inner scan:
`skip_scan_exec` restarts the positioned scan before every pull, so the row
obtained is the first row, in index (scan) order, passing all current scan
keys; `none` is an exhausted scan (`TupIsNull`). -/
def innerScanFirst (desc : Bool) (table : List Row) (q : Row → Bool) (s : ExecState) :
    Option Row :=
  (table.filter (innerRowPasses desc q s)).head?

/-- `update_skip_key`: capture the distinct column of the returned row as
the previous value (a NULL capture leaves a zero datum), set the matching
found bit and clear `SkipScanSearchingForAdditional`. -/
def update_skip_key (s : ExecState) (r : Row) : ExecState :=
  match r.key with
  | none =>
    { s with
      prev_distinct_val := 0
      prev_is_null := true
      stage := { s.stage with foundNull := true, additional := false } }
  | some v =>
    { s with
      prev_distinct_val := v
      prev_is_null := false
      stage := { s.stage with foundVal := true, additional := false } }

/-- `skip_scan_state_populate_skip_qual`: store the captured previous value
as the ScanKey argument and derive the flag word: exact-NULL match when
hunting the final NULL, any-non-NULL when hunting the first value,
otherwise an exact-NULL (dropping `SK_SEARCHNULL` once a NULL was found) or
an ordinary comparison (dropping `SK_SEARCHNOTNULL` once a value was
found). -/
def skip_scan_state_populate_skip_qual (s : ExecState) : ExecState :=
  let f := s.sk_flags
  let f2 : SkipFlags :=
    if skip_scan_state_is_searching_for_null s then
      { isNull := true, searchNull := true, searchNotNull := false }
    else if skip_scan_state_is_searching_for_val s then
      { isNull := true, searchNull := false, searchNotNull := true }
    else if s.prev_is_null then
      { f with
        searchNull := f.searchNull && !s.stage.foundNull
        isNull := true }
    else
      { f with
        searchNotNull := f.searchNotNull && !s.stage.foundVal
        isNull := false }
  { s with sk_argument := s.prev_distinct_val, sk_flags := f2 }

/-- The state adjustments `skip_scan_exec` makes before pulling a row: on
the first call of a generation, remove the skip qual and begin the scan; on
later calls, re-add the qual if it was removed (restarting the scan exactly
then) and populate the skip qual from the captured previous value. -/
def skip_scan_exec_prepare (s : ExecState) : ExecState :=
  if skip_scan_is_searching_for_first_val s then
    { s with skip_qual_removed := true, nBegin := s.nBegin + 1 }
  else
    let sr :=
      if s.skip_qual_removed then
        { s with skip_qual_removed := false, nBegin := s.nBegin + 1 }
      else s
    skip_scan_state_populate_skip_qual sr

/-- `skip_scan_search_for_null`: flag the stage with
`SkipScanSearchingForNull`, clear the inner scan's reached-end flag and
retry (the retry is the recursive `skip_scan_exec` call in the caller). -/
def skip_scan_search_for_null_adjust (s : ExecState) : ExecState :=
  { s with
    stage := { s.stage with additional := true, foundVal := true }
    nNullProbe := s.nNullProbe + 1 }

/-- `skip_scan_search_for_nonnull`: flag the stage with
`SkipScanSearchingForVal` and retry. -/
def skip_scan_search_for_nonnull_adjust (s : ExecState) : ExecState :=
  { s with
    stage := { s.stage with additional := true, foundNull := true }
    nValProbe := s.nValProbe + 1 }

/-- `skip_scan_exec`, with explicit fuel bounding the recursion through
`skip_scan_search_for_null` / `skip_scan_search_for_nonnull`; `none` means
the fuel ran out (shown impossible from fuel 2 up). -/
def skip_scan_exec_go (desc : Bool) (table : List Row) (q : Row → Bool) :
    Nat → ExecState → Option (Option Row × ExecState)
  | 0, _ => none
  | fuel + 1, s =>
    let s1 := skip_scan_exec_prepare s
    match innerScanFirst desc table q s1 with
    | some r => some (some r, update_skip_key s1 r)
    | none =>
      if skip_scan_state_found_everything s1 then some (none, s1)
      else if skip_scan_is_finished s1 then some (none, s1)
      else if ¬ skip_scan_state_found_null s1 then
        skip_scan_exec_go desc table q fuel (skip_scan_search_for_null_adjust s1)
      else if ¬ skip_scan_state_found_val s1 then
        skip_scan_exec_go desc table q fuel (skip_scan_search_for_nonnull_adjust s1)
      else some (none, s1)

/-- `skip_scan_exec` proper: the recursion through the boundary probes is at
most one level deep, so fuel 2 always suffices. -/
def skip_scan_exec (desc : Bool) (table : List Row) (q : Row → Bool) (s : ExecState) :
    Option Row × ExecState :=
  (skip_scan_exec_go desc table q 2 s).getD (none, s)

/-- `skip_scan_rescan`: end and drop the inner scan descriptor, re-add the
skip qual if it is still removed, rescan the inner node, and reset the
captured value and the stage for a fresh generation.  The skip qual's flag
word and argument are left as the previous generation wrote them.  The
ghost counters restart with the generation. -/
def skip_scan_rescan (s : ExecState) : ExecState :=
  { s with
    skip_qual_removed := false
    prev_distinct_val := 0
    prev_is_null := true
    stage := SkipScanSearchingForFirst
    nBegin := 0
    nNullProbe := 0
    nValProbe := 0 }

/-- The state `skip_scan_begin` leaves: clean stage, NULL previous value,
skip qual in place; the ScanKey flag word is whatever
`ExecIndexBuildScanKeys` built (for the placeholder `column > NULL` clause
that is `SK_ISNULL` alone, but no theorem depends on it). -/
def skip_scan_initial_state (f : SkipFlags) (arg : Int) : ExecState :=
  { stage := SkipScanSearchingForFirst
    prev_distinct_val := 0
    prev_is_null := true
    sk_flags := f
    sk_argument := arg
    skip_qual_removed := false
    nBegin := 0
    nNullProbe := 0
    nValProbe := 0 }

/-- Drive the operator with repeated get-next calls until it reports
exhaustion (or the call budget `n` runs out), collecting the returned rows
and the final state: one generation of the operator. -/
def skip_scan_run (desc : Bool) (table : List Row) (q : Row → Bool) :
    Nat → ExecState → List Row × ExecState
  | 0, s => ([], s)
  | n + 1, s =>
    match skip_scan_exec desc table q s with
    | (none, s1) => ([], s1)
    | (some r, s1) =>
      let rest := skip_scan_run desc table q n s1
      (r :: rest.1, rest.2)

/-- Rows whose key lies strictly after `v` in scan order (NULLs never
compare). -/
def keyAfter (desc : Bool) (v : Int) (r : Row) : Bool :=
  match r.key with
  | none => false
  | some w => sgtb desc w v

/-- The value-skipping chain: starting from previous value `v`, the first
filtered row with key after `v`, then the chain from that row's key. -/
def skipChain (desc : Bool) (F : List Row) : Nat → Int → List Row
  | 0, _ => []
  | fuel + 1, v =>
    match (F.filter (keyAfter desc v)).head? with
    | none => []
    | some r => r :: skipChain desc F fuel (r.key.getD 0)

/-- The reference output of one generation over the filtered, ordered row
list `F`: the first row; then, if it was a value, the chain of first rows
of each later value followed by the first NULL row if any; if it was a
NULL, the first value row and its chain. -/
def expectedGen (desc : Bool) (F : List Row) : List Row :=
  match F.head? with
  | none => []
  | some z =>
    match z.key with
    | some v =>
      z :: (skipChain desc F F.length v ++
        ((F.filter (fun r => r.key.isNone)).head?.elim [] (fun rn => [rn])))
    | none =>
      z :: ((F.filter (fun r => r.key.isSome)).head?.elim []
        (fun r2 => r2 :: skipChain desc F F.length (r2.key.getD 0)))

/-- Scan-order comparison on distinct-column values: `scanKeyLE desc
nullsFirst a b` says a row with key `a` may precede one with key `b` in the
index as scanned (`desc` flips the value order, `nullsFirst` places the
NULL group). -/
def scanKeyLE (desc nullsFirst : Bool) (a b : Option Int) : Bool :=
  match a, b with
  | none, none => true
  | none, some _ => nullsFirst
  | some _, none => !nullsFirst
  | some x, some y => if desc then decide (y ≤ x) else decide (x ≤ y)

/-- The table handed to the operator is in index scan order. -/
def TableOrdered (desc nullsFirst : Bool) (table : List Row) : Prop :=
  table.Pairwise (fun r₁ r₂ => scanKeyLE desc nullsFirst r₁.key r₂.key = true)

end SkipScanExec

namespace SkipScanKeys

theorem shiftRightCarry_shiftLeftWin {α : Type} :
    ∀ (mid post : List α) (m : α),
      shiftRightCarry m (shiftLeftWin (m :: (mid ++ post)) mid.length) (mid.length + 1) =
        m :: (mid ++ post) := by
  intro mid
  induction mid with
  | nil =>
    intro post m
    simp [shiftLeftWin, shiftRightCarry]
  | cons y ys ih =>
    intro post m
    have h1 : (y :: ys).length = ys.length + 1 := rfl
    simp only [List.cons_append, List.append_eq, h1, shiftLeftWin, shiftRightCarry]
    rw [ih post y]

theorem set_shiftRightWin_shiftLeftWin {α : Type} :
    ∀ (mid post : List α) (q : α),
      (shiftRightWin (shiftLeftWin (q :: (mid ++ post)) mid.length) mid.length).set 0 q =
        q :: (mid ++ post) := by
  intro mid post q
  cases mid with
  | nil => simp [shiftLeftWin, shiftRightWin]
  | cons m ms =>
    have h1 : (m :: ms).length = ms.length + 1 := rfl
    simp only [List.cons_append, List.append_eq, h1, shiftLeftWin, shiftRightWin, List.set]
    rw [shiftRightCarry_shiftLeftWin (α := α) ms post m]

theorem shiftLeftAt_append {α : Type} :
    ∀ (pre l : List α) (n : Nat), shiftLeftAt (pre ++ l) pre.length n = pre ++ shiftLeftWin l n := by
  intro pre
  induction pre with
  | nil => intro l n; simp [shiftLeftAt]
  | cons x xs ih => intro l n; simp [shiftLeftAt, ih]

theorem shiftRightAt_append {α : Type} :
    ∀ (pre l : List α) (n : Nat), shiftRightAt (pre ++ l) pre.length n = pre ++ shiftRightWin l n := by
  intro pre
  induction pre with
  | nil => intro l n; simp [shiftRightAt]
  | cons x xs ih => intro l n; simp [shiftRightAt, ih]

theorem set_append_length {α : Type} :
    ∀ (pre l : List α) (a : α), (pre ++ l).set pre.length a = pre ++ l.set 0 a := by
  intro pre
  induction pre with
  | nil => intro l a; simp
  | cons x xs ih => intro l a; simp [List.set, ih]

theorem getD_append_length {α : Type} [Inhabited α] :
    ∀ (pre : List α) (a : α) (l : List α), (pre ++ a :: l).getD pre.length default = a := by
  intro pre
  induction pre with
  | nil => intro a l; simp
  | cons x xs ih => intro a l; simpa using ih a l

/-- Removing the skip qual and then re-adding it restores the scan-key array
and the key count exactly.  The state is described by a decomposition of the
key array: `pre` are the keys before the recorded offset, `q` is the skip
qual sitting at the offset, `mid` are the remaining live keys and `post` is
the dead tail of the physical array beyond `num_scan_keys`. -/
theorem remove_readd_roundtrip (pre mid post : List ScanKeyData) (q : ScanKeyData)
    (s : KeyState)
    (hkeys : s.scan_keys = pre ++ q :: (mid ++ post))
    (hoff : s.skip_qual_offset = pre.length)
    (hnum : s.num_scan_keys = pre.length + 1 + mid.length)
    (hrem : s.skip_qual_removed = false)
    (hq : s.skip_qual = q) :
    skip_scan_state_readd_skip_qual_if_needed (skip_scan_state_remove_skip_qual s) = (s, true) := by
  obtain ⟨ks, nk, sq, so, sr⟩ := s
  simp only at hkeys hoff hnum hrem hq
  subst hkeys hoff hnum hrem
  subst sq
  have hmove1 : pre.length + 1 + mid.length - pre.length - 1 = mid.length := by omega
  have hsaved : (pre ++ q :: (mid ++ post)).getD pre.length default = q :=
    getD_append_length pre q (mid ++ post)
  simp only [skip_scan_state_remove_skip_qual, hsaved, hmove1]
  rw [shiftLeftAt_append]
  have hmove2 : pre.length + 1 + mid.length - 1 - pre.length = mid.length := by omega
  simp only [skip_scan_state_readd_skip_qual_if_needed, hmove2, if_pos rfl]
  rw [shiftRightAt_append, set_append_length, set_shiftRightWin_shiftLeftWin]
  have harith : pre.length + 1 + mid.length - 1 + 1 = pre.length + 1 + mid.length := by omega
  rw [harith]
  simp

/-- Re-adding when the qual was never removed changes nothing and reports
`false`. -/
theorem readd_not_removed (s : KeyState) (hrem : s.skip_qual_removed = false) :
    skip_scan_state_readd_skip_qual_if_needed s = (s, false) := by
  simp [skip_scan_state_readd_skip_qual_if_needed, hrem]

theorem fixupAdvance_le (a : Nat) : ∀ user : List ScanKeyData, fixupAdvance a user ≤ user.length := by
  intro user
  induction user with
  | nil => simp [fixupAdvance]
  | cons k ks ih =>
    by_cases h : a ≤ k.sk_attno
    · simp [fixupAdvance, h]
    · simp only [fixupAdvance, if_neg h, List.length_cons]
      omega

theorem shiftLeftWin_set_eq (skip : ScanKeyData) :
    ∀ (off : Nat) (head : ScanKeyData) (user : List ScanKeyData), off ≤ user.length →
      (shiftLeftWin (head :: user) off).set off skip =
        user.take off ++ skip :: user.drop off := by
  intro off
  induction off with
  | zero => intro head user _; simp [shiftLeftWin]
  | succ n ih =>
    intro head user hlen
    cases user with
    | nil => simp at hlen
    | cons u us =>
      have hn : n ≤ us.length := by simpa using hlen
      simp only [shiftLeftWin, List.set, List.take, List.drop, List.cons_append]
      rw [ih u us hn]

theorem fixupAdvance_take_lt (a : Nat) :
    ∀ user : List ScanKeyData, ∀ k ∈ user.take (fixupAdvance a user), k.sk_attno < a := by
  intro user
  induction user with
  | nil => simp
  | cons u us ih =>
    by_cases h : a ≤ u.sk_attno
    · simp [fixupAdvance, h]
    · simp only [fixupAdvance, if_neg h, List.take, List.mem_cons]
      rintro k (rfl | hk)
      · omega
      · exact ih k hk

theorem fixupAdvance_drop_ge (a : Nat) :
    ∀ user : List ScanKeyData,
      user.Pairwise (fun k₁ k₂ => k₁.sk_attno ≤ k₂.sk_attno) →
      ∀ k ∈ user.drop (fixupAdvance a user), a ≤ k.sk_attno := by
  intro user
  induction user with
  | nil => simp
  | cons u us ih =>
    intro hsort k hk
    rcases List.pairwise_cons.mp hsort with ⟨hhead, htail⟩
    by_cases h : a ≤ u.sk_attno
    · simp only [fixupAdvance, if_pos h, List.drop_zero] at hk
      rcases List.mem_cons.mp hk with rfl | hk2
      · exact h
      · exact le_trans h (hhead k hk2)
    · simp only [fixupAdvance, if_neg h, List.drop_succ_cons] at hk
      exact ih htail k hk

/-- `skip_scan_state_fixup_qual_order` computed in closed form: the skip qual
(at the array's front on entry) ends up between the user keys counted by the
`while` loop and the rest, and the recorded offset is the loop's count.
(When the count is zero, the `memmove` branch is skipped and the array is
already in this shape.) -/
theorem fixup_qual_order_eq (skip : ScanKeyData) (user : List ScanKeyData)
    (hle : fixupAdvance skip.sk_attno user ≤ user.length) :
    skip_scan_state_fixup_qual_order (skip :: user) =
      (user.take (fixupAdvance skip.sk_attno user) ++
        skip :: user.drop (fixupAdvance skip.sk_attno user),
       fixupAdvance skip.sk_attno user) := by
  by_cases h : 0 < fixupAdvance skip.sk_attno user
  · simp only [skip_scan_state_fixup_qual_order, if_pos h]
    rw [shiftLeftWin_set_eq skip _ skip user hle]
  · have h0 : fixupAdvance skip.sk_attno user = 0 := by omega
    simp [skip_scan_state_fixup_qual_order, h0]

/-- After `skip_scan_state_fixup_qual_order` runs on a ScanKey array that has
the skip qual at its front and the user keys sorted by index attribute (as
`ExecIndexBuildScanKeys` guarantees), the skip qual sits at the recorded
offset, every key before it is on a strictly earlier index column, and every
key at or after it is on the skip qual's column or a later one: the skip
qual is the first condition on its index column. -/
theorem fixup_qual_order_spec (skip : ScanKeyData) (user : List ScanKeyData)
    (hsort : user.Pairwise (fun k₁ k₂ => k₁.sk_attno ≤ k₂.sk_attno)) :
    (skip_scan_state_fixup_qual_order (skip :: user)).1 =
      user.take (skip_scan_state_fixup_qual_order (skip :: user)).2 ++
        skip :: user.drop (skip_scan_state_fixup_qual_order (skip :: user)).2 ∧
    (∀ k ∈ user.take (skip_scan_state_fixup_qual_order (skip :: user)).2,
      k.sk_attno < skip.sk_attno) ∧
    (∀ k ∈ user.drop (skip_scan_state_fixup_qual_order (skip :: user)).2,
      skip.sk_attno ≤ k.sk_attno) := by
  have hle := fixupAdvance_le skip.sk_attno user
  rw [fixup_qual_order_eq skip user hle]
  exact ⟨rfl, fixupAdvance_take_lt skip.sk_attno user,
    fixupAdvance_drop_ge skip.sk_attno user hsort⟩


end SkipScanKeys

namespace SkipScanPlanner

theorem transformBranches_spec :
    ∀ (subs ns : List PPath) (c : Bool), transformBranches subs = .ok (ns, c) →
      List.Forall₂ branchTransformed subs ns ∧ (c = true ↔ ∃ p ∈ subs, Qualifies p) := by
  intro subs
  induction subs with
  | nil =>
    intro ns c h
    simp only [transformBranches, Except.ok.injEq, Prod.mk.injEq] at h
    obtain ⟨rfl, rfl⟩ := h
    exact ⟨List.Forall₂.nil, by simp⟩
  | cons p rest ih =>
    intro ns c h
    cases p with
    | indexPath ip =>
      simp only [transformBranches] at h
      cases hc : create_index_skip_scan_path ip with
      | error e => rw [hc] at h; cases h
      | ok r =>
        rw [hc] at h
        cases htr : transformBranches rest with
        | error e => rw [htr] at h; cases h
        | ok pr =>
          obtain ⟨ns', c'⟩ := pr
          rw [htr] at h
          obtain ⟨hrel, hiff⟩ := ih ns' c' htr
          cases r with
          | some sp =>
            simp only [Except.ok.injEq, Prod.mk.injEq] at h
            obtain ⟨rfl, rfl⟩ := h
            refine ⟨List.Forall₂.cons (Or.inl ⟨ip, sp, rfl, hc, rfl⟩) hrel, ?_⟩
            simp only [List.mem_cons, true_iff]
            exact ⟨.indexPath ip, Or.inl rfl, ip, sp, rfl, hc⟩
          | none =>
            simp only [Except.ok.injEq, Prod.mk.injEq] at h
            obtain ⟨rfl, rfl⟩ := h
            have hnq : ¬ Qualifies (.indexPath ip) := by
              rintro ⟨ip', sp, hip, hcr⟩
              cases hip
              rw [hc] at hcr
              cases hcr
            refine ⟨List.Forall₂.cons (Or.inr ⟨rfl, hnq⟩) hrel, ?_⟩
            rw [hiff]
            constructor
            · rintro ⟨p, hp, hq⟩; exact ⟨p, List.mem_cons_of_mem _ hp, hq⟩
            · rintro ⟨p, hp, hq⟩
              rcases List.mem_cons.mp hp with rfl | hp2
              · exact absurd hq hnq
              · exact ⟨p, hp2, hq⟩
    | mergeAppendPath subs2 =>
      simp only [transformBranches] at h
      cases htr : transformBranches rest with
      | error e => rw [htr] at h; cases h
      | ok pr =>
        obtain ⟨ns', c'⟩ := pr
        rw [htr] at h
        simp only [Except.ok.injEq, Prod.mk.injEq] at h
        obtain ⟨rfl, rfl⟩ := h
        obtain ⟨hrel, hiff⟩ := ih ns' c' htr
        have hnq : ¬ Qualifies (.mergeAppendPath subs2) := by rintro ⟨ip, sp, h, -⟩; cases h
        refine ⟨List.Forall₂.cons (Or.inr ⟨rfl, hnq⟩) hrel, ?_⟩
        rw [hiff]
        constructor
        · rintro ⟨p, hp, hq⟩; exact ⟨p, List.mem_cons_of_mem _ hp, hq⟩
        · rintro ⟨p, hp, hq⟩
          rcases List.mem_cons.mp hp with rfl | hp2
          · exact absurd hq hnq
          · exact ⟨p, hp2, hq⟩
    | upperUniquePath nk sub =>
      simp only [transformBranches] at h
      cases htr : transformBranches rest with
      | error e => rw [htr] at h; cases h
      | ok pr =>
        obtain ⟨ns', c'⟩ := pr
        rw [htr] at h
        simp only [Except.ok.injEq, Prod.mk.injEq] at h
        obtain ⟨rfl, rfl⟩ := h
        obtain ⟨hrel, hiff⟩ := ih ns' c' htr
        have hnq : ¬ Qualifies (.upperUniquePath nk sub) := by rintro ⟨ip, sp, h, -⟩; cases h
        refine ⟨List.Forall₂.cons (Or.inr ⟨rfl, hnq⟩) hrel, ?_⟩
        rw [hiff]
        constructor
        · rintro ⟨p, hp, hq⟩; exact ⟨p, List.mem_cons_of_mem _ hp, hq⟩
        · rintro ⟨p, hp, hq⟩
          rcases List.mem_cons.mp hp with rfl | hp2
          · exact absurd hq hnq
          · exact ⟨p, hp2, hq⟩
    | skipScanPath sp w =>
      simp only [transformBranches] at h
      cases htr : transformBranches rest with
      | error e => rw [htr] at h; cases h
      | ok pr =>
        obtain ⟨ns', c'⟩ := pr
        rw [htr] at h
        simp only [Except.ok.injEq, Prod.mk.injEq] at h
        obtain ⟨rfl, rfl⟩ := h
        obtain ⟨hrel, hiff⟩ := ih ns' c' htr
        have hnq : ¬ Qualifies (.skipScanPath sp w) := by rintro ⟨ip, sp2, h, -⟩; cases h
        refine ⟨List.Forall₂.cons (Or.inr ⟨rfl, hnq⟩) hrel, ?_⟩
        rw [hiff]
        constructor
        · rintro ⟨p, hp, hq⟩; exact ⟨p, List.mem_cons_of_mem _ hp, hq⟩
        · rintro ⟨p, hp, hq⟩
          rcases List.mem_cons.mp hp with rfl | hp2
          · exact absurd hq hnq
          · exact ⟨p, hp2, hq⟩
    | otherPath t =>
      simp only [transformBranches] at h
      cases htr : transformBranches rest with
      | error e => rw [htr] at h; cases h
      | ok pr =>
        obtain ⟨ns', c'⟩ := pr
        rw [htr] at h
        simp only [Except.ok.injEq, Prod.mk.injEq] at h
        obtain ⟨rfl, rfl⟩ := h
        obtain ⟨hrel, hiff⟩ := ih ns' c' htr
        have hnq : ¬ Qualifies (.otherPath t) := by rintro ⟨ip, sp, h, -⟩; cases h
        refine ⟨List.Forall₂.cons (Or.inr ⟨rfl, hnq⟩) hrel, ?_⟩
        rw [hiff]
        constructor
        · rintro ⟨p, hp, hq⟩; exact ⟨p, List.mem_cons_of_mem _ hp, hq⟩
        · rintro ⟨p, hp, hq⟩
          rcases List.mem_cons.mp hp with rfl | hp2
          · exact absurd hq hnq
          · exact ⟨p, hp2, hq⟩

end SkipScanPlanner

namespace SkipScanPlanner

theorem transformBranches_any_skip :
    ∀ (subs ns : List PPath), transformBranches subs = .ok (ns, true) →
      ns.any isSkipBranch = true := by
  intro subs
  induction subs with
  | nil => intro ns h; simp only [transformBranches, Except.ok.injEq, Prod.mk.injEq] at h; cases h.2
  | cons p rest ih =>
    intro ns h
    cases p with
    | indexPath ip =>
      simp only [transformBranches] at h
      cases hc : create_index_skip_scan_path ip with
      | error e => rw [hc] at h; cases h
      | ok r =>
        rw [hc] at h
        cases htr : transformBranches rest with
        | error e => rw [htr] at h; cases h
        | ok pr =>
          obtain ⟨ns', c'⟩ := pr
          rw [htr] at h
          cases r with
          | some sp =>
            simp only [Except.ok.injEq, Prod.mk.injEq] at h
            obtain ⟨rfl, -⟩ := h
            simp [isSkipBranch]
          | none =>
            simp only [Except.ok.injEq, Prod.mk.injEq] at h
            obtain ⟨rfl, rfl⟩ := h
            have := ih ns' htr
            simp only [List.any_cons, this, Bool.or_true]
    | mergeAppendPath subs2 =>
      simp only [transformBranches] at h
      cases htr : transformBranches rest with
      | error e => rw [htr] at h; cases h
      | ok pr =>
        obtain ⟨ns', c'⟩ := pr
        rw [htr] at h
        simp only [Except.ok.injEq, Prod.mk.injEq] at h
        obtain ⟨rfl, rfl⟩ := h
        have := ih ns' htr
        simp only [List.any_cons, this, Bool.or_true]
    | upperUniquePath nk sub =>
      simp only [transformBranches] at h
      cases htr : transformBranches rest with
      | error e => rw [htr] at h; cases h
      | ok pr =>
        obtain ⟨ns', c'⟩ := pr
        rw [htr] at h
        simp only [Except.ok.injEq, Prod.mk.injEq] at h
        obtain ⟨rfl, rfl⟩ := h
        have := ih ns' htr
        simp only [List.any_cons, this, Bool.or_true]
    | skipScanPath sp w =>
      simp only [transformBranches] at h
      cases htr : transformBranches rest with
      | error e => rw [htr] at h; cases h
      | ok pr =>
        obtain ⟨ns', c'⟩ := pr
        rw [htr] at h
        simp only [Except.ok.injEq, Prod.mk.injEq] at h
        obtain ⟨rfl, rfl⟩ := h
        have := ih ns' htr
        simp only [List.any_cons, this, Bool.or_true]
    | otherPath t =>
      simp only [transformBranches] at h
      cases htr : transformBranches rest with
      | error e => rw [htr] at h; cases h
      | ok pr =>
        obtain ⟨ns', c'⟩ := pr
        rw [htr] at h
        simp only [Except.ok.injEq, Prod.mk.injEq] at h
        obtain ⟨rfl, rfl⟩ := h
        have := ih ns' htr
        simp only [List.any_cons, this, Bool.or_true]

theorem addSkipScanAux_alternatives :
    ∀ (pl extra : List PPath), addSkipScanAux pl = .ok extra →
      ∀ p ∈ extra, isSkipScanAlternative p = true := by
  intro pl
  induction pl with
  | nil =>
    intro extra h
    simp only [addSkipScanAux, Except.ok.injEq] at h
    subst h
    simp
  | cons hd rest ih =>
    intro extra h
    cases hd with
    | upperUniquePath nk sub =>
      simp only [addSkipScanAux] at h
      by_cases hnk : 1 < nk
      · rw [if_pos hnk] at h
        exact ih extra h
      · rw [if_neg hnk] at h
        cases sub with
        | indexPath ip =>
          dsimp only at h
          cases hc : create_index_skip_scan_path ip with
          | error e => rw [hc] at h; cases h
          | ok r =>
            rw [hc] at h
            cases r with
            | none => exact ih extra h
            | some sp =>
              cases haux : addSkipScanAux rest with
              | error e => rw [haux] at h; cases h
              | ok es =>
                rw [haux] at h
                simp only [Except.ok.injEq] at h
                subst h
                intro p hp
                rcases List.mem_cons.mp hp with rfl | hp2
                · simp [isSkipScanAlternative]
                · exact ih es haux p hp2
        | mergeAppendPath subs =>
          dsimp only at h
          cases htr : transformBranches subs with
          | error e => rw [htr] at h; cases h
          | ok pr =>
            obtain ⟨ns, can⟩ := pr
            rw [htr] at h
            cases can with
            | true =>
              simp only [if_pos] at h
              cases haux : addSkipScanAux rest with
              | error e => rw [haux] at h; cases h
              | ok es =>
                rw [haux] at h
                simp only [Except.ok.injEq] at h
                subst h
                intro p hp
                rcases List.mem_cons.mp hp with rfl | hp2
                · simp only [isSkipScanAlternative]
                  exact transformBranches_any_skip subs ns htr
                · exact ih es haux p hp2
            | false =>
              simp only [Bool.false_eq_true, if_false, Except.ok.injEq] at h
              subst h
              simp
        | upperUniquePath nk2 sub2 => exact ih extra h
        | skipScanPath sp w => exact ih extra h
        | otherPath t => exact ih extra h
    | indexPath ip => exact ih extra h
    | mergeAppendPath subs => exact ih extra h
    | skipScanPath sp w => exact ih extra h
    | otherPath t => exact ih extra h

theorem ts_add_disabled (pl : List PPath) : ts_add_skip_scan_paths false pl = .ok pl := by
  simp [ts_add_skip_scan_paths]

theorem ts_add_enabled_additive (pl res : List PPath)
    (h : ts_add_skip_scan_paths true pl = .ok res) :
    ∃ extra, res = pl ++ extra ∧ ∀ p ∈ extra, isSkipScanAlternative p = true := by
  simp only [ts_add_skip_scan_paths, not_true, if_neg, ite_false] at h
  cases haux : addSkipScanAux pl with
  | error e => rw [haux] at h; cases h
  | ok extra =>
    rw [haux] at h
    simp only [Except.ok.injEq] at h
    subst h
    exact ⟨extra, rfl, addSkipScanAux_alternatives pl extra haux⟩

end SkipScanPlanner

namespace SkipScanExec

theorem innerScanFirst_removed (desc : Bool) (table : List Row) (q : Row → Bool)
    (s : ExecState) (h : s.skip_qual_removed = true) :
    innerScanFirst desc table q s = (table.filter q).head? := by
  unfold innerScanFirst
  congr 1
  apply List.filter_congr
  intro r _
  simp [innerRowPasses, h]

theorem innerScanFirst_comparison (desc : Bool) (table : List Row) (q : Row → Bool)
    (s : ExecState) (h : s.sk_flags.isNull = false) (hrem : s.skip_qual_removed = false) :
    innerScanFirst desc table q s =
      ((table.filter q).filter (keyAfter desc s.sk_argument)).head? := by
  unfold innerScanFirst
  rw [List.filter_filter]
  congr 1
  apply List.filter_congr
  intro r _
  simp only [innerRowPasses, hrem, Bool.false_or]
  cases hk : r.key with
  | none => simp [scanKeyMatches, keyAfter, h, hk]
  | some w => simp [scanKeyMatches, keyAfter, h, hk, Bool.and_comm]

theorem innerScanFirst_searchNull (desc : Bool) (table : List Row) (q : Row → Bool)
    (s : ExecState) (h1 : s.sk_flags.isNull = true) (h2 : s.sk_flags.searchNull = true)
    (hrem : s.skip_qual_removed = false) :
    innerScanFirst desc table q s =
      ((table.filter q).filter (fun r => r.key.isNone)).head? := by
  unfold innerScanFirst
  rw [List.filter_filter]
  congr 1
  apply List.filter_congr
  intro r _
  simp [innerRowPasses, hrem, scanKeyMatches, h1, h2, Bool.and_comm]

theorem innerScanFirst_searchNotNull (desc : Bool) (table : List Row) (q : Row → Bool)
    (s : ExecState) (h1 : s.sk_flags.isNull = true) (h2 : s.sk_flags.searchNull = false)
    (h3 : s.sk_flags.searchNotNull = true) (hrem : s.skip_qual_removed = false) :
    innerScanFirst desc table q s =
      ((table.filter q).filter (fun r => r.key.isSome)).head? := by
  unfold innerScanFirst
  rw [List.filter_filter]
  congr 1
  apply List.filter_congr
  intro r _
  simp [innerRowPasses, hrem, scanKeyMatches, h1, h2, h3, Bool.and_comm]

theorem innerScanFirst_nullArg (desc : Bool) (table : List Row) (q : Row → Bool)
    (s : ExecState) (h1 : s.sk_flags.isNull = true) (h2 : s.sk_flags.searchNull = false)
    (h3 : s.sk_flags.searchNotNull = false) (hrem : s.skip_qual_removed = false) :
    innerScanFirst desc table q s = none := by
  unfold innerScanFirst
  have : table.filter (innerRowPasses desc q s) = [] := by
    apply List.filter_eq_nil_iff.mpr
    intro r _
    simp [innerRowPasses, hrem, scanKeyMatches, h1, h2, h3]
  rw [this]
  rfl

end SkipScanExec

namespace SkipScanExec

theorem head_filter_decomp (p : Row → Bool) :
    ∀ (F : List Row) (r : Row), (F.filter p).head? = some r →
      ∃ F₁ F₂, F = F₁ ++ r :: F₂ ∧ (∀ y ∈ F₁, p y = false) ∧ p r = true := by
  intro F
  induction F with
  | nil => intro r h; simp at h
  | cons x xs ih =>
    intro r h
    by_cases hx : p x = true
    · rw [List.filter_cons_of_pos hx] at h
      simp only [List.head?_cons, Option.some.injEq] at h
      subst h
      exact ⟨[], xs, rfl, by simp, hx⟩
    · rw [List.filter_cons_of_neg (by simpa using hx)] at h
      obtain ⟨F₁, F₂, heq, h1, h2⟩ := ih r h
      refine ⟨x :: F₁, F₂, by simp [heq], ?_, h2⟩
      intro y hy
      rcases List.mem_cons.mp hy with rfl | hy2
      · simpa using hx
      · exact h1 y hy2

theorem head_filter_mem (p : Row → Bool) (F : List Row) (r : Row)
    (h : (F.filter p).head? = some r) : r ∈ F ∧ p r = true := by
  obtain ⟨F₁, F₂, rfl, -, h2⟩ := head_filter_decomp p F r h
  exact ⟨by simp, h2⟩

theorem sgtb_trans (desc : Bool) (w v' v : Int) (h1 : sgtb desc w v' = true)
    (h2 : sgtb desc v' v = true) : sgtb desc w v = true := by
  cases desc <;> simp [sgtb] at h1 h2 ⊢ <;> omega

theorem sgtb_self (desc : Bool) (v : Int) : sgtb desc v v = false := by
  cases desc <;> simp [sgtb]

theorem keyAfter_trans (desc : Bool) (v v' : Int) (x : Row)
    (h1 : keyAfter desc v' x = true) (h2 : sgtb desc v' v = true) :
    keyAfter desc v x = true := by
  unfold keyAfter at h1 ⊢
  cases hk : x.key with
  | none => rw [hk] at h1; cases h1
  | some w => rw [hk] at h1; exact sgtb_trans desc w v' v h1 h2

/-- The rows strictly after the head of the rows strictly after `v` are a
strictly shorter list: the measure driving the skipping chain. -/
theorem filter_after_head_lt (desc : Bool) (F : List Row) (v v' : Int) (r : Row)
    (hhead : (F.filter (keyAfter desc v)).head? = some r) (hkey : r.key = some v') :
    (F.filter (keyAfter desc v')).length < (F.filter (keyAfter desc v)).length := by
  have hmem := head_filter_mem _ F r hhead
  have hrv : sgtb desc v' v = true := by
    have := hmem.2
    unfold keyAfter at this
    rw [hkey] at this
    exact this
  have hstep : F.filter (keyAfter desc v') =
      (F.filter (keyAfter desc v)).filter (keyAfter desc v') := by
    rw [List.filter_filter]
    apply List.filter_congr
    intro x _
    by_cases hx : keyAfter desc v' x = true
    · simp [hx, keyAfter_trans desc v v' x hx hrv]
    · simp only [Bool.not_eq_true] at hx
      simp [hx]
  cases hL : F.filter (keyAfter desc v) with
  | nil => rw [hL] at hhead; cases hhead
  | cons a T =>
    have har : a = r := by
      rw [hL] at hhead
      simpa using hhead
    subst har
    rw [hstep, hL]
    have hra : keyAfter desc v' a = false := by
      unfold keyAfter
      rw [hkey]
      exact sgtb_self desc v'
    rw [List.filter_cons_of_neg (by simp [hra])]
    calc (T.filter (keyAfter desc v')).length ≤ T.length := List.length_filter_le _ _
    _ < (a :: T).length := by simp

/-- The chain is insensitive to extra fuel beyond the measure. -/
theorem skipChain_fuel_congr (desc : Bool) (F : List Row) :
    ∀ (m fuel₁ fuel₂ : Nat) (v : Int), (F.filter (keyAfter desc v)).length = m →
      m ≤ fuel₁ → m ≤ fuel₂ →
      skipChain desc F fuel₁ v = skipChain desc F fuel₂ v := by
  intro m
  induction m using Nat.strong_induction_on with
  | _ m ih =>
    intro fuel₁ fuel₂ v hm h1 h2
    cases hhead : (F.filter (keyAfter desc v)).head? with
    | none =>
      cases fuel₁ with
      | zero => cases fuel₂ with
        | zero => rfl
        | succ b => simp [skipChain, hhead]
      | succ a => cases fuel₂ with
        | zero => simp [skipChain, hhead]
        | succ b => simp [skipChain, hhead]
    | some r =>
      have hm1 : 1 ≤ m := by
        cases hL : F.filter (keyAfter desc v) with
        | nil => rw [hL] at hhead; cases hhead
        | cons a T => rw [hL] at hm; simp at hm; omega
      obtain ⟨a, rfl⟩ : ∃ a, fuel₁ = a + 1 := ⟨fuel₁ - 1, by omega⟩
      obtain ⟨b, rfl⟩ : ∃ b, fuel₂ = b + 1 := ⟨fuel₂ - 1, by omega⟩
      have hkey : r.key = some (r.key.getD 0) := by
        have := (head_filter_mem _ F r hhead).2
        unfold keyAfter at this
        cases hk : r.key with
        | none => rw [hk] at this; cases this
        | some w => simp [hk]
      have hlt := filter_after_head_lt desc F v (r.key.getD 0) r hhead hkey
      rw [hm] at hlt
      simp only [skipChain, hhead]
      rw [ih ((F.filter (keyAfter desc (r.key.getD 0))).length) hlt a b (r.key.getD 0) rfl (by omega) (by omega)]

end SkipScanExec

namespace SkipScanExec

theorem exec_value_phase (desc : Bool) (table : List Row) (q : Row → Bool) (s : ExecState)
    (v : Int) (hstage : s.stage = ⟨false, true, false⟩) (hprev : s.prev_is_null = false)
    (hval : s.prev_distinct_val = v) :
    skip_scan_exec desc table q s =
      match ((table.filter q).filter (keyAfter desc v)).head? with
      | some r =>
        (some r, update_skip_key { s with
            skip_qual_removed := false
            nBegin := if s.skip_qual_removed then s.nBegin + 1 else s.nBegin
            sk_argument := v
            sk_flags := ⟨false, s.sk_flags.searchNull, false⟩ } r)
      | none =>
        match ((table.filter q).filter (fun r => r.key.isNone)).head? with
        | some rn =>
          (some rn, update_skip_key { s with
              skip_qual_removed := false
              nBegin := if s.skip_qual_removed then s.nBegin + 1 else s.nBegin
              sk_argument := v
              sk_flags := ⟨true, true, false⟩
              stage := ⟨false, true, true⟩
              nNullProbe := s.nNullProbe + 1 } rn)
        | none =>
          (none, { s with
              skip_qual_removed := false
              nBegin := if s.skip_qual_removed then s.nBegin + 1 else s.nBegin
              sk_argument := v
              sk_flags := ⟨true, true, false⟩
              stage := ⟨false, true, true⟩
              nNullProbe := s.nNullProbe + 1 }) := by
  have hfirst : skip_scan_is_searching_for_first_val s = false := by
    simp [skip_scan_is_searching_for_first_val, hstage, SkipScanSearchingForFirst]
  have hprep : skip_scan_exec_prepare s =
      { s with
        skip_qual_removed := false
        nBegin := if s.skip_qual_removed then s.nBegin + 1 else s.nBegin
        sk_argument := v
        sk_flags := ⟨false, s.sk_flags.searchNull, false⟩ } := by
    unfold skip_scan_exec_prepare
    rw [hfirst]
    cases hr : s.skip_qual_removed with
    | false =>
      simp [skip_scan_state_populate_skip_qual, skip_scan_state_is_searching_for_null,
        skip_scan_state_is_searching_for_val, hstage, hprev, hval, hr]
    | true =>
      simp [skip_scan_state_populate_skip_qual, skip_scan_state_is_searching_for_null,
        skip_scan_state_is_searching_for_val, hstage, hprev, hval, hr]
  have hpull : innerScanFirst desc table q (skip_scan_exec_prepare s) =
      ((table.filter q).filter (keyAfter desc v)).head? := by
    rw [hprep]
    exact innerScanFirst_comparison desc table q _ rfl rfl
  unfold skip_scan_exec skip_scan_exec_go
  dsimp only
  rw [hpull, hprep]
  cases hhead : ((table.filter q).filter (keyAfter desc v)).head? with
  | some r => simp
  | none =>
    have hfe : skip_scan_state_found_everything
        { s with
          skip_qual_removed := false
          nBegin := if s.skip_qual_removed then s.nBegin + 1 else s.nBegin
          sk_argument := v
          sk_flags := (⟨false, s.sk_flags.searchNull, false⟩ : SkipFlags) } = false := by
      simp [skip_scan_state_found_everything, hstage]
    have hfin : skip_scan_is_finished
        { s with
          skip_qual_removed := false
          nBegin := if s.skip_qual_removed then s.nBegin + 1 else s.nBegin
          sk_argument := v
          sk_flags := (⟨false, s.sk_flags.searchNull, false⟩ : SkipFlags) } = false := by
      simp [skip_scan_is_finished, skip_scan_state_is_searching_for_val,
        skip_scan_state_is_searching_for_null, skip_scan_state_found_val,
        skip_scan_state_found_null, hstage]
    have hfn : skip_scan_state_found_null
        { s with
          skip_qual_removed := false
          nBegin := if s.skip_qual_removed then s.nBegin + 1 else s.nBegin
          sk_argument := v
          sk_flags := (⟨false, s.sk_flags.searchNull, false⟩ : SkipFlags) } = false := by
      simp [skip_scan_state_found_null, hstage]
    simp only [hfe, hfin, hfn, Bool.false_eq_true, if_false, not_false_eq_true, if_true,
      Bool.not_eq_true]
    -- the probe for a final NULL: one recursive round
    have hprep2 : skip_scan_exec_prepare (skip_scan_search_for_null_adjust
        { s with
          skip_qual_removed := false
          nBegin := if s.skip_qual_removed then s.nBegin + 1 else s.nBegin
          sk_argument := v
          sk_flags := (⟨false, s.sk_flags.searchNull, false⟩ : SkipFlags) }) =
        { s with
          skip_qual_removed := false
          nBegin := if s.skip_qual_removed then s.nBegin + 1 else s.nBegin
          sk_argument := v
          sk_flags := ⟨true, true, false⟩
          stage := ⟨false, true, true⟩
          nNullProbe := s.nNullProbe + 1 } := by
      unfold skip_scan_search_for_null_adjust skip_scan_exec_prepare
      simp [skip_scan_is_searching_for_first_val, SkipScanSearchingForFirst, hstage,
        skip_scan_state_populate_skip_qual, skip_scan_state_is_searching_for_null,
        skip_scan_state_is_searching_for_val, hval]
    have hpull2 : innerScanFirst desc table q (skip_scan_exec_prepare
        (skip_scan_search_for_null_adjust
          { s with
            skip_qual_removed := false
            nBegin := if s.skip_qual_removed then s.nBegin + 1 else s.nBegin
            sk_argument := v
            sk_flags := (⟨false, s.sk_flags.searchNull, false⟩ : SkipFlags) })) =
        ((table.filter q).filter (fun r => r.key.isNone)).head? := by
      rw [hprep2]
      exact innerScanFirst_searchNull desc table q _ rfl rfl rfl
    unfold skip_scan_exec_go
    dsimp only
    rw [hpull2, hprep2]
    cases hhead2 : ((table.filter q).filter (fun r => r.key.isNone)).head? with
    | some rn => simp
    | none =>
      have hfe2 : skip_scan_state_found_everything
          { s with
            skip_qual_removed := false
            nBegin := if s.skip_qual_removed then s.nBegin + 1 else s.nBegin
            sk_argument := v
            sk_flags := (⟨true, true, false⟩ : SkipFlags)
            stage := (⟨false, true, true⟩ : Stage)
            nNullProbe := s.nNullProbe + 1 } = false := by
        simp [skip_scan_state_found_everything]
      have hfin2 : skip_scan_is_finished
          { s with
            skip_qual_removed := false
            nBegin := if s.skip_qual_removed then s.nBegin + 1 else s.nBegin
            sk_argument := v
            sk_flags := (⟨true, true, false⟩ : SkipFlags)
            stage := (⟨false, true, true⟩ : Stage)
            nNullProbe := s.nNullProbe + 1 } = true := by
        simp [skip_scan_is_finished, skip_scan_state_is_searching_for_val,
          skip_scan_state_is_searching_for_null, skip_scan_state_found_val,
          skip_scan_state_found_null]
      simp [hfe2, hfin2]

end SkipScanExec

namespace SkipScanExec

theorem exec_first_phase (desc : Bool) (table : List Row) (q : Row → Bool) (s : ExecState)
    (hstage : s.stage = SkipScanSearchingForFirst) :
    skip_scan_exec desc table q s =
      match (table.filter q).head? with
      | some z => (some z, update_skip_key { s with
          skip_qual_removed := true
          nBegin := s.nBegin + 1 } z)
      | none => (none, { s with skip_qual_removed := true, nBegin := s.nBegin + 1 }) := by
  have hfirst : skip_scan_is_searching_for_first_val s = true := by
    simp [skip_scan_is_searching_for_first_val, hstage]
  have hprep : skip_scan_exec_prepare s =
      { s with skip_qual_removed := true, nBegin := s.nBegin + 1 } := by
    unfold skip_scan_exec_prepare
    rw [hfirst]
    simp
  have hpull : innerScanFirst desc table q (skip_scan_exec_prepare s) =
      (table.filter q).head? := by
    rw [hprep]
    exact innerScanFirst_removed desc table q _ rfl
  unfold skip_scan_exec skip_scan_exec_go
  dsimp only
  rw [hpull, hprep]
  cases hhead : (table.filter q).head? with
  | some z => simp
  | none =>
    have hfe : skip_scan_state_found_everything
        { s with skip_qual_removed := true, nBegin := s.nBegin + 1 } = false := by
      simp [skip_scan_state_found_everything, hstage, SkipScanSearchingForFirst]
    have hfin : skip_scan_is_finished
        { s with skip_qual_removed := true, nBegin := s.nBegin + 1 } = true := by
      simp [skip_scan_is_finished, hstage, SkipScanSearchingForFirst]
    simp [hfe, hfin]

theorem exec_both_value_phase (desc : Bool) (table : List Row) (q : Row → Bool) (s : ExecState)
    (v : Int) (hstage : s.stage = ⟨true, true, false⟩) (hprev : s.prev_is_null = false)
    (hval : s.prev_distinct_val = v) :
    skip_scan_exec desc table q s =
      match ((table.filter q).filter (keyAfter desc v)).head? with
      | some r =>
        (some r, update_skip_key { s with
            skip_qual_removed := false
            nBegin := if s.skip_qual_removed then s.nBegin + 1 else s.nBegin
            sk_argument := v
            sk_flags := ⟨false, s.sk_flags.searchNull, false⟩ } r)
      | none =>
        (none, { s with
            skip_qual_removed := false
            nBegin := if s.skip_qual_removed then s.nBegin + 1 else s.nBegin
            sk_argument := v
            sk_flags := ⟨false, s.sk_flags.searchNull, false⟩ }) := by
  have hfirst : skip_scan_is_searching_for_first_val s = false := by
    simp [skip_scan_is_searching_for_first_val, hstage, SkipScanSearchingForFirst]
  have hprep : skip_scan_exec_prepare s =
      { s with
        skip_qual_removed := false
        nBegin := if s.skip_qual_removed then s.nBegin + 1 else s.nBegin
        sk_argument := v
        sk_flags := ⟨false, s.sk_flags.searchNull, false⟩ } := by
    unfold skip_scan_exec_prepare
    rw [hfirst]
    cases hr : s.skip_qual_removed with
    | false =>
      simp [skip_scan_state_populate_skip_qual, skip_scan_state_is_searching_for_null,
        skip_scan_state_is_searching_for_val, hstage, hprev, hval, hr]
    | true =>
      simp [skip_scan_state_populate_skip_qual, skip_scan_state_is_searching_for_null,
        skip_scan_state_is_searching_for_val, hstage, hprev, hval, hr]
  have hpull : innerScanFirst desc table q (skip_scan_exec_prepare s) =
      ((table.filter q).filter (keyAfter desc v)).head? := by
    rw [hprep]
    exact innerScanFirst_comparison desc table q _ rfl rfl
  unfold skip_scan_exec skip_scan_exec_go
  dsimp only
  rw [hpull, hprep]
  cases hhead : ((table.filter q).filter (keyAfter desc v)).head? with
  | some r => simp
  | none =>
    have hfe : skip_scan_state_found_everything
        { s with
          skip_qual_removed := false
          nBegin := if s.skip_qual_removed then s.nBegin + 1 else s.nBegin
          sk_argument := v
          sk_flags := (⟨false, s.sk_flags.searchNull, false⟩ : SkipFlags) } = true := by
      simp [skip_scan_state_found_everything, hstage]
    simp [hfe]

theorem exec_null_first_phase (desc : Bool) (table : List Row) (q : Row → Bool) (s : ExecState)
    (hstage : s.stage = ⟨true, false, false⟩) (hprev : s.prev_is_null = true) :
    skip_scan_exec desc table q s =
      match ((table.filter q).filter (fun r => r.key.isSome)).head? with
      | some r2 =>
        (some r2, update_skip_key { s with
            skip_qual_removed := false
            nBegin := if s.skip_qual_removed then s.nBegin + 1 else s.nBegin
            sk_argument := s.prev_distinct_val
            sk_flags := ⟨true, false, true⟩
            stage := ⟨true, false, true⟩
            nValProbe := if s.sk_flags.searchNotNull then s.nValProbe else s.nValProbe + 1 } r2)
      | none =>
        (none, { s with
            skip_qual_removed := false
            nBegin := if s.skip_qual_removed then s.nBegin + 1 else s.nBegin
            sk_argument := s.prev_distinct_val
            sk_flags := ⟨true, false, true⟩
            stage := ⟨true, false, true⟩
            nValProbe := s.nValProbe + 1 }) := by
  have hfirst : skip_scan_is_searching_for_first_val s = false := by
    simp [skip_scan_is_searching_for_first_val, hstage, SkipScanSearchingForFirst]
  have hprep : skip_scan_exec_prepare s =
      { s with
        skip_qual_removed := false
        nBegin := if s.skip_qual_removed then s.nBegin + 1 else s.nBegin
        sk_argument := s.prev_distinct_val
        sk_flags := ⟨true, false, s.sk_flags.searchNotNull⟩ } := by
    unfold skip_scan_exec_prepare
    rw [hfirst]
    cases hr : s.skip_qual_removed with
    | false =>
      simp [skip_scan_state_populate_skip_qual, skip_scan_state_is_searching_for_null,
        skip_scan_state_is_searching_for_val, hstage, hprev, hr]
    | true =>
      simp [skip_scan_state_populate_skip_qual, skip_scan_state_is_searching_for_null,
        skip_scan_state_is_searching_for_val, hstage, hprev, hr]
  cases hsnn : s.sk_flags.searchNotNull with
  | true =>
    rw [hsnn] at hprep
    have hpull : innerScanFirst desc table q (skip_scan_exec_prepare s) =
        ((table.filter q).filter (fun r => r.key.isSome)).head? := by
      rw [hprep]
      exact innerScanFirst_searchNotNull desc table q _ rfl rfl rfl rfl
    unfold skip_scan_exec skip_scan_exec_go
    dsimp only
    rw [hpull, hprep]
    cases hhead : ((table.filter q).filter (fun r => r.key.isSome)).head? with
    | some r2 =>
      have hk : r2.key.isSome = true := by
        have := (head_filter_mem _ _ r2 hhead).2
        simpa using this
      obtain ⟨w, hw⟩ := Option.isSome_iff_exists.mp hk
      simp only [Option.getD_some]
      unfold update_skip_key
      rw [hw]
      simp [hstage]
    | none =>
      have hfe : skip_scan_state_found_everything
          { s with
            skip_qual_removed := false
            nBegin := if s.skip_qual_removed then s.nBegin + 1 else s.nBegin
            sk_argument := s.prev_distinct_val
            sk_flags := (⟨true, false, true⟩ : SkipFlags) } = false := by
        simp [skip_scan_state_found_everything, hstage]
      have hfin : skip_scan_is_finished
          { s with
            skip_qual_removed := false
            nBegin := if s.skip_qual_removed then s.nBegin + 1 else s.nBegin
            sk_argument := s.prev_distinct_val
            sk_flags := (⟨true, false, true⟩ : SkipFlags) } = false := by
        simp [skip_scan_is_finished, skip_scan_state_is_searching_for_val,
          skip_scan_state_is_searching_for_null, skip_scan_state_found_val,
          skip_scan_state_found_null, hstage]
      have hfn : skip_scan_state_found_null
          { s with
            skip_qual_removed := false
            nBegin := if s.skip_qual_removed then s.nBegin + 1 else s.nBegin
            sk_argument := s.prev_distinct_val
            sk_flags := (⟨true, false, true⟩ : SkipFlags) } = true := by
        simp [skip_scan_state_found_null, hstage]
      have hfv : skip_scan_state_found_val
          { s with
            skip_qual_removed := false
            nBegin := if s.skip_qual_removed then s.nBegin + 1 else s.nBegin
            sk_argument := s.prev_distinct_val
            sk_flags := (⟨true, false, true⟩ : SkipFlags) } = false := by
        simp [skip_scan_state_found_val, hstage]
      simp only [hfe, hfin, hfn, hfv, Bool.false_eq_true, if_false, not_false_eq_true,
        not_true_eq_false, if_true, Bool.not_eq_true]
      have hprep2 : skip_scan_exec_prepare (skip_scan_search_for_nonnull_adjust
          { s with
            skip_qual_removed := false
            nBegin := if s.skip_qual_removed then s.nBegin + 1 else s.nBegin
            sk_argument := s.prev_distinct_val
            sk_flags := ⟨true, false, true⟩ }) =
          { s with
            skip_qual_removed := false
            nBegin := if s.skip_qual_removed then s.nBegin + 1 else s.nBegin
            sk_argument := s.prev_distinct_val
            sk_flags := ⟨true, false, true⟩
            stage := ⟨true, false, true⟩
            nValProbe := s.nValProbe + 1 } := by
        unfold skip_scan_search_for_nonnull_adjust skip_scan_exec_prepare
        simp [skip_scan_is_searching_for_first_val, SkipScanSearchingForFirst, hstage,
          skip_scan_state_populate_skip_qual, skip_scan_state_is_searching_for_null,
          skip_scan_state_is_searching_for_val]
      have hpull2 : innerScanFirst desc table q (skip_scan_exec_prepare
          (skip_scan_search_for_nonnull_adjust
            { s with
              skip_qual_removed := false
              nBegin := if s.skip_qual_removed then s.nBegin + 1 else s.nBegin
              sk_argument := s.prev_distinct_val
              sk_flags := ⟨true, false, true⟩ })) =
          ((table.filter q).filter (fun r => r.key.isSome)).head? := by
        rw [hprep2]
        exact innerScanFirst_searchNotNull desc table q _ rfl rfl rfl rfl
      unfold skip_scan_exec_go
      dsimp only
      rw [hpull2, hprep2, hhead]
      have hfe2 : skip_scan_state_found_everything
          { s with
            skip_qual_removed := false
            nBegin := if s.skip_qual_removed then s.nBegin + 1 else s.nBegin
            sk_argument := s.prev_distinct_val
            sk_flags := (⟨true, false, true⟩ : SkipFlags)
            stage := (⟨true, false, true⟩ : Stage)
            nValProbe := s.nValProbe + 1 } = false := by
        simp [skip_scan_state_found_everything]
      have hfin2 : skip_scan_is_finished
          { s with
            skip_qual_removed := false
            nBegin := if s.skip_qual_removed then s.nBegin + 1 else s.nBegin
            sk_argument := s.prev_distinct_val
            sk_flags := (⟨true, false, true⟩ : SkipFlags)
            stage := (⟨true, false, true⟩ : Stage)
            nValProbe := s.nValProbe + 1 } = true := by
        simp [skip_scan_is_finished, skip_scan_state_is_searching_for_val,
          skip_scan_state_is_searching_for_null, skip_scan_state_found_val,
          skip_scan_state_found_null]
      simp [hfe2, hfin2]
  | false =>
    rw [hsnn] at hprep
    have hpull : innerScanFirst desc table q (skip_scan_exec_prepare s) = none := by
      rw [hprep]
      exact innerScanFirst_nullArg desc table q _ rfl rfl rfl rfl
    unfold skip_scan_exec skip_scan_exec_go
    dsimp only
    rw [hpull, hprep]
    have hfe : skip_scan_state_found_everything
        { s with
          skip_qual_removed := false
          nBegin := if s.skip_qual_removed then s.nBegin + 1 else s.nBegin
          sk_argument := s.prev_distinct_val
          sk_flags := (⟨true, false, false⟩ : SkipFlags) } = false := by
      simp [skip_scan_state_found_everything, hstage]
    have hfin : skip_scan_is_finished
        { s with
          skip_qual_removed := false
          nBegin := if s.skip_qual_removed then s.nBegin + 1 else s.nBegin
          sk_argument := s.prev_distinct_val
          sk_flags := (⟨true, false, false⟩ : SkipFlags) } = false := by
      simp [skip_scan_is_finished, skip_scan_state_is_searching_for_val,
        skip_scan_state_is_searching_for_null, skip_scan_state_found_val,
        skip_scan_state_found_null, hstage]
    have hfn : skip_scan_state_found_null
        { s with
          skip_qual_removed := false
          nBegin := if s.skip_qual_removed then s.nBegin + 1 else s.nBegin
          sk_argument := s.prev_distinct_val
          sk_flags := (⟨true, false, false⟩ : SkipFlags) } = true := by
      simp [skip_scan_state_found_null, hstage]
    have hfv : skip_scan_state_found_val
        { s with
          skip_qual_removed := false
          nBegin := if s.skip_qual_removed then s.nBegin + 1 else s.nBegin
          sk_argument := s.prev_distinct_val
          sk_flags := (⟨true, false, false⟩ : SkipFlags) } = false := by
      simp [skip_scan_state_found_val, hstage]
    simp only [hfe, hfin, hfn, hfv, Bool.false_eq_true, if_false, not_false_eq_true,
      not_true_eq_false, if_true, Bool.not_eq_true]
    have hprep2 : skip_scan_exec_prepare (skip_scan_search_for_nonnull_adjust
        { s with
          skip_qual_removed := false
          nBegin := if s.skip_qual_removed then s.nBegin + 1 else s.nBegin
          sk_argument := s.prev_distinct_val
          sk_flags := ⟨true, false, false⟩ }) =
        { s with
          skip_qual_removed := false
          nBegin := if s.skip_qual_removed then s.nBegin + 1 else s.nBegin
          sk_argument := s.prev_distinct_val
          sk_flags := ⟨true, false, true⟩
          stage := ⟨true, false, true⟩
          nValProbe := s.nValProbe + 1 } := by
      unfold skip_scan_search_for_nonnull_adjust skip_scan_exec_prepare
      simp [skip_scan_is_searching_for_first_val, SkipScanSearchingForFirst, hstage,
        skip_scan_state_populate_skip_qual, skip_scan_state_is_searching_for_null,
        skip_scan_state_is_searching_for_val]
    have hpull2 : innerScanFirst desc table q (skip_scan_exec_prepare
        (skip_scan_search_for_nonnull_adjust
          { s with
            skip_qual_removed := false
            nBegin := if s.skip_qual_removed then s.nBegin + 1 else s.nBegin
            sk_argument := s.prev_distinct_val
            sk_flags := ⟨true, false, false⟩ })) =
        ((table.filter q).filter (fun r => r.key.isSome)).head? := by
      rw [hprep2]
      exact innerScanFirst_searchNotNull desc table q _ rfl rfl rfl rfl
    unfold skip_scan_exec_go
    dsimp only
    rw [hpull2, hprep2]
    cases hhead : ((table.filter q).filter (fun r => r.key.isSome)).head? with
    | some r2 => simp
    | none =>
      have hfe2 : skip_scan_state_found_everything
          { s with
            skip_qual_removed := false
            nBegin := if s.skip_qual_removed then s.nBegin + 1 else s.nBegin
            sk_argument := s.prev_distinct_val
            sk_flags := (⟨true, false, true⟩ : SkipFlags)
            stage := (⟨true, false, true⟩ : Stage)
            nValProbe := s.nValProbe + 1 } = false := by
        simp [skip_scan_state_found_everything]
      have hfin2 : skip_scan_is_finished
          { s with
            skip_qual_removed := false
            nBegin := if s.skip_qual_removed then s.nBegin + 1 else s.nBegin
            sk_argument := s.prev_distinct_val
            sk_flags := (⟨true, false, true⟩ : SkipFlags)
            stage := (⟨true, false, true⟩ : Stage)
            nValProbe := s.nValProbe + 1 } = true := by
        simp [skip_scan_is_finished, skip_scan_state_is_searching_for_val,
          skip_scan_state_is_searching_for_null, skip_scan_state_found_val,
          skip_scan_state_found_null]
      simp [hfe2, hfin2]

theorem exec_both_null_phase (desc : Bool) (table : List Row) (q : Row → Bool) (s : ExecState)
    (hstage : s.stage = ⟨true, true, false⟩) (hprev : s.prev_is_null = true)
    (hsnn : s.sk_flags.searchNotNull = false) :
    skip_scan_exec desc table q s =
      (none, { s with
        skip_qual_removed := false
        nBegin := if s.skip_qual_removed then s.nBegin + 1 else s.nBegin
        sk_argument := s.prev_distinct_val
        sk_flags := ⟨true, false, s.sk_flags.searchNotNull⟩ }) := by
  have hfirst : skip_scan_is_searching_for_first_val s = false := by
    simp [skip_scan_is_searching_for_first_val, hstage, SkipScanSearchingForFirst]
  have hprep : skip_scan_exec_prepare s =
      { s with
        skip_qual_removed := false
        nBegin := if s.skip_qual_removed then s.nBegin + 1 else s.nBegin
        sk_argument := s.prev_distinct_val
        sk_flags := ⟨true, false, s.sk_flags.searchNotNull⟩ } := by
    unfold skip_scan_exec_prepare
    rw [hfirst]
    cases hr : s.skip_qual_removed with
    | false =>
      simp [skip_scan_state_populate_skip_qual, skip_scan_state_is_searching_for_null,
        skip_scan_state_is_searching_for_val, hstage, hprev, hr]
    | true =>
      simp [skip_scan_state_populate_skip_qual, skip_scan_state_is_searching_for_null,
        skip_scan_state_is_searching_for_val, hstage, hprev, hr]
  have hpull : innerScanFirst desc table q (skip_scan_exec_prepare s) = none := by
    rw [hprep]
    refine innerScanFirst_nullArg desc table q _ rfl rfl ?_ rfl
    simp [hsnn]
  unfold skip_scan_exec skip_scan_exec_go
  dsimp only
  rw [hpull, hprep]
  have hfe : skip_scan_state_found_everything
      { s with
        skip_qual_removed := false
        nBegin := if s.skip_qual_removed then s.nBegin + 1 else s.nBegin
        sk_argument := s.prev_distinct_val
        sk_flags := (⟨true, false, s.sk_flags.searchNotNull⟩ : SkipFlags) } = true := by
    simp [skip_scan_state_found_everything, hstage]
  simp [hfe]

end SkipScanExec

namespace SkipScanExec

theorem filter_after_lt_isSome (desc : Bool) (F : List Row) (r2 : Row) (w : Int)
    (hhead : (F.filter (fun r => r.key.isSome)).head? = some r2) (hkey : r2.key = some w) :
    (F.filter (keyAfter desc w)).length < (F.filter (fun r => r.key.isSome)).length := by
  have hstep : F.filter (keyAfter desc w) =
      (F.filter (fun r => r.key.isSome)).filter (keyAfter desc w) := by
    rw [List.filter_filter]
    apply List.filter_congr
    intro x _
    cases hx : x.key with
    | none => simp [keyAfter, hx]
    | some u => simp [keyAfter, hx]
  cases hL : F.filter (fun r => r.key.isSome) with
  | nil => rw [hL] at hhead; cases hhead
  | cons a T =>
    have har : a = r2 := by
      rw [hL] at hhead
      simpa using hhead
    subst har
    rw [hstep, hL]
    have hra : keyAfter desc w a = false := by
      unfold keyAfter
      rw [hkey]
      exact sgtb_self desc w
    rw [List.filter_cons_of_neg (by simp [hra])]
    calc (T.filter (keyAfter desc w)).length ≤ T.length := List.length_filter_le _ _
    _ < (a :: T).length := by simp

theorem run_from_both_value (desc : Bool) (table : List Row) (q : Row → Bool) :
    ∀ (m n : Nat) (s : ExecState) (v : Int),
      ((table.filter q).filter (keyAfter desc v)).length = m →
      m + 1 ≤ n →
      s.stage = ⟨true, true, false⟩ →
      s.prev_is_null = false →
      s.prev_distinct_val = v →
      (skip_scan_run desc table q n s).1 = skipChain desc (table.filter q) m v := by
  intro m
  induction m using Nat.strong_induction_on with
  | _ m ih =>
    intro n s v hm hn hstage hprev hval
    obtain ⟨n', rfl⟩ : ∃ n', n = n' + 1 := ⟨n - 1, by omega⟩
    unfold skip_scan_run
    rw [exec_both_value_phase desc table q s v hstage hprev hval]
    cases hhead : ((table.filter q).filter (keyAfter desc v)).head? with
    | none =>
      have hnil : (table.filter q).filter (keyAfter desc v) = [] :=
        List.head?_eq_none_iff.mp hhead
      rw [hnil] at hm
      simp only [List.length_nil] at hm
      subst hm
      simp [skipChain, hhead]
    | some r =>
      have hmem := head_filter_mem _ _ r hhead
      have hkey : ∃ w, r.key = some w := by
        have := hmem.2
        unfold keyAfter at this
        cases hk : r.key with
        | none => rw [hk] at this; cases this
        | some w => exact ⟨w, rfl⟩
      obtain ⟨w, hw⟩ := hkey
      have hupd : update_skip_key { s with
          skip_qual_removed := false
          nBegin := if s.skip_qual_removed then s.nBegin + 1 else s.nBegin
          sk_argument := v
          sk_flags := ⟨false, s.sk_flags.searchNull, false⟩ } r =
          { s with
            skip_qual_removed := false
            nBegin := if s.skip_qual_removed then s.nBegin + 1 else s.nBegin
            sk_argument := v
            sk_flags := ⟨false, s.sk_flags.searchNull, false⟩
            prev_distinct_val := w
            prev_is_null := false
            stage := ⟨true, true, false⟩ } := by
        unfold update_skip_key
        rw [hw]
        simp [hstage]
      dsimp only
      rw [hupd]
      have hlt := filter_after_head_lt desc (table.filter q) v w r hhead hw
      rw [hm] at hlt
      have hrec := ih ((table.filter q).filter (keyAfter desc w)).length hlt n'
        { s with
          skip_qual_removed := false
          nBegin := if s.skip_qual_removed then s.nBegin + 1 else s.nBegin
          sk_argument := v
          sk_flags := ⟨false, s.sk_flags.searchNull, false⟩
          prev_distinct_val := w
          prev_is_null := false
          stage := ⟨true, true, false⟩ } w rfl (by omega) rfl rfl rfl
      rw [hrec]
      obtain ⟨t, rfl⟩ : ∃ t, m = t + 1 := by
        refine ⟨m - 1, ?_⟩
        have : 1 ≤ m := by
          cases hL : (table.filter q).filter (keyAfter desc v) with
          | nil => rw [hL] at hhead; cases hhead
          | cons a T => rw [hL] at hm; simp at hm; omega
        omega
      simp only [skipChain, hhead, hw, Option.getD_some]
      rw [skipChain_fuel_congr desc (table.filter q)
        ((table.filter q).filter (keyAfter desc w)).length _ t w rfl (le_refl _) (by omega)]

theorem run_from_both_null (desc : Bool) (table : List Row) (q : Row → Bool)
    (n : Nat) (s : ExecState) (hn : 1 ≤ n)
    (hstage : s.stage = ⟨true, true, false⟩) (hprev : s.prev_is_null = true)
    (hsnn : s.sk_flags.searchNotNull = false) :
    (skip_scan_run desc table q n s).1 = [] := by
  obtain ⟨n', rfl⟩ : ∃ n', n = n' + 1 := ⟨n - 1, by omega⟩
  unfold skip_scan_run
  rw [exec_both_null_phase desc table q s hstage hprev hsnn]

theorem run_from_value (desc : Bool) (table : List Row) (q : Row → Bool) :
    ∀ (m n : Nat) (s : ExecState) (v : Int),
      ((table.filter q).filter (keyAfter desc v)).length = m →
      m + 2 ≤ n →
      s.stage = ⟨false, true, false⟩ →
      s.prev_is_null = false →
      s.prev_distinct_val = v →
      (skip_scan_run desc table q n s).1 =
        skipChain desc (table.filter q) m v ++
          (((table.filter q).filter (fun r => r.key.isNone)).head?.elim [] (fun rn => [rn])) := by
  intro m
  induction m using Nat.strong_induction_on with
  | _ m ih =>
    intro n s v hm hn hstage hprev hval
    obtain ⟨n', rfl⟩ : ∃ n', n = n' + 1 := ⟨n - 1, by omega⟩
    unfold skip_scan_run
    rw [exec_value_phase desc table q s v hstage hprev hval]
    cases hhead : ((table.filter q).filter (keyAfter desc v)).head? with
    | some r =>
      have hmem := head_filter_mem _ _ r hhead
      have hkey : ∃ w, r.key = some w := by
        have := hmem.2
        unfold keyAfter at this
        cases hk : r.key with
        | none => rw [hk] at this; cases this
        | some w => exact ⟨w, rfl⟩
      obtain ⟨w, hw⟩ := hkey
      have hupd : update_skip_key { s with
          skip_qual_removed := false
          nBegin := if s.skip_qual_removed then s.nBegin + 1 else s.nBegin
          sk_argument := v
          sk_flags := ⟨false, s.sk_flags.searchNull, false⟩ } r =
          { s with
            skip_qual_removed := false
            nBegin := if s.skip_qual_removed then s.nBegin + 1 else s.nBegin
            sk_argument := v
            sk_flags := ⟨false, s.sk_flags.searchNull, false⟩
            prev_distinct_val := w
            prev_is_null := false
            stage := ⟨false, true, false⟩ } := by
        unfold update_skip_key
        rw [hw]
        simp [hstage]
      dsimp only
      rw [hupd]
      have hlt := filter_after_head_lt desc (table.filter q) v w r hhead hw
      rw [hm] at hlt
      have hrec := ih ((table.filter q).filter (keyAfter desc w)).length hlt n'
        { s with
          skip_qual_removed := false
          nBegin := if s.skip_qual_removed then s.nBegin + 1 else s.nBegin
          sk_argument := v
          sk_flags := ⟨false, s.sk_flags.searchNull, false⟩
          prev_distinct_val := w
          prev_is_null := false
          stage := ⟨false, true, false⟩ } w rfl (by omega) rfl rfl rfl
      rw [hrec]
      obtain ⟨t, rfl⟩ : ∃ t, m = t + 1 := by
        refine ⟨m - 1, ?_⟩
        have : 1 ≤ m := by
          cases hL : (table.filter q).filter (keyAfter desc v) with
          | nil => rw [hL] at hhead; cases hhead
          | cons a T => rw [hL] at hm; simp at hm; omega
        omega
      simp only [skipChain, hhead, hw, Option.getD_some, List.cons_append]
      rw [skipChain_fuel_congr desc (table.filter q)
        ((table.filter q).filter (keyAfter desc w)).length _ t w rfl (le_refl _) (by omega)]
    | none =>
      have hnil : (table.filter q).filter (keyAfter desc v) = [] :=
        List.head?_eq_none_iff.mp hhead
      rw [hnil] at hm
      simp only [List.length_nil] at hm
      subst hm
      cases hnull : ((table.filter q).filter (fun r => r.key.isNone)).head? with
      | some rn =>
        have hk : rn.key = none := by
          have := (head_filter_mem _ _ rn hnull).2
          simpa using this
        have hupd : update_skip_key { s with
            skip_qual_removed := false
            nBegin := if s.skip_qual_removed then s.nBegin + 1 else s.nBegin
            sk_argument := v
            sk_flags := ⟨true, true, false⟩
            stage := ⟨false, true, true⟩
            nNullProbe := s.nNullProbe + 1 } rn =
            { s with
              skip_qual_removed := false
              nBegin := if s.skip_qual_removed then s.nBegin + 1 else s.nBegin
              sk_argument := v
              sk_flags := ⟨true, true, false⟩
              stage := ⟨true, true, false⟩
              nNullProbe := s.nNullProbe + 1
              prev_distinct_val := 0
              prev_is_null := true } := by
          unfold update_skip_key
          rw [hk]
        dsimp only
        rw [hupd]
        rw [run_from_both_null desc table q n'
          { s with
            skip_qual_removed := false
            nBegin := if s.skip_qual_removed then s.nBegin + 1 else s.nBegin
            sk_argument := v
            sk_flags := ⟨true, true, false⟩
            stage := ⟨true, true, false⟩
            nNullProbe := s.nNullProbe + 1
            prev_distinct_val := 0
            prev_is_null := true } (by omega) rfl rfl rfl]
        simp [skipChain, hhead]
      | none =>
        simp [skipChain, hhead]

theorem run_from_null_first (desc : Bool) (table : List Row) (q : Row → Bool)
    (n : Nat) (s : ExecState)
    (hn : ((table.filter q).filter (fun r => r.key.isSome)).length + 2 ≤ n)
    (hstage : s.stage = ⟨true, false, false⟩) (hprev : s.prev_is_null = true) :
    (skip_scan_run desc table q n s).1 =
      ((table.filter q).filter (fun r => r.key.isSome)).head?.elim []
        (fun r2 => r2 :: skipChain desc (table.filter q)
          ((table.filter q).filter (keyAfter desc (r2.key.getD 0))).length (r2.key.getD 0)) := by
  obtain ⟨n', rfl⟩ : ∃ n', n = n' + 1 := ⟨n - 1, by omega⟩
  unfold skip_scan_run
  rw [exec_null_first_phase desc table q s hstage hprev]
  cases hhead : ((table.filter q).filter (fun r => r.key.isSome)).head? with
  | none => simp
  | some r2 =>
    have hk : r2.key.isSome = true := by
      have := (head_filter_mem _ _ r2 hhead).2
      simpa using this
    obtain ⟨w, hw⟩ := Option.isSome_iff_exists.mp hk
    have hupd : update_skip_key { s with
        skip_qual_removed := false
        nBegin := if s.skip_qual_removed then s.nBegin + 1 else s.nBegin
        sk_argument := s.prev_distinct_val
        sk_flags := ⟨true, false, true⟩
        stage := ⟨true, false, true⟩
        nValProbe := if s.sk_flags.searchNotNull then s.nValProbe else s.nValProbe + 1 } r2 =
        { s with
          skip_qual_removed := false
          nBegin := if s.skip_qual_removed then s.nBegin + 1 else s.nBegin
          sk_argument := s.prev_distinct_val
          sk_flags := ⟨true, false, true⟩
          stage := ⟨true, true, false⟩
          nValProbe := if s.sk_flags.searchNotNull then s.nValProbe else s.nValProbe + 1
          prev_distinct_val := w
          prev_is_null := false } := by
      unfold update_skip_key
      rw [hw]
    dsimp only
    rw [hupd]
    have hlt2 := filter_after_lt_isSome desc (table.filter q) r2 w hhead hw
    rw [run_from_both_value desc table q
      ((table.filter q).filter (keyAfter desc w)).length n'
      { s with
        skip_qual_removed := false
        nBegin := if s.skip_qual_removed then s.nBegin + 1 else s.nBegin
        sk_argument := s.prev_distinct_val
        sk_flags := ⟨true, false, true⟩
        stage := ⟨true, true, false⟩
        nValProbe := if s.sk_flags.searchNotNull then s.nValProbe else s.nValProbe + 1
        prev_distinct_val := w
        prev_is_null := false } w rfl (by omega) rfl rfl rfl]
    simp [hw]

end SkipScanExec

namespace SkipScanExec

/-- Master characterization of one generation: from the state `skip_scan_begin`
or `skip_scan_rescan` leaves (clean stage, NULL previous value, skip qual in
place), driving `skip_scan_exec` to exhaustion returns exactly
`expectedGen` of the filtered table — for any skip-qual flag word and
argument left behind by earlier generations, any scan direction, and any
table. -/
theorem skip_scan_run_eq_expectedGen (desc : Bool) (table : List Row) (q : Row → Bool)
    (f : SkipFlags) (arg : Int) (n : Nat) (hn : table.length + 2 ≤ n) :
    (skip_scan_run desc table q n (skip_scan_initial_state f arg)).1 =
      expectedGen desc (table.filter q) := by
  obtain ⟨n', rfl⟩ : ∃ n', n = n' + 1 := ⟨n - 1, by omega⟩
  unfold skip_scan_run
  rw [exec_first_phase desc table q _ rfl]
  cases hhead : (table.filter q).head? with
  | none =>
    unfold expectedGen
    rw [hhead]
  | some z =>
    obtain ⟨F2, hF⟩ : ∃ F2, table.filter q = z :: F2 := by
      cases hL : table.filter q with
      | nil => rw [hL] at hhead; cases hhead
      | cons a T =>
        rw [hL] at hhead
        simp only [List.head?_cons, Option.some.injEq] at hhead
        exact ⟨T, by rw [hhead]⟩
    have hlenF : (table.filter q).length ≤ table.length := List.length_filter_le _ _
    have hlenF2 : F2.length + 1 = (table.filter q).length := by rw [hF]; simp
    cases hz : z.key with
    | some v₀ =>
      have hupd : update_skip_key { skip_scan_initial_state f arg with
          skip_qual_removed := true
          nBegin := (skip_scan_initial_state f arg).nBegin + 1 } z =
          { stage := ⟨false, true, false⟩
            prev_distinct_val := v₀
            prev_is_null := false
            sk_flags := f
            sk_argument := arg
            skip_qual_removed := true
            nBegin := 1
            nNullProbe := 0
            nValProbe := 0 } := by
        unfold update_skip_key skip_scan_initial_state
        rw [hz]
        rfl
      dsimp only
      rw [hupd]
      have hmz : keyAfter desc v₀ z = false := by
        unfold keyAfter
        rw [hz]
        exact sgtb_self desc v₀
      have hmeas : ((table.filter q).filter (keyAfter desc v₀)).length ≤ F2.length := by
        rw [hF, List.filter_cons_of_neg (by simp [hmz])]
        exact List.length_filter_le _ _
      rw [run_from_value desc table q
        ((table.filter q).filter (keyAfter desc v₀)).length n' _ v₀ rfl (by omega) rfl rfl rfl]
      unfold expectedGen
      rw [hhead]
      dsimp only
      rw [hz]
      dsimp only
      rw [skipChain_fuel_congr desc (table.filter q)
        ((table.filter q).filter (keyAfter desc v₀)).length _ ((table.filter q).length) v₀ rfl
        (le_refl _) (List.length_filter_le _ _)]
    | none =>
      have hupd : update_skip_key { skip_scan_initial_state f arg with
          skip_qual_removed := true
          nBegin := (skip_scan_initial_state f arg).nBegin + 1 } z =
          { stage := ⟨true, false, false⟩
            prev_distinct_val := 0
            prev_is_null := true
            sk_flags := f
            sk_argument := arg
            skip_qual_removed := true
            nBegin := 1
            nNullProbe := 0
            nValProbe := 0 } := by
        unfold update_skip_key skip_scan_initial_state
        rw [hz]
        rfl
      dsimp only
      rw [hupd]
      have hmz : z.key.isSome = false := by rw [hz]; rfl
      have hmeas : ((table.filter q).filter (fun r => r.key.isSome)).length ≤ F2.length := by
        rw [hF, List.filter_cons_of_neg (by simp [hmz])]
        exact List.length_filter_le _ _
      rw [run_from_null_first desc table q n' _ (by omega) rfl rfl]
      unfold expectedGen
      rw [hhead]
      dsimp only
      rw [hz]
      dsimp only
      cases hsome : ((table.filter q).filter (fun r => r.key.isSome)).head? with
      | none => rfl
      | some r2 =>
        simp only [Option.elim_some, List.cons.injEq, true_and]
        rw [skipChain_fuel_congr desc (table.filter q)
          ((table.filter q).filter (keyAfter desc (r2.key.getD 0))).length _
          ((table.filter q).length) (r2.key.getD 0) rfl (le_refl _) (List.length_filter_le _ _)]

end SkipScanExec

namespace SkipScanExec

theorem populate_stage (s : ExecState) :
    (skip_scan_state_populate_skip_qual s).stage = s.stage := rfl

theorem populate_prev (s : ExecState) :
    (skip_scan_state_populate_skip_qual s).prev_distinct_val = s.prev_distinct_val := rfl

theorem populate_prev_null (s : ExecState) :
    (skip_scan_state_populate_skip_qual s).prev_is_null = s.prev_is_null := rfl

theorem populate_removed (s : ExecState) :
    (skip_scan_state_populate_skip_qual s).skip_qual_removed = s.skip_qual_removed := rfl

theorem populate_nBegin (s : ExecState) :
    (skip_scan_state_populate_skip_qual s).nBegin = s.nBegin := rfl

theorem populate_nNullProbe (s : ExecState) :
    (skip_scan_state_populate_skip_qual s).nNullProbe = s.nNullProbe := rfl

theorem populate_nValProbe (s : ExecState) :
    (skip_scan_state_populate_skip_qual s).nValProbe = s.nValProbe := rfl

theorem populate_arg (s : ExecState) :
    (skip_scan_state_populate_skip_qual s).sk_argument = s.prev_distinct_val := rfl

theorem prepare_stage (s : ExecState) : (skip_scan_exec_prepare s).stage = s.stage := by
  unfold skip_scan_exec_prepare
  split
  · rfl
  · rw [populate_stage]
    split <;> rfl

theorem prepare_prev (s : ExecState) :
    (skip_scan_exec_prepare s).prev_distinct_val = s.prev_distinct_val := by
  unfold skip_scan_exec_prepare
  split
  · rfl
  · rw [populate_prev]
    split <;> rfl

theorem prepare_prev_null (s : ExecState) :
    (skip_scan_exec_prepare s).prev_is_null = s.prev_is_null := by
  unfold skip_scan_exec_prepare
  split
  · rfl
  · rw [populate_prev_null]
    split <;> rfl

theorem prepare_nNullProbe (s : ExecState) :
    (skip_scan_exec_prepare s).nNullProbe = s.nNullProbe := by
  unfold skip_scan_exec_prepare
  split
  · rfl
  · rw [populate_nNullProbe]
    split <;> rfl

theorem prepare_nValProbe (s : ExecState) :
    (skip_scan_exec_prepare s).nValProbe = s.nValProbe := by
  unfold skip_scan_exec_prepare
  split
  · rfl
  · rw [populate_nValProbe]
    split <;> rfl

theorem prepare_removed_first (s : ExecState)
    (h : skip_scan_is_searching_for_first_val s = true) :
    (skip_scan_exec_prepare s).skip_qual_removed = true := by
  unfold skip_scan_exec_prepare
  rw [h]
  rfl

theorem prepare_removed_nonfirst (s : ExecState)
    (h : skip_scan_is_searching_for_first_val s = false) :
    (skip_scan_exec_prepare s).skip_qual_removed = false := by
  unfold skip_scan_exec_prepare
  rw [h]
  simp only [Bool.false_eq_true, if_false]
  rw [populate_removed]
  split
  · rfl
  · rename_i hr
    simpa using hr

theorem prepare_nBegin_first (s : ExecState)
    (h : skip_scan_is_searching_for_first_val s = true) :
    (skip_scan_exec_prepare s).nBegin = s.nBegin + 1 := by
  unfold skip_scan_exec_prepare
  rw [h]
  rfl

theorem prepare_nBegin_nonfirst (s : ExecState)
    (h : skip_scan_is_searching_for_first_val s = false) :
    (skip_scan_exec_prepare s).nBegin =
      (if s.skip_qual_removed then s.nBegin + 1 else s.nBegin) := by
  unfold skip_scan_exec_prepare
  rw [h]
  simp only [Bool.false_eq_true, if_false]
  rw [populate_nBegin]
  split <;> rfl

theorem prepare_arg_nonfirst (s : ExecState)
    (h : skip_scan_is_searching_for_first_val s = false) :
    (skip_scan_exec_prepare s).sk_argument = s.prev_distinct_val := by
  unfold skip_scan_exec_prepare
  rw [h]
  simp only [Bool.false_eq_true, if_false]
  rw [populate_arg]
  split <;> rfl

theorem update_stage_foundNull_mono (s : ExecState) (r : Row)
    (h : s.stage.foundNull = true) :
    (update_skip_key s r).stage.foundNull = true := by
  unfold update_skip_key
  cases r.key <;> simp [h]

theorem update_stage_foundVal_mono (s : ExecState) (r : Row)
    (h : s.stage.foundVal = true) :
    (update_skip_key s r).stage.foundVal = true := by
  unfold update_skip_key
  cases r.key <;> simp [h]

theorem update_removed (s : ExecState) (r : Row) :
    (update_skip_key s r).skip_qual_removed = s.skip_qual_removed := by
  unfold update_skip_key
  cases r.key <;> rfl

theorem update_nBegin (s : ExecState) (r : Row) :
    (update_skip_key s r).nBegin = s.nBegin := by
  unfold update_skip_key
  cases r.key <;> rfl

theorem update_arg (s : ExecState) (r : Row) :
    (update_skip_key s r).sk_argument = s.sk_argument := by
  unfold update_skip_key
  cases r.key <;> rfl

theorem update_nNullProbe (s : ExecState) (r : Row) :
    (update_skip_key s r).nNullProbe = s.nNullProbe := by
  unfold update_skip_key
  cases r.key <;> rfl

theorem update_nValProbe (s : ExecState) (r : Row) :
    (update_skip_key s r).nValProbe = s.nValProbe := by
  unfold update_skip_key
  cases r.key <;> rfl

end SkipScanExec

namespace SkipScanExec

theorem null_adjust_stage (s : ExecState) :
    (skip_scan_search_for_null_adjust s).stage =
      { s.stage with additional := true, foundVal := true } := rfl

theorem nonnull_adjust_stage (s : ExecState) :
    (skip_scan_search_for_nonnull_adjust s).stage =
      { s.stage with additional := true, foundNull := true } := rfl

theorem populate_flags_searchNull (y : ExecState) (h1 : y.stage.additional = true)
    (h2 : y.stage.foundVal = true) :
    (skip_scan_state_populate_skip_qual y).sk_flags = ⟨true, true, false⟩ := by
  unfold skip_scan_state_populate_skip_qual
  simp [skip_scan_state_is_searching_for_null, h1, h2]

theorem populate_flags_searchVal (y : ExecState) (h1 : y.stage.additional = true)
    (h2 : y.stage.foundVal = false) (h3 : y.stage.foundNull = true) :
    (skip_scan_state_populate_skip_qual y).sk_flags = ⟨true, false, true⟩ := by
  unfold skip_scan_state_populate_skip_qual
  simp [skip_scan_state_is_searching_for_null, skip_scan_state_is_searching_for_val, h1, h2, h3]

theorem null_adjust_removed (s : ExecState) :
    (skip_scan_search_for_null_adjust s).skip_qual_removed = s.skip_qual_removed := rfl

theorem nonnull_adjust_removed (s : ExecState) :
    (skip_scan_search_for_nonnull_adjust s).skip_qual_removed = s.skip_qual_removed := rfl

theorem prepare_eq_populate (y : ExecState)
    (h1 : skip_scan_is_searching_for_first_val y = false) (h2 : y.skip_qual_removed = false) :
    skip_scan_exec_prepare y = skip_scan_state_populate_skip_qual y := by
  unfold skip_scan_exec_prepare
  rw [h1]
  simp [h2]

/-- Exhaustive case analysis of one `skip_scan_exec` call on an arbitrary
state: either the prepared scan returns a row; or it is exhausted and the
call ends on the prepared state; or exactly one boundary probe runs
(search-for-NULL only when no NULL was found yet and a value was, and
symmetrically), itself either returning a row of the probed kind or ending
the generation. -/
theorem exec_cases (desc : Bool) (table : List Row) (q : Row → Bool) (s : ExecState) :
    (∃ r, skip_scan_exec desc table q s =
        (some r, update_skip_key (skip_scan_exec_prepare s) r)) ∨
    (skip_scan_exec desc table q s = (none, skip_scan_exec_prepare s)) ∨
    (s.stage.foundNull = false ∧ s.stage.foundVal = true ∧
      ((∃ r, r.key = none ∧ skip_scan_exec desc table q s =
          (some r, update_skip_key (skip_scan_state_populate_skip_qual
            (skip_scan_search_for_null_adjust (skip_scan_exec_prepare s))) r)) ∨
       skip_scan_exec desc table q s = (none, skip_scan_state_populate_skip_qual
          (skip_scan_search_for_null_adjust (skip_scan_exec_prepare s))))) ∨
    (s.stage.foundNull = true ∧ s.stage.foundVal = false ∧
      ((∃ r w, r.key = some w ∧ skip_scan_exec desc table q s =
          (some r, update_skip_key (skip_scan_state_populate_skip_qual
            (skip_scan_search_for_nonnull_adjust (skip_scan_exec_prepare s))) r)) ∨
       skip_scan_exec desc table q s = (none, skip_scan_state_populate_skip_qual
          (skip_scan_search_for_nonnull_adjust (skip_scan_exec_prepare s))))) := by
  have hstage := prepare_stage s
  unfold skip_scan_exec skip_scan_exec_go
  dsimp only
  cases hpull : innerScanFirst desc table q (skip_scan_exec_prepare s) with
  | some r =>
    left
    exact ⟨r, by simp⟩
  | none =>
    by_cases hfe : skip_scan_state_found_everything (skip_scan_exec_prepare s) = true
    · right; left; simp [hfe]
    · by_cases hfin : skip_scan_is_finished (skip_scan_exec_prepare s) = true
      · right; left
        simp [hfe, hfin]
      · have hfnv : s.stage.foundNull = true ∨ s.stage.foundVal = true := by
          unfold skip_scan_is_finished at hfin
          rw [hstage] at hfin
          by_cases h1 : s.stage.foundNull = true
          · exact Or.inl h1
          · right
            by_cases h2 : s.stage.foundVal = true
            · exact h2
            · exfalso
              apply hfin
              simp [h1, h2]
        by_cases hfn : skip_scan_state_found_null (skip_scan_exec_prepare s) = true
        · -- a NULL was found: the non-NULL probe runs
          have hfnS : s.stage.foundNull = true := by
            unfold skip_scan_state_found_null at hfn
            rw [hstage] at hfn
            exact hfn
          have hfvS : s.stage.foundVal = false := by
            by_cases h2 : s.stage.foundVal = true
            · exfalso
              apply hfe
              unfold skip_scan_state_found_everything
              rw [hstage]
              simp [hfnS, h2]
            · simpa using h2
          have hfv : skip_scan_state_found_val (skip_scan_exec_prepare s) = false := by
            unfold skip_scan_state_found_val
            rw [hstage]
            exact hfvS
          right; right; right
          refine ⟨hfnS, hfvS, ?_⟩
          simp only [hfe, hfin, hfn, hfv, Bool.false_eq_true, if_false, not_false_eq_true,
            not_true_eq_false, if_true, Bool.not_eq_true]
          -- evaluate the probe round
          have hadd2 : (skip_scan_search_for_nonnull_adjust (skip_scan_exec_prepare s)).stage =
              { s.stage with additional := true, foundNull := true } := by
            rw [nonnull_adjust_stage, hstage]
          have hflags2 := populate_flags_searchVal
            (skip_scan_search_for_nonnull_adjust (skip_scan_exec_prepare s))
            (by rw [hadd2]) (by rw [hadd2]; exact hfvS) (by rw [hadd2])
          have hrem2 : (skip_scan_state_populate_skip_qual
              (skip_scan_search_for_nonnull_adjust (skip_scan_exec_prepare s))).skip_qual_removed
              = false := by
            rw [populate_removed]
            show (skip_scan_exec_prepare s).skip_qual_removed = false
            apply prepare_removed_nonfirst
            unfold skip_scan_is_searching_for_first_val
            have : s.stage ≠ SkipScanSearchingForFirst := by
              intro hc
              rcases hfnv with h | h <;> rw [hc] at h <;> cases h
            simp [this]
          have hpull2 := innerScanFirst_searchNotNull desc table q
            (skip_scan_state_populate_skip_qual
              (skip_scan_search_for_nonnull_adjust (skip_scan_exec_prepare s)))
            (by rw [hflags2]) (by rw [hflags2]) (by rw [hflags2]) hrem2
          have hremP : (skip_scan_exec_prepare s).skip_qual_removed = false := by
            apply prepare_removed_nonfirst
            unfold skip_scan_is_searching_for_first_val
            have : s.stage ≠ SkipScanSearchingForFirst := by
              intro hc
              rw [hc] at hfnS
              cases hfnS
            simp [this]
          have hpe : skip_scan_exec_prepare
              (skip_scan_search_for_nonnull_adjust (skip_scan_exec_prepare s)) =
              skip_scan_state_populate_skip_qual
                (skip_scan_search_for_nonnull_adjust (skip_scan_exec_prepare s)) := by
            apply prepare_eq_populate
            · unfold skip_scan_is_searching_for_first_val
              rw [hadd2]
              simp [SkipScanSearchingForFirst]
            · rw [nonnull_adjust_removed]
              exact hremP
          unfold skip_scan_exec_go
          dsimp only
          rw [hpe, hpull2]
          cases hhead2 : ((table.filter q).filter (fun r => r.key.isSome)).head? with
          | some r2 =>
            left
            have hk : r2.key.isSome = true := by
              have := (head_filter_mem _ _ r2 hhead2).2
              simpa using this
            obtain ⟨w, hw⟩ := Option.isSome_iff_exists.mp hk
            exact ⟨r2, w, hw, by simp⟩
          | none =>
            right
            have hfin2 : skip_scan_is_finished (skip_scan_state_populate_skip_qual
                (skip_scan_search_for_nonnull_adjust (skip_scan_exec_prepare s))) = true := by
              unfold skip_scan_is_finished skip_scan_state_is_searching_for_val
                skip_scan_state_is_searching_for_null skip_scan_state_found_val
                skip_scan_state_found_null
              rw [populate_stage, hadd2]
              simp [hfvS]
            have hfe2 : skip_scan_state_found_everything (skip_scan_state_populate_skip_qual
                (skip_scan_search_for_nonnull_adjust (skip_scan_exec_prepare s))) = false := by
              unfold skip_scan_state_found_everything
              rw [populate_stage, hadd2]
              simp [hfvS]
            simp [hfe2, hfin2]
        · -- no NULL yet: the NULL probe runs
          have hfnS : s.stage.foundNull = false := by
            unfold skip_scan_state_found_null at hfn
            rw [hstage] at hfn
            simpa using hfn
          have hfvS : s.stage.foundVal = true := by
            rcases hfnv with h | h
            · rw [h] at hfnS; cases hfnS
            · exact h
          right; right; left
          refine ⟨hfnS, hfvS, ?_⟩
          simp only [hfe, hfin, hfn, Bool.false_eq_true, if_false, not_false_eq_true,
            not_true_eq_false, if_true, Bool.not_eq_true]
          have hadd2 : (skip_scan_search_for_null_adjust (skip_scan_exec_prepare s)).stage =
              { s.stage with additional := true, foundVal := true } := by
            rw [null_adjust_stage, hstage]
          have hflags2 := populate_flags_searchNull
            (skip_scan_search_for_null_adjust (skip_scan_exec_prepare s))
            (by rw [hadd2]) (by rw [hadd2])
          have hrem2 : (skip_scan_state_populate_skip_qual
              (skip_scan_search_for_null_adjust (skip_scan_exec_prepare s))).skip_qual_removed
              = false := by
            rw [populate_removed]
            show (skip_scan_exec_prepare s).skip_qual_removed = false
            apply prepare_removed_nonfirst
            unfold skip_scan_is_searching_for_first_val
            have : s.stage ≠ SkipScanSearchingForFirst := by
              intro hc
              rw [hc] at hfvS
              cases hfvS
            simp [this]
          have hpull2 := innerScanFirst_searchNull desc table q
            (skip_scan_state_populate_skip_qual
              (skip_scan_search_for_null_adjust (skip_scan_exec_prepare s)))
            (by rw [hflags2]) (by rw [hflags2]) hrem2
          have hremP : (skip_scan_exec_prepare s).skip_qual_removed = false := by
            apply prepare_removed_nonfirst
            unfold skip_scan_is_searching_for_first_val
            have : s.stage ≠ SkipScanSearchingForFirst := by
              intro hc
              rw [hc] at hfvS
              cases hfvS
            simp [this]
          have hpe : skip_scan_exec_prepare
              (skip_scan_search_for_null_adjust (skip_scan_exec_prepare s)) =
              skip_scan_state_populate_skip_qual
                (skip_scan_search_for_null_adjust (skip_scan_exec_prepare s)) := by
            apply prepare_eq_populate
            · unfold skip_scan_is_searching_for_first_val
              rw [hadd2]
              simp [SkipScanSearchingForFirst]
            · rw [null_adjust_removed]
              exact hremP
          unfold skip_scan_exec_go
          dsimp only
          rw [hpe, hpull2]
          cases hhead2 : ((table.filter q).filter (fun r => r.key.isNone)).head? with
          | some r2 =>
            left
            have hk : r2.key = none := by
              have := (head_filter_mem _ _ r2 hhead2).2
              simpa using this
            exact ⟨r2, hk, by simp⟩
          | none =>
            right
            have hfin2 : skip_scan_is_finished (skip_scan_state_populate_skip_qual
                (skip_scan_search_for_null_adjust (skip_scan_exec_prepare s))) = true := by
              unfold skip_scan_is_finished skip_scan_state_is_searching_for_val
                skip_scan_state_is_searching_for_null skip_scan_state_found_val
                skip_scan_state_found_null
              rw [populate_stage, hadd2]
              simp [hfnS]
            have hfe2 : skip_scan_state_found_everything (skip_scan_state_populate_skip_qual
                (skip_scan_search_for_null_adjust (skip_scan_exec_prepare s))) = false := by
              unfold skip_scan_state_found_everything
              rw [populate_stage, hadd2]
              simp [hfnS]
            simp [hfe2, hfin2]

end SkipScanExec

namespace SkipScanExec

/-- Every get-next call terminates: the internal retry through the boundary
probes is at most one level deep, so recursion fuel 2 never runs out, on
any state whatsoever. -/
theorem exec_go_two_isSome (desc : Bool) (table : List Row) (q : Row → Bool) (s : ExecState) :
    (skip_scan_exec_go desc table q 2 s).isSome = true := by
  have hstage := prepare_stage s
  unfold skip_scan_exec_go
  dsimp only
  cases hpull : innerScanFirst desc table q (skip_scan_exec_prepare s) with
  | some r => simp
  | none =>
    by_cases hfe : skip_scan_state_found_everything (skip_scan_exec_prepare s) = true
    · simp [hfe]
    · by_cases hfin : skip_scan_is_finished (skip_scan_exec_prepare s) = true
      · simp [hfe, hfin]
      · have hfnv : s.stage.foundNull = true ∨ s.stage.foundVal = true := by
          unfold skip_scan_is_finished at hfin
          rw [hstage] at hfin
          by_cases h1 : s.stage.foundNull = true
          · exact Or.inl h1
          · right
            by_cases h2 : s.stage.foundVal = true
            · exact h2
            · exfalso
              apply hfin
              simp [h1, h2]
        by_cases hfn : skip_scan_state_found_null (skip_scan_exec_prepare s) = true
        · have hfnS : s.stage.foundNull = true := by
            unfold skip_scan_state_found_null at hfn
            rw [hstage] at hfn
            exact hfn
          have hfvS : s.stage.foundVal = false := by
            by_cases h2 : s.stage.foundVal = true
            · exfalso
              apply hfe
              unfold skip_scan_state_found_everything
              rw [hstage]
              simp [hfnS, h2]
            · simpa using h2
          have hfv : skip_scan_state_found_val (skip_scan_exec_prepare s) = false := by
            unfold skip_scan_state_found_val
            rw [hstage]
            exact hfvS
          simp only [hfe, hfin, hfn, hfv, Bool.false_eq_true, if_false, not_false_eq_true,
            not_true_eq_false, if_true, Bool.not_eq_true]
          unfold skip_scan_exec_go
          dsimp only
          cases hpull2 : innerScanFirst desc table q (skip_scan_exec_prepare
              (skip_scan_search_for_nonnull_adjust (skip_scan_exec_prepare s))) with
          | some r2 => simp
          | none =>
            have hst2 : (skip_scan_exec_prepare
                (skip_scan_search_for_nonnull_adjust (skip_scan_exec_prepare s))).stage =
                { s.stage with additional := true, foundNull := true } := by
              rw [prepare_stage, nonnull_adjust_stage, hstage]
            have hfin2 : skip_scan_is_finished (skip_scan_exec_prepare
                (skip_scan_search_for_nonnull_adjust (skip_scan_exec_prepare s))) = true := by
              unfold skip_scan_is_finished skip_scan_state_is_searching_for_val
                skip_scan_state_is_searching_for_null skip_scan_state_found_val
                skip_scan_state_found_null
              rw [hst2]
              simp [hfvS]
            by_cases hfe2 : skip_scan_state_found_everything (skip_scan_exec_prepare
                (skip_scan_search_for_nonnull_adjust (skip_scan_exec_prepare s))) = true
            · simp [hfe2]
            · simp [hfe2, hfin2]
        · have hfnS : s.stage.foundNull = false := by
            unfold skip_scan_state_found_null at hfn
            rw [hstage] at hfn
            simpa using hfn
          simp only [hfe, hfin, hfn, Bool.false_eq_true, if_false, not_false_eq_true,
            not_true_eq_false, if_true, Bool.not_eq_true]
          unfold skip_scan_exec_go
          dsimp only
          cases hpull2 : innerScanFirst desc table q (skip_scan_exec_prepare
              (skip_scan_search_for_null_adjust (skip_scan_exec_prepare s))) with
          | some r2 => simp
          | none =>
            have hst2 : (skip_scan_exec_prepare
                (skip_scan_search_for_null_adjust (skip_scan_exec_prepare s))).stage =
                { s.stage with additional := true, foundVal := true } := by
              rw [prepare_stage, null_adjust_stage, hstage]
            have hfin2 : skip_scan_is_finished (skip_scan_exec_prepare
                (skip_scan_search_for_null_adjust (skip_scan_exec_prepare s))) = true := by
              unfold skip_scan_is_finished skip_scan_state_is_searching_for_val
                skip_scan_state_is_searching_for_null skip_scan_state_found_val
                skip_scan_state_found_null
              rw [hst2]
              simp [hfnS]
            by_cases hfe2 : skip_scan_state_found_everything (skip_scan_exec_prepare
                (skip_scan_search_for_null_adjust (skip_scan_exec_prepare s))) = true
            · simp [hfe2]
            · simp [hfe2, hfin2]

theorem exec_foundNull_mono (desc : Bool) (table : List Row) (q : Row → Bool) (s : ExecState)
    (h : s.stage.foundNull = true) :
    ((skip_scan_exec desc table q s).2).stage.foundNull = true := by
  rcases exec_cases desc table q s with ⟨r, heq⟩ | heq | ⟨hfn, -, hsub⟩ | ⟨hfn, hfv, hsub⟩
  · rw [heq]
    exact update_stage_foundNull_mono _ r (by rw [prepare_stage]; exact h)
  · rw [heq]
    rw [prepare_stage]
    exact h
  · rw [hfn] at h; cases h
  · rcases hsub with ⟨r, w, -, heq⟩ | heq
    · rw [heq]
      apply update_stage_foundNull_mono
      rw [populate_stage, nonnull_adjust_stage]
    · rw [heq]
      rw [populate_stage, nonnull_adjust_stage]

theorem exec_foundVal_mono (desc : Bool) (table : List Row) (q : Row → Bool) (s : ExecState)
    (h : s.stage.foundVal = true) :
    ((skip_scan_exec desc table q s).2).stage.foundVal = true := by
  rcases exec_cases desc table q s with ⟨r, heq⟩ | heq | ⟨hfn, hfv, hsub⟩ | ⟨hfn, hfv, hsub⟩
  · rw [heq]
    exact update_stage_foundVal_mono _ r (by rw [prepare_stage]; exact h)
  · rw [heq]
    rw [prepare_stage]
    exact h
  · rcases hsub with ⟨r, -, heq⟩ | heq
    · rw [heq]
      apply update_stage_foundVal_mono
      rw [populate_stage, null_adjust_stage]
    · rw [heq]
      rw [populate_stage, null_adjust_stage]
  · rw [hfv] at h; cases h

end SkipScanExec

namespace SkipScanExec

theorem update_foundNull_of_none (s : ExecState) (r : Row) (h : r.key = none) :
    (update_skip_key s r).stage.foundNull = true := by
  unfold update_skip_key
  rw [h]

theorem update_foundVal_of_some (s : ExecState) (r : Row) (w : Int) (h : r.key = some w) :
    (update_skip_key s r).stage.foundVal = true := by
  unfold update_skip_key
  rw [h]

theorem null_adjust_prev (s : ExecState) :
    (skip_scan_search_for_null_adjust s).prev_distinct_val = s.prev_distinct_val := rfl

theorem nonnull_adjust_prev (s : ExecState) :
    (skip_scan_search_for_nonnull_adjust s).prev_distinct_val = s.prev_distinct_val := rfl

theorem null_adjust_nNullProbe (s : ExecState) :
    (skip_scan_search_for_null_adjust s).nNullProbe = s.nNullProbe + 1 := rfl

theorem null_adjust_nValProbe (s : ExecState) :
    (skip_scan_search_for_null_adjust s).nValProbe = s.nValProbe := rfl

theorem nonnull_adjust_nNullProbe (s : ExecState) :
    (skip_scan_search_for_nonnull_adjust s).nNullProbe = s.nNullProbe := rfl

theorem nonnull_adjust_nValProbe (s : ExecState) :
    (skip_scan_search_for_nonnull_adjust s).nValProbe = s.nValProbe + 1 := rfl

theorem null_adjust_nBegin (s : ExecState) :
    (skip_scan_search_for_null_adjust s).nBegin = s.nBegin := rfl

theorem nonnull_adjust_nBegin (s : ExecState) :
    (skip_scan_search_for_nonnull_adjust s).nBegin = s.nBegin := rfl

/-- Probe accounting for one get-next call: each probe counter either stays
put or increases by exactly one; an increase happens only when that side
was not yet found, and if the call still returns a row the increased side
is found in the resulting state. -/
theorem exec_probe_counters (desc : Bool) (table : List Row) (q : Row → Bool) (s : ExecState) :
    ((skip_scan_exec desc table q s).2.nNullProbe = s.nNullProbe ∨
      ((skip_scan_exec desc table q s).2.nNullProbe = s.nNullProbe + 1 ∧
        s.stage.foundNull = false ∧
        ((skip_scan_exec desc table q s).1.isSome = true →
          (skip_scan_exec desc table q s).2.stage.foundNull = true))) ∧
    ((skip_scan_exec desc table q s).2.nValProbe = s.nValProbe ∨
      ((skip_scan_exec desc table q s).2.nValProbe = s.nValProbe + 1 ∧
        s.stage.foundVal = false ∧
        ((skip_scan_exec desc table q s).1.isSome = true →
          (skip_scan_exec desc table q s).2.stage.foundVal = true))) := by
  rcases exec_cases desc table q s with ⟨r, heq⟩ | heq | ⟨hfn, hfv, hsub⟩ | ⟨hfn, hfv, hsub⟩
  · rw [heq]
    constructor
    · left
      rw [update_nNullProbe, prepare_nNullProbe]
    · left
      rw [update_nValProbe, prepare_nValProbe]
  · rw [heq]
    constructor
    · left
      rw [prepare_nNullProbe]
    · left
      rw [prepare_nValProbe]
  · rcases hsub with ⟨r, hk, heq⟩ | heq
    · rw [heq]
      constructor
      · right
        refine ⟨?_, hfn, ?_⟩
        · rw [update_nNullProbe, populate_nNullProbe, null_adjust_nNullProbe, prepare_nNullProbe]
        · intro _
          exact update_foundNull_of_none _ r hk
      · left
        rw [update_nValProbe, populate_nValProbe, null_adjust_nValProbe, prepare_nValProbe]
    · rw [heq]
      constructor
      · right
        refine ⟨?_, hfn, ?_⟩
        · rw [populate_nNullProbe, null_adjust_nNullProbe, prepare_nNullProbe]
        · intro hc
          cases hc
      · left
        rw [populate_nValProbe, null_adjust_nValProbe, prepare_nValProbe]
  · rcases hsub with ⟨r, w, hk, heq⟩ | heq
    · rw [heq]
      constructor
      · left
        rw [update_nNullProbe, populate_nNullProbe, nonnull_adjust_nNullProbe, prepare_nNullProbe]
      · right
        refine ⟨?_, hfv, ?_⟩
        · rw [update_nValProbe, populate_nValProbe, nonnull_adjust_nValProbe, prepare_nValProbe]
        · intro _
          exact update_foundVal_of_some _ r w hk
    · rw [heq]
      constructor
      · left
        rw [populate_nNullProbe, nonnull_adjust_nNullProbe, prepare_nNullProbe]
      · right
        refine ⟨?_, hfv, ?_⟩
        · rw [populate_nValProbe, nonnull_adjust_nValProbe, prepare_nValProbe]
        · intro hc
          cases hc

/-- The generation-wide probe bound: starting with counters satisfying the
invariant (zero, or one with the corresponding side found), driving the
operator leaves each probe counter at most 1: at most one
search-for-additional-NULL and at most one search-for-additional-value per
generation. -/
theorem run_probe_bound (desc : Bool) (table : List Row) (q : Row → Bool) :
    ∀ (n : Nat) (s : ExecState),
      (s.nNullProbe = 0 ∨ (s.nNullProbe = 1 ∧ s.stage.foundNull = true)) →
      (s.nValProbe = 0 ∨ (s.nValProbe = 1 ∧ s.stage.foundVal = true)) →
      (skip_scan_run desc table q n s).2.nNullProbe ≤ 1 ∧
      (skip_scan_run desc table q n s).2.nValProbe ≤ 1 := by
  intro n
  induction n with
  | zero =>
    intro s h1 h2
    unfold skip_scan_run
    dsimp only
    constructor
    · rcases h1 with h | ⟨h, -⟩ <;> omega
    · rcases h2 with h | ⟨h, -⟩ <;> omega
  | succ n ih =>
    intro s h1 h2
    unfold skip_scan_run
    obtain ⟨hn, hv⟩ := exec_probe_counters desc table q s
    cases hexec : skip_scan_exec desc table q s with
    | mk r s1 =>
      rw [hexec] at hn hv
      dsimp only at hn hv
      cases r with
      | none =>
        dsimp only
        constructor
        · rcases hn with h | ⟨h, hf, -⟩
          · rw [h]; rcases h1 with h0 | ⟨h0, -⟩ <;> omega
          · rw [h]
            rcases h1 with h0 | ⟨-, hc⟩
            · omega
            · rw [hc] at hf; cases hf
        · rcases hv with h | ⟨h, hf, -⟩
          · rw [h]; rcases h2 with h0 | ⟨h0, -⟩ <;> omega
          · rw [h]
            rcases h2 with h0 | ⟨-, hc⟩
            · omega
            · rw [hc] at hf; cases hf
      | some row =>
        dsimp only
        have hfnm : s.stage.foundNull = true → s1.stage.foundNull = true := by
          intro h
          have := exec_foundNull_mono desc table q s h
          rw [hexec] at this
          exact this
        have hfvm : s.stage.foundVal = true → s1.stage.foundVal = true := by
          intro h
          have := exec_foundVal_mono desc table q s h
          rw [hexec] at this
          exact this
        apply ih
        · rcases hn with h | ⟨h, hf, himp⟩
          · rcases h1 with h0 | ⟨h0, hc⟩
            · left; omega
            · right; exact ⟨by omega, hfnm hc⟩
          · right
            have hs0 : s.nNullProbe = 0 := by
              rcases h1 with h0 | ⟨-, hc⟩
              · exact h0
              · rw [hc] at hf; cases hf
            refine ⟨by omega, ?_⟩
            have := himp (by rfl)
            exact this
        · rcases hv with h | ⟨h, hf, himp⟩
          · rcases h2 with h0 | ⟨h0, hc⟩
            · left; omega
            · right; exact ⟨by omega, hfvm hc⟩
          · right
            have hs0 : s.nValProbe = 0 := by
              rcases h2 with h0 | ⟨-, hc⟩
              · exact h0
              · rw [hc] at hf; cases hf
            refine ⟨by omega, ?_⟩
            exact himp (by rfl)

end SkipScanExec

namespace SkipScanExec

theorem first_val_iff (s : ExecState) :
    skip_scan_is_searching_for_first_val s = true ↔ s.stage = SkipScanSearchingForFirst := by
  unfold skip_scan_is_searching_for_first_val
  simp

/-- The scan-key contract of one get-next call: the first call of a
generation removes the skip qual (leaving it removed) and starts the inner
scan; every later call re-adds it — restarting the inner scan exactly when
it was removed — and stores the captured previous value as the skip qual's
argument before pulling. -/
theorem exec_call_contract (desc : Bool) (table : List Row) (q : Row → Bool) (s : ExecState) :
    (s.stage = SkipScanSearchingForFirst →
      (skip_scan_exec desc table q s).2.skip_qual_removed = true ∧
      (skip_scan_exec desc table q s).2.nBegin = s.nBegin + 1) ∧
    (s.stage ≠ SkipScanSearchingForFirst →
      (skip_scan_exec desc table q s).2.skip_qual_removed = false ∧
      (skip_scan_exec desc table q s).2.nBegin =
        (if s.skip_qual_removed then s.nBegin + 1 else s.nBegin) ∧
      (skip_scan_exec desc table q s).2.sk_argument = s.prev_distinct_val) := by
  constructor
  · intro hfirst
    have hf : skip_scan_is_searching_for_first_val s = true := (first_val_iff s).mpr hfirst
    rcases exec_cases desc table q s with ⟨r, heq⟩ | heq | ⟨hfn, hfv, -⟩ | ⟨hfn, hfv, -⟩
    · rw [heq]
      constructor
      · rw [update_removed]
        exact prepare_removed_first s hf
      · rw [update_nBegin]
        exact prepare_nBegin_first s hf
    · rw [heq]
      exact ⟨prepare_removed_first s hf, prepare_nBegin_first s hf⟩
    · rw [hfirst] at hfv
      cases hfv
    · rw [hfirst] at hfn
      cases hfn
  · intro hnonfirst
    have hf : skip_scan_is_searching_for_first_val s = false := by
      rw [Bool.eq_false_iff]
      intro hc
      exact hnonfirst ((first_val_iff s).mp hc)
    rcases exec_cases desc table q s with ⟨r, heq⟩ | heq | ⟨hfn, hfv, hsub⟩ | ⟨hfn, hfv, hsub⟩
    · rw [heq]
      refine ⟨?_, ?_, ?_⟩
      · rw [update_removed]
        exact prepare_removed_nonfirst s hf
      · rw [update_nBegin]
        exact prepare_nBegin_nonfirst s hf
      · rw [update_arg]
        exact prepare_arg_nonfirst s hf
    · rw [heq]
      exact ⟨prepare_removed_nonfirst s hf, prepare_nBegin_nonfirst s hf,
        prepare_arg_nonfirst s hf⟩
    · rcases hsub with ⟨r, -, heq⟩ | heq
      · rw [heq]
        refine ⟨?_, ?_, ?_⟩
        · rw [update_removed, populate_removed, null_adjust_removed]
          exact prepare_removed_nonfirst s hf
        · rw [update_nBegin, populate_nBegin, null_adjust_nBegin]
          exact prepare_nBegin_nonfirst s hf
        · rw [update_arg, populate_arg, null_adjust_prev]
          exact prepare_prev s
      · rw [heq]
        refine ⟨?_, ?_, ?_⟩
        · rw [populate_removed, null_adjust_removed]
          exact prepare_removed_nonfirst s hf
        · rw [populate_nBegin, null_adjust_nBegin]
          exact prepare_nBegin_nonfirst s hf
        · rw [populate_arg, null_adjust_prev]
          exact prepare_prev s
    · rcases hsub with ⟨r, w, -, heq⟩ | heq
      · rw [heq]
        refine ⟨?_, ?_, ?_⟩
        · rw [update_removed, populate_removed, nonnull_adjust_removed]
          exact prepare_removed_nonfirst s hf
        · rw [update_nBegin, populate_nBegin, nonnull_adjust_nBegin]
          exact prepare_nBegin_nonfirst s hf
        · rw [update_arg, populate_arg, nonnull_adjust_prev]
          exact prepare_prev s
      · rw [heq]
        refine ⟨?_, ?_, ?_⟩
        · rw [populate_removed, nonnull_adjust_removed]
          exact prepare_removed_nonfirst s hf
        · rw [populate_nBegin, nonnull_adjust_nBegin]
          exact prepare_nBegin_nonfirst s hf
        · rw [populate_arg, nonnull_adjust_prev]
          exact prepare_prev s

end SkipScanExec

namespace SkipScanExec

theorem scanKeyLE_some_cases (desc nullsFirst : Bool) (v' w : Int)
    (h : scanKeyLE desc nullsFirst (some v') (some w) = true) :
    w = v' ∨ sgtb desc w v' = true := by
  cases desc <;> simp [scanKeyLE, sgtb] at h ⊢ <;> omega

/-- With the table in scan order, every row strictly after `v` either
carries the key of the first such row or lies strictly after that key: the
chain's head key is the minimal key past `v`. -/
theorem after_head_minimal (desc nullsFirst : Bool) (F : List Row)
    (HF : F.Pairwise (fun r₁ r₂ => scanKeyLE desc nullsFirst r₁.key r₂.key = true))
    (v v' : Int) (r : Row)
    (hhead : (F.filter (keyAfter desc v)).head? = some r) (hkey : r.key = some v') :
    ∀ x ∈ F, keyAfter desc v x = true → x.key = some v' ∨ keyAfter desc v' x = true := by
  obtain ⟨F₁, F₂, heq, hF₁, hpr⟩ := head_filter_decomp _ F r hhead
  intro x hx hax
  subst heq
  rcases List.mem_append.mp hx with hx1 | hx2
  · rw [hF₁ x hx1] at hax
    cases hax
  · rcases List.mem_cons.mp hx2 with rfl | hx3
    · left
      exact hkey
    · have hrel : scanKeyLE desc nullsFirst r.key x.key = true := by
        have hsub : (r :: F₂).Pairwise
            (fun r₁ r₂ => scanKeyLE desc nullsFirst r₁.key r₂.key = true) :=
          HF.sublist (List.sublist_append_right F₁ (r :: F₂))
        exact (List.pairwise_cons.mp hsub).1 x hx3
      obtain ⟨w, hw⟩ : ∃ w, x.key = some w := by
        unfold keyAfter at hax
        cases hk : x.key with
        | none => rw [hk] at hax; cases hax
        | some w => exact ⟨w, rfl⟩
      rw [hkey, hw] at hrel
      rcases scanKeyLE_some_cases desc nullsFirst v' w hrel with rfl | hgt
      · left
        exact hw
      · right
        unfold keyAfter
        rw [hw]
        exact hgt

theorem skipChain_mem_subset (desc : Bool) (F : List Row) :
    ∀ (fuel : Nat) (v : Int) (r : Row), r ∈ skipChain desc F fuel v → r ∈ F := by
  intro fuel
  induction fuel with
  | zero => intro v r h; cases h
  | succ t ih =>
    intro v r h
    unfold skipChain at h
    cases hhead : (F.filter (keyAfter desc v)).head? with
    | none => rw [hhead] at h; cases h
    | some r0 =>
      rw [hhead] at h
      rcases List.mem_cons.mp h with rfl | h2
      · exact (head_filter_mem _ F r hhead).1
      · exact ih _ r h2

theorem skipChain_mem_after (desc : Bool) (F : List Row) :
    ∀ (fuel : Nat) (v : Int) (r : Row), r ∈ skipChain desc F fuel v →
      keyAfter desc v r = true := by
  intro fuel
  induction fuel with
  | zero => intro v r h; cases h
  | succ t ih =>
    intro v r h
    unfold skipChain at h
    cases hhead : (F.filter (keyAfter desc v)).head? with
    | none => rw [hhead] at h; cases h
    | some r0 =>
      rw [hhead] at h
      have hr0 := (head_filter_mem _ F r0 hhead).2
      rcases List.mem_cons.mp h with rfl | h2
      · exact hr0
      · obtain ⟨v', hv'⟩ : ∃ v', r0.key = some v' := by
          unfold keyAfter at hr0
          cases hk : r0.key with
          | none => rw [hk] at hr0; cases hr0
          | some w => exact ⟨w, rfl⟩
        have hafter : keyAfter desc v' r = true := by
          have := ih (r0.key.getD 0) r h2
          rw [hv'] at this
          simpa using this
        have hgt : sgtb desc v' v = true := by
          unfold keyAfter at hr0
          rw [hv'] at hr0
          exact hr0
        exact keyAfter_trans desc v v' r hafter hgt

theorem skipChain_keys_nodup (desc : Bool) (F : List Row) :
    ∀ (fuel : Nat) (v : Int), ((skipChain desc F fuel v).map (fun r => r.key)).Nodup := by
  intro fuel
  induction fuel with
  | zero => intro v; simp [skipChain]
  | succ t ih =>
    intro v
    unfold skipChain
    cases hhead : (F.filter (keyAfter desc v)).head? with
    | none => simp
    | some r0 =>
      simp only [List.map_cons, List.nodup_cons]
      obtain ⟨v', hv'⟩ : ∃ v', r0.key = some v' := by
        have := (head_filter_mem _ F r0 hhead).2
        unfold keyAfter at this
        cases hk : r0.key with
        | none => rw [hk] at this; cases this
        | some w => exact ⟨w, rfl⟩
      constructor
      · intro hmem
        obtain ⟨x, hx, hxk⟩ := List.mem_map.mp hmem
        have hafter := skipChain_mem_after desc F t (r0.key.getD 0) x hx
        rw [hv'] at hafter
        unfold keyAfter at hafter
        rw [hxk, hv'] at hafter
        simp [sgtb_self] at hafter
      · exact ih (r0.key.getD 0)

theorem skipChain_keys_complete (desc nullsFirst : Bool) (F : List Row)
    (HF : F.Pairwise (fun r₁ r₂ => scanKeyLE desc nullsFirst r₁.key r₂.key = true)) :
    ∀ (m fuel : Nat) (v : Int) (x : Row),
      (F.filter (keyAfter desc v)).length = m → m ≤ fuel →
      x ∈ F → keyAfter desc v x = true →
      x.key ∈ (skipChain desc F fuel v).map (fun r => r.key) := by
  intro m
  induction m using Nat.strong_induction_on with
  | _ m ih =>
    intro fuel v x hm hfuel hx hax
    have hne : (F.filter (keyAfter desc v)).head?.isSome = true := by
      have : x ∈ F.filter (keyAfter desc v) := List.mem_filter.mpr ⟨hx, hax⟩
      cases hL : F.filter (keyAfter desc v) with
      | nil => rw [hL] at this; cases this
      | cons a T => simp [hL]
    obtain ⟨r0, hhead⟩ := Option.isSome_iff_exists.mp hne
    obtain ⟨v', hv'⟩ : ∃ v', r0.key = some v' := by
      have := (head_filter_mem _ F r0 hhead).2
      unfold keyAfter at this
      cases hk : r0.key with
      | none => rw [hk] at this; cases this
      | some w => exact ⟨w, rfl⟩
    have hm1 : 1 ≤ m := by
      have : x ∈ F.filter (keyAfter desc v) := List.mem_filter.mpr ⟨hx, hax⟩
      cases hL : F.filter (keyAfter desc v) with
      | nil => rw [hL] at this; cases this
      | cons a T => rw [hL] at hm; simp at hm; omega
    obtain ⟨t, rfl⟩ : ∃ t, fuel = t + 1 := ⟨fuel - 1, by omega⟩
    unfold skipChain
    rw [hhead]
    simp only [List.map_cons, List.mem_cons]
    rcases after_head_minimal desc nullsFirst F HF v v' r0 hhead hv' x hx hax with hxe | hxa
    · left
      rw [hxe, hv']
    · right
      have hlt := filter_after_head_lt desc F v v' r0 hhead hv'
      rw [hm] at hlt
      have := ih ((F.filter (keyAfter desc v')).length) hlt t v' x rfl (by omega) hx hxa
      rw [hv']
      simpa using this

end SkipScanExec

namespace SkipScanExec

theorem chain_key_some (desc : Bool) (F : List Row) (fuel : Nat) (v : Int) (x : Row)
    (hx : x ∈ skipChain desc F fuel v) : ∃ w, x.key = some w ∧ sgtb desc w v = true := by
  have := skipChain_mem_after desc F fuel v x hx
  unfold keyAfter at this
  cases hk : x.key with
  | none => rw [hk] at this; cases this
  | some w =>
    rw [hk] at this
    exact ⟨w, rfl, this⟩

/-- Under the scan-order hypothesis, the reference generation output carries
each distinct key of the filtered table exactly once: its key list has no
duplicates and the same members as the key list of the full filtered
scan. -/
theorem expectedGen_keys (desc nullsFirst : Bool) (F : List Row)
    (HF : F.Pairwise (fun r₁ r₂ => scanKeyLE desc nullsFirst r₁.key r₂.key = true)) :
    ((expectedGen desc F).map (fun r => r.key)).Nodup ∧
    (∀ k, k ∈ (expectedGen desc F).map (fun r => r.key) ↔ k ∈ F.map (fun r => r.key)) := by
  unfold expectedGen
  cases hhead : F.head? with
  | none =>
    have hF : F = [] := List.head?_eq_none_iff.mp hhead
    subst hF
    simp
  | some z =>
    obtain ⟨F2, hF⟩ : ∃ F2, F = z :: F2 := by
      cases hL : F with
      | nil => rw [hL] at hhead; cases hhead
      | cons a T =>
        rw [hL] at hhead
        simp only [List.head?_cons, Option.some.injEq] at hhead
        exact ⟨T, by rw [hhead]⟩
    have hz2 : ∀ x ∈ F2, scanKeyLE desc nullsFirst z.key x.key = true := by
      have := HF
      rw [hF] at this
      exact (List.pairwise_cons.mp this).1
    have hzF : z ∈ F := by rw [hF]; simp
    cases hz : z.key with
    | some v₀ =>
      dsimp only
      rw [hz]
      dsimp only
      have hchainsub : ∀ k ∈ (skipChain desc F F.length v₀).map (fun r => r.key),
          ∃ w, k = some w ∧ sgtb desc w v₀ = true := by
        intro k hk
        obtain ⟨x, hx, hxk⟩ := List.mem_map.mp hk
        obtain ⟨w, hw, hgt⟩ := chain_key_some desc F F.length v₀ x hx
        exact ⟨w, by rw [← hxk, hw], hgt⟩
      have hchainF : ∀ k ∈ (skipChain desc F F.length v₀).map (fun r => r.key),
          k ∈ F.map (fun r => r.key) := by
        intro k hk
        obtain ⟨x, hx, hxk⟩ := List.mem_map.mp hk
        exact List.mem_map.mpr ⟨x, skipChain_mem_subset desc F F.length v₀ x hx, hxk⟩
      have hcomplete : ∀ x ∈ F, keyAfter desc v₀ x = true →
          x.key ∈ (skipChain desc F F.length v₀).map (fun r => r.key) := by
        intro x hx hax
        exact skipChain_keys_complete desc nullsFirst F HF
          ((F.filter (keyAfter desc v₀)).length) F.length v₀ x rfl
          (List.length_filter_le _ _) hx hax
      cases hnull : (F.filter (fun r => r.key.isNone)).head? with
      | some rn =>
        have hrnk : rn.key = none := by
          have := (head_filter_mem _ _ rn hnull).2
          simpa using this
        have hrnF : rn ∈ F := (head_filter_mem _ _ rn hnull).1
        constructor
        · simp only [Option.elim_some, List.map_cons, List.map_append, List.map_cons,
            List.map_nil, List.nodup_cons]
          constructor
          · intro hmem
            rcases List.mem_append.mp hmem with hc | hc
            · rw [hz] at hc
              obtain ⟨w, hw, hgt⟩ := hchainsub _ hc
              rw [Option.some.injEq] at hw
              rw [hw] at hgt
              rw [sgtb_self] at hgt
              cases hgt
            · rw [hz] at hc
              simp [hrnk] at hc
          · apply List.Nodup.append
            · exact skipChain_keys_nodup desc F F.length v₀
            · simp
            · intro k hk hk2
              simp only [List.mem_singleton] at hk2
              obtain ⟨w, hw, -⟩ := hchainsub _ hk
              rw [hk2, hrnk] at hw
              cases hw
        · intro k
          simp only [Option.elim_some, List.map_cons, List.map_append, List.map_cons,
            List.map_nil, List.mem_cons, List.mem_append, List.mem_singleton]
          constructor
          · rintro (rfl | hc | hk | h0)
            · exact List.mem_map.mpr ⟨z, hzF, rfl⟩
            · exact hchainF _ hc
            · rw [hk]
              exact List.mem_map.mpr ⟨rn, hrnF, rfl⟩
            · cases h0
          · intro hk
            obtain ⟨x, hx, hxk⟩ := List.mem_map.mp hk
            cases hxk2 : x.key with
            | none =>
              right; right
              left
              rw [← hxk, hxk2, hrnk]
            | some w =>
              by_cases hwv : w = v₀
              · left
                rw [← hxk, hxk2, hwv, hz]
              · right; left
                have hrel : scanKeyLE desc nullsFirst (some v₀) (some w) = true := by
                  rw [hF] at hx
                  rcases List.mem_cons.mp hx with rfl | hx2
                  · rw [hxk2] at hz
                    rw [Option.some.injEq] at hz
                    exact absurd hz hwv
                  · have := hz2 x hx2
                    rw [hz, hxk2] at this
                    exact this
                rcases scanKeyLE_some_cases desc nullsFirst v₀ w hrel with rfl | hgt
                · exact absurd rfl hwv
                · have hax : keyAfter desc v₀ x = true := by
                    unfold keyAfter
                    rw [hxk2]
                    exact hgt
                  rw [← hxk, hxk2]
                  have := hcomplete x hx hax
                  rw [hxk2] at this
                  exact this
      | none =>
        have hnonull : ∀ x ∈ F, x.key ≠ none := by
          intro x hx hc
          have : x ∈ F.filter (fun r => r.key.isNone) :=
            List.mem_filter.mpr ⟨hx, by simp [hc]⟩
          rw [List.head?_eq_none_iff.mp hnull] at this
          cases this
        constructor
        · simp only [Option.elim_none, List.map_cons, List.map_append, List.map_nil,
            List.append_nil, List.nodup_cons]
          constructor
          · intro hmem
            rw [hz] at hmem
            obtain ⟨w, hw, hgt⟩ := hchainsub _ hmem
            rw [Option.some.injEq] at hw
            rw [hw] at hgt
            rw [sgtb_self] at hgt
            cases hgt
          · exact skipChain_keys_nodup desc F F.length v₀
        · intro k
          simp only [Option.elim_none, List.map_cons, List.map_append, List.map_nil,
            List.append_nil, List.mem_cons]
          constructor
          · rintro (rfl | hc)
            · exact List.mem_map.mpr ⟨z, hzF, rfl⟩
            · exact hchainF _ hc
          · intro hk
            obtain ⟨x, hx, hxk⟩ := List.mem_map.mp hk
            cases hxk2 : x.key with
            | none => exact absurd hxk2 (hnonull x hx)
            | some w =>
              by_cases hwv : w = v₀
              · left
                rw [← hxk, hxk2, hwv, hz]
              · right
                have hrel : scanKeyLE desc nullsFirst (some v₀) (some w) = true := by
                  rw [hF] at hx
                  rcases List.mem_cons.mp hx with rfl | hx2
                  · rw [hxk2] at hz
                    rw [Option.some.injEq] at hz
                    exact absurd hz hwv
                  · have := hz2 x hx2
                    rw [hz, hxk2] at this
                    exact this
                rcases scanKeyLE_some_cases desc nullsFirst v₀ w hrel with rfl | hgt
                · exact absurd rfl hwv
                · have hax : keyAfter desc v₀ x = true := by
                    unfold keyAfter
                    rw [hxk2]
                    exact hgt
                  rw [← hxk, hxk2]
                  have := hcomplete x hx hax
                  rw [hxk2] at this
                  exact this
    | none =>
      dsimp only
      rw [hz]
      dsimp only
      cases hsome : (F.filter (fun r => r.key.isSome)).head? with
      | none =>
        have hallnull : ∀ x ∈ F, x.key = none := by
          intro x hx
          cases hk : x.key with
          | none => rfl
          | some w =>
            have : x ∈ F.filter (fun r => r.key.isSome) :=
              List.mem_filter.mpr ⟨hx, by simp [hk]⟩
            rw [List.head?_eq_none_iff.mp hsome] at this
            cases this
        constructor
        · simp
        · intro k
          simp only [Option.elim_none, List.map_cons, List.map_nil, List.mem_singleton]
          constructor
          · rintro rfl
            exact List.mem_map.mpr ⟨z, hzF, rfl⟩
          · intro hk
            obtain ⟨x, hx, hxk⟩ := List.mem_map.mp hk
            rw [← hxk, hallnull x hx, hz]
      | some r2 =>
        have hk2 : r2.key.isSome = true := by
          have := (head_filter_mem _ _ r2 hsome).2
          simpa using this
        obtain ⟨v₁, hv₁⟩ := Option.isSome_iff_exists.mp hk2
        have hr2F : r2 ∈ F := (head_filter_mem _ _ r2 hsome).1
        have hcomplete : ∀ x ∈ F, keyAfter desc v₁ x = true →
            x.key ∈ (skipChain desc F F.length v₁).map (fun r => r.key) := by
          intro x hx hax
          exact skipChain_keys_complete desc nullsFirst F HF
            ((F.filter (keyAfter desc v₁)).length) F.length v₁ x rfl
            (List.length_filter_le _ _) hx hax
        have hsome_min : ∀ x ∈ F, ∀ w, x.key = some w →
            x.key = some v₁ ∨ keyAfter desc v₁ x = true := by
          obtain ⟨G₁, G₂, hGeq, hG₁, -⟩ := head_filter_decomp _ F r2 hsome
          intro x hx w hw
          rw [hGeq] at hx
          rcases List.mem_append.mp hx with hx1 | hx2
          · have := hG₁ x hx1
            rw [hw] at this
            cases this
          · rcases List.mem_cons.mp hx2 with rfl | hx3
            · left; exact hv₁
            · have hrel : scanKeyLE desc nullsFirst r2.key x.key = true := by
                have hsub : (r2 :: G₂).Pairwise
                    (fun r₁ r₂ => scanKeyLE desc nullsFirst r₁.key r₂.key = true) := by
                  have := HF
                  rw [hGeq] at this
                  exact this.sublist (List.sublist_append_right G₁ (r2 :: G₂))
                exact (List.pairwise_cons.mp hsub).1 x hx3
              rw [hv₁, hw] at hrel
              rcases scanKeyLE_some_cases desc nullsFirst v₁ w hrel with rfl | hgt
              · left; exact hw
              · right
                unfold keyAfter
                rw [hw]
                exact hgt
        simp only [Option.elim_some, hv₁, Option.getD_some]
        have hchainsub : ∀ k ∈ (skipChain desc F F.length v₁).map (fun r => r.key),
            ∃ w, k = some w ∧ sgtb desc w v₁ = true := by
          intro k hk
          obtain ⟨x, hx, hxk⟩ := List.mem_map.mp hk
          obtain ⟨w, hw, hgt⟩ := chain_key_some desc F F.length v₁ x hx
          exact ⟨w, by rw [← hxk, hw], hgt⟩
        have hchainF : ∀ k ∈ (skipChain desc F F.length v₁).map (fun r => r.key),
            k ∈ F.map (fun r => r.key) := by
          intro k hk
          obtain ⟨x, hx, hxk⟩ := List.mem_map.mp hk
          exact List.mem_map.mpr ⟨x, skipChain_mem_subset desc F F.length v₁ x hx, hxk⟩
        constructor
        · simp only [List.map_cons, List.nodup_cons, List.mem_cons]
          refine ⟨?_, ?_, ?_⟩
          · rw [hz, hv₁]
            rintro (hc | hc)
            · cases hc
            · obtain ⟨w, hw, -⟩ := hchainsub _ hc
              cases hw
          · rw [hv₁]
            intro hc
            obtain ⟨w, hw, hgt⟩ := hchainsub _ hc
            rw [Option.some.injEq] at hw
            rw [hw] at hgt
            rw [sgtb_self] at hgt
            cases hgt
          · exact skipChain_keys_nodup desc F F.length v₁
        · intro k
          simp only [List.map_cons, List.mem_cons]
          constructor
          · rintro (rfl | rfl | hc)
            · exact List.mem_map.mpr ⟨z, hzF, rfl⟩
            · exact List.mem_map.mpr ⟨r2, hr2F, rfl⟩
            · exact hchainF _ hc
          · intro hk
            obtain ⟨x, hx, hxk⟩ := List.mem_map.mp hk
            cases hxk2 : x.key with
            | none =>
              left
              rw [← hxk, hxk2, hz]
            | some w =>
              rcases hsome_min x hx w hxk2 with heq | hafter
              · right; left
                rw [← hxk, heq, hv₁]
              · right; right
                rw [← hxk]
                exact hcomplete x hx hafter

end SkipScanExec

section Claims

open SkipScanKeys SkipScanPlanner SkipScanExec

/-- C1: for every table, every NULL placement (`nullsFirst`) and every scan
direction (`desc`), the distinct-column projection of the rows one operator
generation produces has no duplicate values and is a permutation of the
deduplicated distinct-column projection of the rows satisfying the non-skip
predicates — it matches a reference dedup-over-full-scan. -/
theorem claim_C1 (desc nullsFirst : Bool) (table : List Row) (q : Row → Bool)
    (f : SkipFlags) (arg : Int) (n : Nat)
    (hord : TableOrdered desc nullsFirst table)
    (hn : table.length + 2 ≤ n) :
    ((skip_scan_run desc table q n (skip_scan_initial_state f arg)).1.map
        (fun r => r.key)).Nodup ∧
    ((skip_scan_run desc table q n (skip_scan_initial_state f arg)).1.map
        (fun r => r.key)).Perm ((table.filter q).map (fun r => r.key)).dedup := by
  have hF : (table.filter q).Pairwise
      (fun r₁ r₂ => scanKeyLE desc nullsFirst r₁.key r₂.key = true) :=
    List.Pairwise.sublist (List.filter_sublist table) hord
  rw [skip_scan_run_eq_expectedGen desc table q f arg n hn]
  obtain ⟨hnd, hmem⟩ := expectedGen_keys desc nullsFirst (table.filter q) hF
  refine ⟨hnd, ?_⟩
  rw [List.perm_ext_iff_of_nodup hnd (List.nodup_dedup _)]
  intro k
  rw [hmem k, List.mem_dedup]

/-- C1 witness: the specification's Scenario 1 table (keys 1, 1, 2, NULL in
an ascending NULLS LAST index), all rows passing the user predicates. -/
theorem claim_C1_witness :
    TableOrdered false false
      [⟨some 1, 10⟩, ⟨some 1, 20⟩, ⟨some 2, 30⟩, ⟨none, 40⟩] ∧
    ([⟨some 1, 10⟩, ⟨some 1, 20⟩, ⟨some 2, 30⟩, (⟨none, 40⟩ : Row)].length + 2 ≤ 6) ∧
    (((skip_scan_run false [⟨some 1, 10⟩, ⟨some 1, 20⟩, ⟨some 2, 30⟩, ⟨none, 40⟩]
          (fun _ => true) 6
          (skip_scan_initial_state ⟨true, false, false⟩ 0)).1.map
        (fun r => r.key)).Nodup ∧
      ((skip_scan_run false [⟨some 1, 10⟩, ⟨some 1, 20⟩, ⟨some 2, 30⟩, ⟨none, 40⟩]
          (fun _ => true) 6
          (skip_scan_initial_state ⟨true, false, false⟩ 0)).1.map
        (fun r => r.key)).Perm
        (([⟨some 1, 10⟩, ⟨some 1, 20⟩, ⟨some 2, 30⟩, (⟨none, 40⟩ : Row)].filter
            (fun _ => true)).map (fun r => r.key)).dedup) :=
  ⟨by unfold TableOrdered; decide, by decide,
   claim_C1 false false [⟨some 1, 10⟩, ⟨some 1, 20⟩, ⟨some 2, 30⟩, ⟨none, 40⟩]
     (fun _ => true) ⟨true, false, false⟩ 0 6 (by unfold TableOrdered; decide) (by decide)⟩

/-- C2 counterexample: under a single-key dedup path whose subpath is a merge
of one qualifying index branch and one non-qualifying branch, the hook still
adds a unique-over-merge alternative whose branch list mixes a skip-scan
branch with the untouched non-qualifying branch — it does not require every
branch to qualify and does not abandon the transform. -/
theorem claim_C2_counterexample :
    ¬ Qualifies (.otherPath 7) ∧
    ts_add_skip_scan_paths true
      [.upperUniquePath 1 (.mergeAppendPath
        [.indexPath { sortopfamily_isnull := false, indexorderbys := [],
                      tlist_col := some 0, table_col := 1,
                      column_tuple_valid := true, column_type_valid := true,
                      att_byval := true, att_typlen := 8,
                      reverse_sort := false, scandir_backward := false,
                      comparator_lt := some 1, comparator_gt := some 5,
                      rel_index := 1 },
         .otherPath 7])] =
    .ok [.upperUniquePath 1 (.mergeAppendPath
          [.indexPath { sortopfamily_isnull := false, indexorderbys := [],
                        tlist_col := some 0, table_col := 1,
                        column_tuple_valid := true, column_type_valid := true,
                        att_byval := true, att_typlen := 8,
                        reverse_sort := false, scandir_backward := false,
                        comparator_lt := some 1, comparator_gt := some 5,
                        rel_index := 1 },
           .otherPath 7]),
         .upperUniquePath 1 (.mergeAppendPath
          [.skipScanPath
            { skip_clause_opno := 5, skip_clause_left := { varno := 1, varattno := 1 },
              distinct_column := 0, distinct_by_val := true, distinct_typ_len := 8 }
            (.indexPath { sortopfamily_isnull := false, indexorderbys := [],
                          tlist_col := some 0, table_col := 1,
                          column_tuple_valid := true, column_type_valid := true,
                          att_byval := true, att_typlen := 8,
                          reverse_sort := false, scandir_backward := false,
                          comparator_lt := some 1, comparator_gt := some 5,
                          rel_index := 1 }),
           .otherPath 7])] :=
  ⟨(fun hq => by rcases hq with ⟨ip, sp, h, -⟩; cases h), rfl⟩

/-- C2 (amended to the code): for a merge subpath the hook transforms the
branch list pointwise — each qualifying index branch is replaced by a
skip-scan branch, every other branch is kept unchanged — and keeps the merge
wrapper as soon as at least one branch qualifies (`can_skip_scan` is an OR);
only when no branch at all qualifies does it return, which abandons the
transform for this candidate and for all remaining pathlist entries. -/
theorem claim_C2 (nk : Nat) (subs ns rest : List PPath) (can : Bool)
    (hnk : ¬ 1 < nk)
    (htr : transformBranches subs = .ok (ns, can)) :
    List.Forall₂ branchTransformed subs ns ∧
    (can = true ↔ ∃ p ∈ subs, Qualifies p) ∧
    (can = false →
      addSkipScanAux (.upperUniquePath nk (.mergeAppendPath subs) :: rest) = .ok []) ∧
    (can = true → ∀ es, addSkipScanAux rest = .ok es →
      addSkipScanAux (.upperUniquePath nk (.mergeAppendPath subs) :: rest) =
        .ok (.upperUniquePath nk (.mergeAppendPath ns) :: es)) := by
  obtain ⟨h1, h2⟩ := transformBranches_spec subs ns can htr
  refine ⟨h1, h2, ?_, ?_⟩
  · intro hfalse
    subst hfalse
    simp [addSkipScanAux, if_neg hnk, htr]
  · intro htrue es hes
    subst htrue
    simp [addSkipScanAux, if_neg hnk, htr, hes]

/-- C2 witness: the counterexample's candidate — one qualifying branch, one
non-qualifying branch, `can_skip_scan = true`, merge wrapper kept with mixed
branches. -/
theorem claim_C2_witness :
    (¬ 1 < 1) ∧
    transformBranches
      [.indexPath { sortopfamily_isnull := false, indexorderbys := [],
                    tlist_col := some 0, table_col := 1,
                    column_tuple_valid := true, column_type_valid := true,
                    att_byval := true, att_typlen := 8,
                    reverse_sort := false, scandir_backward := false,
                    comparator_lt := some 1, comparator_gt := some 5,
                    rel_index := 1 },
       .otherPath 7] =
      .ok ([.skipScanPath
              { skip_clause_opno := 5, skip_clause_left := { varno := 1, varattno := 1 },
                distinct_column := 0, distinct_by_val := true, distinct_typ_len := 8 }
              (.indexPath { sortopfamily_isnull := false, indexorderbys := [],
                            tlist_col := some 0, table_col := 1,
                            column_tuple_valid := true, column_type_valid := true,
                            att_byval := true, att_typlen := 8,
                            reverse_sort := false, scandir_backward := false,
                            comparator_lt := some 1, comparator_gt := some 5,
                            rel_index := 1 }),
            .otherPath 7], true) ∧
    (List.Forall₂ branchTransformed
      [.indexPath { sortopfamily_isnull := false, indexorderbys := [],
                    tlist_col := some 0, table_col := 1,
                    column_tuple_valid := true, column_type_valid := true,
                    att_byval := true, att_typlen := 8,
                    reverse_sort := false, scandir_backward := false,
                    comparator_lt := some 1, comparator_gt := some 5,
                    rel_index := 1 },
       .otherPath 7]
      [.skipScanPath
         { skip_clause_opno := 5, skip_clause_left := { varno := 1, varattno := 1 },
           distinct_column := 0, distinct_by_val := true, distinct_typ_len := 8 }
         (.indexPath { sortopfamily_isnull := false, indexorderbys := [],
                       tlist_col := some 0, table_col := 1,
                       column_tuple_valid := true, column_type_valid := true,
                       att_byval := true, att_typlen := 8,
                       reverse_sort := false, scandir_backward := false,
                       comparator_lt := some 1, comparator_gt := some 5,
                       rel_index := 1 }),
       .otherPath 7] ∧
     (true = true ↔ ∃ p ∈ [PPath.indexPath
          { sortopfamily_isnull := false, indexorderbys := [],
            tlist_col := some 0, table_col := 1,
            column_tuple_valid := true, column_type_valid := true,
            att_byval := true, att_typlen := 8,
            reverse_sort := false, scandir_backward := false,
            comparator_lt := some 1, comparator_gt := some 5,
            rel_index := 1 },
          PPath.otherPath 7], Qualifies p) ∧
     (true = false →
       addSkipScanAux (.upperUniquePath 1 (.mergeAppendPath
         [.indexPath { sortopfamily_isnull := false, indexorderbys := [],
                       tlist_col := some 0, table_col := 1,
                       column_tuple_valid := true, column_type_valid := true,
                       att_byval := true, att_typlen := 8,
                       reverse_sort := false, scandir_backward := false,
                       comparator_lt := some 1, comparator_gt := some 5,
                       rel_index := 1 },
          .otherPath 7]) :: []) = .ok []) ∧
     (true = true → ∀ es, addSkipScanAux [] = .ok es →
       addSkipScanAux (.upperUniquePath 1 (.mergeAppendPath
         [.indexPath { sortopfamily_isnull := false, indexorderbys := [],
                       tlist_col := some 0, table_col := 1,
                       column_tuple_valid := true, column_type_valid := true,
                       att_byval := true, att_typlen := 8,
                       reverse_sort := false, scandir_backward := false,
                       comparator_lt := some 1, comparator_gt := some 5,
                       rel_index := 1 },
          .otherPath 7]) :: []) =
         .ok (.upperUniquePath 1 (.mergeAppendPath
           [.skipScanPath
              { skip_clause_opno := 5, skip_clause_left := { varno := 1, varattno := 1 },
                distinct_column := 0, distinct_by_val := true, distinct_typ_len := 8 }
              (.indexPath { sortopfamily_isnull := false, indexorderbys := [],
                            tlist_col := some 0, table_col := 1,
                            column_tuple_valid := true, column_type_valid := true,
                            att_byval := true, att_typlen := 8,
                            reverse_sort := false, scandir_backward := false,
                            comparator_lt := some 1, comparator_gt := some 5,
                            rel_index := 1 }),
            .otherPath 7]) :: es))) :=
  ⟨by decide, rfl,
   claim_C2 1
     [.indexPath { sortopfamily_isnull := false, indexorderbys := [],
                   tlist_col := some 0, table_col := 1,
                   column_tuple_valid := true, column_type_valid := true,
                   att_byval := true, att_typlen := 8,
                   reverse_sort := false, scandir_backward := false,
                   comparator_lt := some 1, comparator_gt := some 5,
                   rel_index := 1 },
      .otherPath 7]
     [.skipScanPath
        { skip_clause_opno := 5, skip_clause_left := { varno := 1, varattno := 1 },
          distinct_column := 0, distinct_by_val := true, distinct_typ_len := 8 }
        (.indexPath { sortopfamily_isnull := false, indexorderbys := [],
                      tlist_col := some 0, table_col := 1,
                      column_tuple_valid := true, column_type_valid := true,
                      att_byval := true, att_typlen := 8,
                      reverse_sort := false, scandir_backward := false,
                      comparator_lt := some 1, comparator_gt := some 5,
                      rel_index := 1 }),
      .otherPath 7]
     [] true (by decide) rfl⟩

/-- C3: every get-next call terminates (the boundary-probe recursion is at
most one level deep, so fuel 2 always suffices); over a whole generation the
operator runs at most one search-for-additional-NULL and at most one
search-for-additional-value probe — hence at most two extra inner-scan
restarts — and when no row satisfies the non-skip predicates it produces no
rows. -/
theorem claim_C3 (desc : Bool) (table : List Row) (q : Row → Bool) (f : SkipFlags)
    (arg : Int) (n : Nat) (hn : table.length + 2 ≤ n) :
    (∀ s : ExecState, (skip_scan_exec_go desc table q 2 s).isSome = true) ∧
    (skip_scan_run desc table q n (skip_scan_initial_state f arg)).2.nNullProbe ≤ 1 ∧
    (skip_scan_run desc table q n (skip_scan_initial_state f arg)).2.nValProbe ≤ 1 ∧
    (table.filter q = [] →
      (skip_scan_run desc table q n (skip_scan_initial_state f arg)).1 = []) := by
  obtain ⟨h1, h2⟩ := run_probe_bound desc table q n (skip_scan_initial_state f arg)
    (Or.inl rfl) (Or.inl rfl)
  refine ⟨fun s => exec_go_two_isSome desc table q s, h1, h2, fun hemp => ?_⟩
  rw [skip_scan_run_eq_expectedGen desc table q f arg n hn, hemp]
  rfl

/-- C3 witness: a one-row table whose row fails the user predicate. -/
theorem claim_C3_witness :
    (([(⟨some 1, 0⟩ : Row)].length + 2 ≤ 3) ∧
    ((∀ s : ExecState, (skip_scan_exec_go false [⟨some 1, 0⟩] (fun _ => false) 2 s).isSome = true) ∧
      (skip_scan_run false [⟨some 1, 0⟩] (fun _ => false) 3
        (skip_scan_initial_state ⟨true, false, false⟩ 0)).2.nNullProbe ≤ 1 ∧
      (skip_scan_run false [⟨some 1, 0⟩] (fun _ => false) 3
        (skip_scan_initial_state ⟨true, false, false⟩ 0)).2.nValProbe ≤ 1 ∧
      ([(⟨some 1, 0⟩ : Row)].filter (fun _ => false) = [] →
        (skip_scan_run false [⟨some 1, 0⟩] (fun _ => false) 3
          (skip_scan_initial_state ⟨true, false, false⟩ 0)).1 = []))) :=
  ⟨by decide,
   claim_C3 false [⟨some 1, 0⟩] (fun _ => false) ⟨true, false, false⟩ 0 3 (by decide)⟩

/-- C4: on the first get-next call of a generation the operator removes the
skip qual and starts the inner scan; on every later call it re-adds the qual
— restarting the inner scan exactly when it had been removed — and stores
the captured previous value as the qual's argument before pulling a row. -/
theorem claim_C4 (desc : Bool) (table : List Row) (q : Row → Bool) (s : ExecState) :
    (s.stage = SkipScanSearchingForFirst →
      (skip_scan_exec desc table q s).2.skip_qual_removed = true ∧
      (skip_scan_exec desc table q s).2.nBegin = s.nBegin + 1) ∧
    (s.stage ≠ SkipScanSearchingForFirst →
      (skip_scan_exec desc table q s).2.skip_qual_removed = false ∧
      (skip_scan_exec desc table q s).2.nBegin =
        (if s.skip_qual_removed then s.nBegin + 1 else s.nBegin) ∧
      (skip_scan_exec desc table q s).2.sk_argument = s.prev_distinct_val) :=
  exec_call_contract desc table q s

/-- C4 witness: the contract instantiated at a fresh generation's state over
a concrete table. -/
theorem claim_C4_witness :
    ((skip_scan_initial_state ⟨true, false, false⟩ 0).stage = SkipScanSearchingForFirst →
      (skip_scan_exec false [⟨some 3, 0⟩] (fun _ => true)
        (skip_scan_initial_state ⟨true, false, false⟩ 0)).2.skip_qual_removed = true ∧
      (skip_scan_exec false [⟨some 3, 0⟩] (fun _ => true)
        (skip_scan_initial_state ⟨true, false, false⟩ 0)).2.nBegin =
        (skip_scan_initial_state ⟨true, false, false⟩ 0).nBegin + 1) ∧
    ((skip_scan_initial_state ⟨true, false, false⟩ 0).stage ≠ SkipScanSearchingForFirst →
      (skip_scan_exec false [⟨some 3, 0⟩] (fun _ => true)
        (skip_scan_initial_state ⟨true, false, false⟩ 0)).2.skip_qual_removed = false ∧
      (skip_scan_exec false [⟨some 3, 0⟩] (fun _ => true)
        (skip_scan_initial_state ⟨true, false, false⟩ 0)).2.nBegin =
        (if (skip_scan_initial_state ⟨true, false, false⟩ 0).skip_qual_removed then
          (skip_scan_initial_state ⟨true, false, false⟩ 0).nBegin + 1
         else (skip_scan_initial_state ⟨true, false, false⟩ 0).nBegin) ∧
      (skip_scan_exec false [⟨some 3, 0⟩] (fun _ => true)
        (skip_scan_initial_state ⟨true, false, false⟩ 0)).2.sk_argument =
        (skip_scan_initial_state ⟨true, false, false⟩ 0).prev_distinct_val) :=
  claim_C4 false [⟨some 3, 0⟩] (fun _ => true) (skip_scan_initial_state ⟨true, false, false⟩ 0)

/-- C5: materializing a skip-scan path splices the synthesized clause ahead
of the user index conditions (for a plain index scan in both the execution
and the original-form qual list), with the clause's left operand rewritten
to the index-tuple reference form (`INDEX_VAR`, index column = offset + 1)
while the original-form copy keeps the table-column Var; and at execution
open, `skip_scan_state_fixup_qual_order` leaves the skip qual as the first
ScanKey on its index column. -/
theorem claim_C5 (sp : SkipScanPathData) (iq iqo : List OpClause) (att : Int)
    (skip : ScanKeyData) (user : List ScanKeyData)
    (hsort : user.Pairwise (fun k₁ k₂ => k₁.sk_attno ≤ k₂.sk_attno)) :
    skip_scan_plan_create sp (.indexScanPlan iq iqo) (some att) =
      .ok { inner := .indexScanPlan (fixedSkipClause sp :: iq) (strippedSkipClause sp :: iqo)
            custom_private := [att, if sp.distinct_by_val then 1 else 0, sp.distinct_typ_len] } ∧
    skip_scan_plan_create sp (.indexOnlyScanPlan iq) (some att) =
      .ok { inner := .indexOnlyScanPlan (fixedSkipClause sp :: iq)
            custom_private := [att, if sp.distinct_by_val then 1 else 0, sp.distinct_typ_len] } ∧
    (fixedSkipClause sp).left = { varno := INDEX_VAR, varattno := (sp.distinct_column : Int) + 1 } ∧
    (strippedSkipClause sp).left = sp.skip_clause_left ∧
    (skip_scan_state_fixup_qual_order (skip :: user)).1 =
      user.take (skip_scan_state_fixup_qual_order (skip :: user)).2 ++
        skip :: user.drop (skip_scan_state_fixup_qual_order (skip :: user)).2 ∧
    (∀ k ∈ user.take (skip_scan_state_fixup_qual_order (skip :: user)).2,
      k.sk_attno < skip.sk_attno) ∧
    (∀ k ∈ user.drop (skip_scan_state_fixup_qual_order (skip :: user)).2,
      skip.sk_attno ≤ k.sk_attno) := by
  obtain ⟨ha, hb, hc⟩ := fixup_qual_order_spec skip user hsort
  exact ⟨rfl, rfl, rfl, rfl, ha, hb, hc⟩

/-- C5 witness: a skip clause on index column offset 1 spliced ahead of one
user clause, and a ScanKey array with user keys on columns 1, 2 and 3 around
a skip qual on column 2. -/
theorem claim_C5_witness :
    ([(⟨1, 0, 0⟩ : ScanKeyData), ⟨2, 0, 0⟩, ⟨3, 0, 0⟩].Pairwise
        (fun k₁ k₂ => k₁.sk_attno ≤ k₂.sk_attno)) ∧
    (skip_scan_plan_create
        { skip_clause_opno := 5, skip_clause_left := { varno := 4, varattno := 2 },
          distinct_column := 1, distinct_by_val := true, distinct_typ_len := 8 }
        (.indexScanPlan [{ opno := 9, left := { varno := -3, varattno := 1 } }]
          [{ opno := 9, left := { varno := 4, varattno := 7 } }]) (some 1) =
      .ok { inner := .indexScanPlan
              (fixedSkipClause
                { skip_clause_opno := 5, skip_clause_left := { varno := 4, varattno := 2 },
                  distinct_column := 1, distinct_by_val := true, distinct_typ_len := 8 } ::
                [{ opno := 9, left := { varno := -3, varattno := 1 } }])
              (strippedSkipClause
                { skip_clause_opno := 5, skip_clause_left := { varno := 4, varattno := 2 },
                  distinct_column := 1, distinct_by_val := true, distinct_typ_len := 8 } ::
                [{ opno := 9, left := { varno := 4, varattno := 7 } }])
            custom_private := [1, if true then 1 else 0, 8] } ∧
      skip_scan_plan_create
        { skip_clause_opno := 5, skip_clause_left := { varno := 4, varattno := 2 },
          distinct_column := 1, distinct_by_val := true, distinct_typ_len := 8 }
        (.indexOnlyScanPlan [{ opno := 9, left := { varno := -3, varattno := 1 } }]) (some 1) =
      .ok { inner := .indexOnlyScanPlan
              (fixedSkipClause
                { skip_clause_opno := 5, skip_clause_left := { varno := 4, varattno := 2 },
                  distinct_column := 1, distinct_by_val := true, distinct_typ_len := 8 } ::
                [{ opno := 9, left := { varno := -3, varattno := 1 } }])
            custom_private := [1, if true then 1 else 0, 8] } ∧
      (fixedSkipClause
          { skip_clause_opno := 5, skip_clause_left := { varno := 4, varattno := 2 },
            distinct_column := 1, distinct_by_val := true, distinct_typ_len := 8 }).left =
        { varno := INDEX_VAR, varattno := ((1 : Nat) : Int) + 1 } ∧
      (strippedSkipClause
          { skip_clause_opno := 5, skip_clause_left := { varno := 4, varattno := 2 },
            distinct_column := 1, distinct_by_val := true, distinct_typ_len := 8 }).left =
        ({ skip_clause_opno := 5, skip_clause_left := { varno := 4, varattno := 2 },
           distinct_column := 1, distinct_by_val := true,
           distinct_typ_len := 8 } : SkipScanPathData).skip_clause_left ∧
      (skip_scan_state_fixup_qual_order
          ((⟨2, 0, 0⟩ : ScanKeyData) :: [⟨1, 0, 0⟩, ⟨2, 0, 0⟩, ⟨3, 0, 0⟩])).1 =
        [(⟨1, 0, 0⟩ : ScanKeyData), ⟨2, 0, 0⟩, ⟨3, 0, 0⟩].take
            (skip_scan_state_fixup_qual_order
              ((⟨2, 0, 0⟩ : ScanKeyData) :: [⟨1, 0, 0⟩, ⟨2, 0, 0⟩, ⟨3, 0, 0⟩])).2 ++
          (⟨2, 0, 0⟩ : ScanKeyData) ::
            [(⟨1, 0, 0⟩ : ScanKeyData), ⟨2, 0, 0⟩, ⟨3, 0, 0⟩].drop
              (skip_scan_state_fixup_qual_order
                ((⟨2, 0, 0⟩ : ScanKeyData) :: [⟨1, 0, 0⟩, ⟨2, 0, 0⟩, ⟨3, 0, 0⟩])).2 ∧
      (∀ k ∈ [(⟨1, 0, 0⟩ : ScanKeyData), ⟨2, 0, 0⟩, ⟨3, 0, 0⟩].take
          (skip_scan_state_fixup_qual_order
            ((⟨2, 0, 0⟩ : ScanKeyData) :: [⟨1, 0, 0⟩, ⟨2, 0, 0⟩, ⟨3, 0, 0⟩])).2,
        k.sk_attno < (⟨2, 0, 0⟩ : ScanKeyData).sk_attno) ∧
      (∀ k ∈ [(⟨1, 0, 0⟩ : ScanKeyData), ⟨2, 0, 0⟩, ⟨3, 0, 0⟩].drop
          (skip_scan_state_fixup_qual_order
            ((⟨2, 0, 0⟩ : ScanKeyData) :: [⟨1, 0, 0⟩, ⟨2, 0, 0⟩, ⟨3, 0, 0⟩])).2,
        (⟨2, 0, 0⟩ : ScanKeyData).sk_attno ≤ k.sk_attno)) :=
  ⟨by decide,
   claim_C5
     { skip_clause_opno := 5, skip_clause_left := { varno := 4, varattno := 2 },
       distinct_column := 1, distinct_by_val := true, distinct_typ_len := 8 }
     [{ opno := 9, left := { varno := -3, varattno := 1 } }]
     [{ opno := 9, left := { varno := 4, varattno := 7 } }] 1
     ⟨2, 0, 0⟩ [⟨1, 0, 0⟩, ⟨2, 0, 0⟩, ⟨3, 0, 0⟩] (by decide)⟩

/-- C6: an inner scan requesting order-by keys, or of an unrecognized node
type, draws a fatal `elog(ERROR, ...)` from `skip_scan_begin` before any row
is produced; an order-by-free Index(Only)Scan is accepted; and the Path
Selector never builds a skip-scan path over an index path with order-by
clauses (silent decline), so for planner-built inputs the error branches
are unreachable. -/
theorem claim_C6 (n t : Nat) (hn : 0 < n) (ip : IndexPathInfo)
    (hip : ip.indexorderbys ≠ []) :
    skip_scan_begin_check (.indexScanState n) = .error "cannot SkipScan with OrderByKeys" ∧
    skip_scan_begin_check (.indexOnlyScanState n) = .error "cannot SkipScan with OrderByKeys" ∧
    skip_scan_begin_check (.unknownScanState t) = .error "unknown subscan type in SkipScan" ∧
    skip_scan_begin_check (.indexScanState 0) = .ok false ∧
    skip_scan_begin_check (.indexOnlyScanState 0) = .ok true ∧
    create_index_skip_scan_path ip = .ok none := by
  refine ⟨?_, ?_, rfl, rfl, rfl, ?_⟩
  · simp [skip_scan_begin_check, hn]
  · simp [skip_scan_begin_check, hn]
  · unfold create_index_skip_scan_path
    by_cases hso : ip.sortopfamily_isnull
    · rw [if_pos hso]
    · rw [if_neg hso, if_pos hip]

/-- C6 witness: one order-by key on each scan kind, and an index path with a
nonempty `indexorderbys` list. -/
theorem claim_C6_witness :
    (0 < 1) ∧
    (({ sortopfamily_isnull := false, indexorderbys := [()],
        tlist_col := some 0, table_col := 1,
        column_tuple_valid := true, column_type_valid := true,
        att_byval := true, att_typlen := 8,
        reverse_sort := false, scandir_backward := false,
        comparator_lt := some 1, comparator_gt := some 5,
        rel_index := 1 } : IndexPathInfo).indexorderbys ≠ []) ∧
    (skip_scan_begin_check (.indexScanState 1) = .error "cannot SkipScan with OrderByKeys" ∧
     skip_scan_begin_check (.indexOnlyScanState 1) = .error "cannot SkipScan with OrderByKeys" ∧
     skip_scan_begin_check (.unknownScanState 0) = .error "unknown subscan type in SkipScan" ∧
     skip_scan_begin_check (.indexScanState 0) = .ok false ∧
     skip_scan_begin_check (.indexOnlyScanState 0) = .ok true ∧
     create_index_skip_scan_path
       { sortopfamily_isnull := false, indexorderbys := [()],
         tlist_col := some 0, table_col := 1,
         column_tuple_valid := true, column_type_valid := true,
         att_byval := true, att_typlen := 8,
         reverse_sort := false, scandir_backward := false,
         comparator_lt := some 1, comparator_gt := some 5,
         rel_index := 1 } = .ok none) :=
  ⟨by decide, by decide,
   claim_C6 1 0 (by decide)
     { sortopfamily_isnull := false, indexorderbys := [()],
       tlist_col := some 0, table_col := 1,
       column_tuple_valid := true, column_type_valid := true,
       att_byval := true, att_typlen := 8,
       reverse_sort := false, scandir_backward := false,
       comparator_lt := some 1, comparator_gt := some 5,
       rel_index := 1 } (by decide)⟩

/-- C7: rescan from any mid- or post-generation state resets the stage to
SearchingForFirst, drops the captured value, restores the skip qual, and
re-driving the operator to exhaustion over the unchanged table reproduces
exactly the row list of a fresh generation — whatever flag word and argument
the previous generation left in the skip qual's ScanKey. -/
theorem claim_C7 (desc : Bool) (table : List Row) (q : Row → Bool) (s : ExecState)
    (f : SkipFlags) (arg : Int) (n m : Nat)
    (hn : table.length + 2 ≤ n) (hm : table.length + 2 ≤ m) :
    (skip_scan_rescan s).stage = SkipScanSearchingForFirst ∧
    (skip_scan_rescan s).prev_is_null = true ∧
    (skip_scan_rescan s).skip_qual_removed = false ∧
    (skip_scan_run desc table q n (skip_scan_rescan s)).1 =
      (skip_scan_run desc table q m (skip_scan_initial_state f arg)).1 := by
  have h1 : skip_scan_rescan s = skip_scan_initial_state s.sk_flags s.sk_argument := rfl
  refine ⟨rfl, rfl, rfl, ?_⟩
  rw [h1, skip_scan_run_eq_expectedGen desc table q _ _ n hn,
    skip_scan_run_eq_expectedGen desc table q f arg m hm]

/-- C7 witness: rescan from a saturated mid-generation state over the
Scenario 1 table reproduces the fresh generation's row list. -/
theorem claim_C7_witness :
    (([(⟨some 1, 10⟩ : Row), ⟨some 2, 30⟩, ⟨none, 40⟩].length + 2 ≤ 5) ∧
    (([(⟨some 1, 10⟩ : Row), ⟨some 2, 30⟩, ⟨none, 40⟩].length + 2 ≤ 6) ∧ True) ∧
    ((skip_scan_rescan
        { stage := ⟨true, true, false⟩, prev_distinct_val := 2, prev_is_null := false,
          sk_flags := ⟨true, true, false⟩, sk_argument := 2, skip_qual_removed := true,
          nBegin := 3, nNullProbe := 1, nValProbe := 0 }).stage = SkipScanSearchingForFirst ∧
      (skip_scan_rescan
        { stage := ⟨true, true, false⟩, prev_distinct_val := 2, prev_is_null := false,
          sk_flags := ⟨true, true, false⟩, sk_argument := 2, skip_qual_removed := true,
          nBegin := 3, nNullProbe := 1, nValProbe := 0 }).prev_is_null = true ∧
      (skip_scan_rescan
        { stage := ⟨true, true, false⟩, prev_distinct_val := 2, prev_is_null := false,
          sk_flags := ⟨true, true, false⟩, sk_argument := 2, skip_qual_removed := true,
          nBegin := 3, nNullProbe := 1, nValProbe := 0 }).skip_qual_removed = false ∧
      (skip_scan_run false [⟨some 1, 10⟩, ⟨some 2, 30⟩, ⟨none, 40⟩] (fun _ => true) 5
        (skip_scan_rescan
          { stage := ⟨true, true, false⟩, prev_distinct_val := 2, prev_is_null := false,
            sk_flags := ⟨true, true, false⟩, sk_argument := 2, skip_qual_removed := true,
            nBegin := 3, nNullProbe := 1, nValProbe := 0 })).1 =
        (skip_scan_run false [⟨some 1, 10⟩, ⟨some 2, 30⟩, ⟨none, 40⟩] (fun _ => true) 6
          (skip_scan_initial_state ⟨true, false, false⟩ 0)).1)) :=
  ⟨by decide, ⟨by decide, trivial⟩,
   claim_C7 false [⟨some 1, 10⟩, ⟨some 2, 30⟩, ⟨none, 40⟩] (fun _ => true)
     { stage := ⟨true, true, false⟩, prev_distinct_val := 2, prev_is_null := false,
       sk_flags := ⟨true, true, false⟩, sk_argument := 2, skip_qual_removed := true,
       nBegin := 3, nNullProbe := 1, nValProbe := 0 }
     ⟨true, false, false⟩ 0 5 6 (by decide) (by decide)⟩

/-- C8: the hook is gated on the session switch — disabled, it returns the
pathlist unchanged — and when enabled it only appends skip-scan alternatives
after the existing paths, never removing or modifying any of them. -/
theorem claim_C8 (pl res : List PPath)
    (h : ts_add_skip_scan_paths true pl = .ok res) :
    ts_add_skip_scan_paths false pl = .ok pl ∧
    ∃ extra, res = pl ++ extra ∧ ∀ p ∈ extra, isSkipScanAlternative p = true :=
  ⟨ts_add_disabled pl, ts_add_enabled_additive pl res h⟩

/-- C8 witness: a pathlist with no skip-scan candidate passes through both
gates untouched. -/
theorem claim_C8_witness :
    ts_add_skip_scan_paths true [.otherPath 3] = .ok [.otherPath 3] ∧
    (ts_add_skip_scan_paths false [.otherPath 3] = .ok [.otherPath 3] ∧
      ∃ extra, [PPath.otherPath 3] = [PPath.otherPath 3] ++ extra ∧
        ∀ p ∈ extra, isSkipScanAlternative p = true) :=
  ⟨rfl, claim_C8 [.otherPath 3] [.otherPath 3] rfl⟩

/-- C9: the Stage's found bits are monotonic across get-next calls — a set
found-NULL or found-value bit is never cleared by a later call of the same
generation — and only an explicit rescan resets the Stage to
SearchingForFirst. -/
theorem claim_C9 (desc : Bool) (table : List Row) (q : Row → Bool) (s : ExecState) :
    (s.stage.foundNull = true →
      ((skip_scan_exec desc table q s).2).stage.foundNull = true) ∧
    (s.stage.foundVal = true →
      ((skip_scan_exec desc table q s).2).stage.foundVal = true) ∧
    (skip_scan_rescan s).stage = SkipScanSearchingForFirst :=
  ⟨exec_foundNull_mono desc table q s, exec_foundVal_mono desc table q s, rfl⟩

/-- C9 witness: monotonicity at a state with both found bits set over a
concrete table. -/
theorem claim_C9_witness :
    (({ stage := ⟨true, true, false⟩, prev_distinct_val := 1, prev_is_null := false,
        sk_flags := ⟨true, true, false⟩, sk_argument := 1, skip_qual_removed := false,
        nBegin := 1, nNullProbe := 0, nValProbe := 0 } : ExecState).stage.foundNull = true →
      ((skip_scan_exec false [⟨some 2, 0⟩] (fun _ => true)
        { stage := ⟨true, true, false⟩, prev_distinct_val := 1, prev_is_null := false,
          sk_flags := ⟨true, true, false⟩, sk_argument := 1, skip_qual_removed := false,
          nBegin := 1, nNullProbe := 0, nValProbe := 0 }).2).stage.foundNull = true) ∧
    (({ stage := ⟨true, true, false⟩, prev_distinct_val := 1, prev_is_null := false,
        sk_flags := ⟨true, true, false⟩, sk_argument := 1, skip_qual_removed := false,
        nBegin := 1, nNullProbe := 0, nValProbe := 0 } : ExecState).stage.foundVal = true →
      ((skip_scan_exec false [⟨some 2, 0⟩] (fun _ => true)
        { stage := ⟨true, true, false⟩, prev_distinct_val := 1, prev_is_null := false,
          sk_flags := ⟨true, true, false⟩, sk_argument := 1, skip_qual_removed := false,
          nBegin := 1, nNullProbe := 0, nValProbe := 0 }).2).stage.foundVal = true) ∧
    (skip_scan_rescan
      { stage := ⟨true, true, false⟩, prev_distinct_val := 1, prev_is_null := false,
        sk_flags := ⟨true, true, false⟩, sk_argument := 1, skip_qual_removed := false,
        nBegin := 1, nNullProbe := 0, nValProbe := 0 }).stage = SkipScanSearchingForFirst :=
  claim_C9 false [⟨some 2, 0⟩] (fun _ => true)
    { stage := ⟨true, true, false⟩, prev_distinct_val := 1, prev_is_null := false,
      sk_flags := ⟨true, true, false⟩, sk_argument := 1, skip_qual_removed := false,
      nBegin := 1, nNullProbe := 0, nValProbe := 0 }

/-- C10: with the skip qual sitting at its recorded offset in the ScanKey
array, removing it and then re-adding it restores the array contents and
the key count exactly (reporting true); re-adding when it was never removed
changes nothing and reports false. -/
theorem claim_C10 (pre mid post : List ScanKeyData) (k : ScanKeyData) (s t : KeyState)
    (hkeys : s.scan_keys = pre ++ k :: (mid ++ post))
    (hoff : s.skip_qual_offset = pre.length)
    (hnum : s.num_scan_keys = pre.length + 1 + mid.length)
    (hrem : s.skip_qual_removed = false)
    (hk : s.skip_qual = k)
    (hrem2 : t.skip_qual_removed = false) :
    skip_scan_state_readd_skip_qual_if_needed (skip_scan_state_remove_skip_qual s) =
      (s, true) ∧
    skip_scan_state_readd_skip_qual_if_needed t = (t, false) :=
  ⟨remove_readd_roundtrip pre mid post k s hkeys hoff hnum hrem hk,
   readd_not_removed t hrem2⟩

/-- C10 witness: a three-key array with the skip qual between two user keys
and no dead tail. -/
theorem claim_C10_witness :
    (({ scan_keys := [⟨1, 0, 0⟩, ⟨2, 2, 5⟩, ⟨3, 0, 0⟩], num_scan_keys := 3,
        skip_qual := ⟨2, 2, 5⟩, skip_qual_offset := 1,
        skip_qual_removed := false } : KeyState).scan_keys =
      [(⟨1, 0, 0⟩ : ScanKeyData)] ++ (⟨2, 2, 5⟩ : ScanKeyData) ::
        ([(⟨3, 0, 0⟩ : ScanKeyData)] ++ []) ∧
    ({ scan_keys := [⟨1, 0, 0⟩, ⟨2, 2, 5⟩, ⟨3, 0, 0⟩], num_scan_keys := 3,
       skip_qual := ⟨2, 2, 5⟩, skip_qual_offset := 1,
       skip_qual_removed := false } : KeyState).skip_qual_offset =
      [(⟨1, 0, 0⟩ : ScanKeyData)].length ∧
    ({ scan_keys := [⟨1, 0, 0⟩, ⟨2, 2, 5⟩, ⟨3, 0, 0⟩], num_scan_keys := 3,
       skip_qual := ⟨2, 2, 5⟩, skip_qual_offset := 1,
       skip_qual_removed := false } : KeyState).num_scan_keys =
      [(⟨1, 0, 0⟩ : ScanKeyData)].length + 1 + [(⟨3, 0, 0⟩ : ScanKeyData)].length ∧
    ({ scan_keys := [⟨1, 0, 0⟩, ⟨2, 2, 5⟩, ⟨3, 0, 0⟩], num_scan_keys := 3,
       skip_qual := ⟨2, 2, 5⟩, skip_qual_offset := 1,
       skip_qual_removed := false } : KeyState).skip_qual_removed = false ∧
    ({ scan_keys := [⟨1, 0, 0⟩, ⟨2, 2, 5⟩, ⟨3, 0, 0⟩], num_scan_keys := 3,
       skip_qual := ⟨2, 2, 5⟩, skip_qual_offset := 1,
       skip_qual_removed := false } : KeyState).skip_qual = ⟨2, 2, 5⟩) ∧
    (skip_scan_state_readd_skip_qual_if_needed
        (skip_scan_state_remove_skip_qual
          { scan_keys := [⟨1, 0, 0⟩, ⟨2, 2, 5⟩, ⟨3, 0, 0⟩], num_scan_keys := 3,
            skip_qual := ⟨2, 2, 5⟩, skip_qual_offset := 1,
            skip_qual_removed := false }) =
      ({ scan_keys := [⟨1, 0, 0⟩, ⟨2, 2, 5⟩, ⟨3, 0, 0⟩], num_scan_keys := 3,
         skip_qual := ⟨2, 2, 5⟩, skip_qual_offset := 1,
         skip_qual_removed := false }, true) ∧
     skip_scan_state_readd_skip_qual_if_needed
        { scan_keys := [⟨1, 0, 0⟩, ⟨2, 2, 5⟩, ⟨3, 0, 0⟩], num_scan_keys := 3,
          skip_qual := ⟨2, 2, 5⟩, skip_qual_offset := 1,
          skip_qual_removed := false } =
      ({ scan_keys := [⟨1, 0, 0⟩, ⟨2, 2, 5⟩, ⟨3, 0, 0⟩], num_scan_keys := 3,
         skip_qual := ⟨2, 2, 5⟩, skip_qual_offset := 1,
         skip_qual_removed := false }, false)) :=
  ⟨⟨rfl, rfl, rfl, rfl, rfl⟩,
   claim_C10 [⟨1, 0, 0⟩] [⟨3, 0, 0⟩] [] ⟨2, 2, 5⟩
     { scan_keys := [⟨1, 0, 0⟩, ⟨2, 2, 5⟩, ⟨3, 0, 0⟩], num_scan_keys := 3,
       skip_qual := ⟨2, 2, 5⟩, skip_qual_offset := 1,
       skip_qual_removed := false }
     { scan_keys := [⟨1, 0, 0⟩, ⟨2, 2, 5⟩, ⟨3, 0, 0⟩], num_scan_keys := 3,
       skip_qual := ⟨2, 2, 5⟩, skip_qual_offset := 1,
       skip_qual_removed := false }
     rfl rfl rfl rfl rfl rfl⟩

end Claims
